import Mathlib

/-!
# Lesson progress tracker

A shallow embedding of the progress / experience-point tracker of
`src/estudy/static/estudy/lesson.js` (lines 176-359): the five-stage progress record,
the XP record, `awardXp`, `triggerXpReward`, `handleSummaryUnlocked` and
`setProgressStep` (the operation the specification calls `setStage`).

Modelling choices, all visible in the definitions below:

* JavaScript numbers are exact: the totals, levels and instants of the records are `Int`, and
  so is every amount that `triggerXpReward` hands to `awardXp` (the integer literals of
  `STEP_XP` and a `Number.parseInt` result), on which `Math.round` is the identity.
  `awardXpRational` is `awardXp` for an arbitrary rational amount, with the `Math.round` of
  line 270 written out.  Magnitudes beyond the exact range of a double (2^53) are not
  modelled, and neither is `NaN` as an amount.
* The progress record is a structure with its six own keys; the flags are `Bool`.
* The progress key and the XP key of `localStorage` are two distinct slots, and a slot holds
  the record that `JSON.stringify` last serialised.  `persistProgressState`,
  `persistXpState` and the operations built on them are the tracker on a storage whose
  `setItem` succeeds; `persistProgressStateWith`, `persistXpStateWith` and the operations
  built on those take the outcome of the writes as an argument, a failed `setItem` being
  swallowed by `safeStorage.set` (lines 26-32).
* `new Date()` is an argument: `now` for the award of the stage itself, `nowAuto` for the
  award made inside the nested auto-cascade call.
* DOM updates (`updateProgressUI`, `updateXpCard`, banner classes) change no tracked state
  and are left out.
-/

namespace Lesson

/-! ## Data model -/

/-- The stage names of `PROGRESS_STEPS` (line 8). -/
inductive Stage where
  | concept
  | example
  | practice
  | test
  | summary
  deriving DecidableEq, Repr, Fintype

/-- The array `PROGRESS_STEPS` (line 8), in source order. -/
def PROGRESS_STEPS : List Stage :=
  [Stage.concept, Stage.example, Stage.practice, Stage.test, Stage.summary]

/-- The own property names of `progressState` (lines 177-180): the five stages, seeded by the
`reduce` over `PROGRESS_STEPS`, and `summaryRewarded`, the key of the initial accumulator. -/
inductive Key where
  | stage (s : Stage)
  | summaryRewarded
  deriving DecidableEq, Repr

/-- The JavaScript string naming a stage. -/
def Stage.name : Stage → String
  | Stage.concept => "concept"
  | Stage.example => "example"
  | Stage.practice => "practice"
  | Stage.test => "test"
  | Stage.summary => "summary"

/-- The JavaScript string naming an own key of the progress record. -/
def Key.name : Key → String
  | Key.stage s => s.name
  | Key.summaryRewarded => "summaryRewarded"

/-- Resolve a property name against the own keys of the progress record. -/
def Key.ofName? (name : String) : Option Key :=
  if name = "concept" then some (Key.stage Stage.concept)
  else if name = "example" then some (Key.stage Stage.example)
  else if name = "practice" then some (Key.stage Stage.practice)
  else if name = "test" then some (Key.stage Stage.test)
  else if name = "summary" then some (Key.stage Stage.summary)
  else if name = "summaryRewarded" then some Key.summaryRewarded
  else none

/-- The object `progressState` (lines 177-185).  The key `example` is spelled `example_`
because `example` is a reserved word. -/
structure ProgressState where
  concept : Bool
  example_ : Bool
  practice : Bool
  test : Bool
  summary : Bool
  summaryRewarded : Bool
  deriving DecidableEq, Repr

/-- The value of `defaultProgressState` before anything is merged into it (lines 177-180). -/
def defaultProgressState : ProgressState :=
  ⟨false, false, false, false, false, false⟩

/-- Property read `progressState[step]` for an own key. -/
def ProgressState.get (p : ProgressState) : Key → Bool
  | Key.stage Stage.concept => p.concept
  | Key.stage Stage.example => p.example_
  | Key.stage Stage.practice => p.practice
  | Key.stage Stage.test => p.test
  | Key.stage Stage.summary => p.summary
  | Key.summaryRewarded => p.summaryRewarded

/-- Property write `progressState[step] = value` for an own key. -/
def ProgressState.set (p : ProgressState) (k : Key) (v : Bool) : ProgressState :=
  match k with
  | Key.stage Stage.concept => { p with concept := v }
  | Key.stage Stage.example => { p with example_ := v }
  | Key.stage Stage.practice => { p with practice := v }
  | Key.stage Stage.test => { p with test := v }
  | Key.stage Stage.summary => { p with summary := v }
  | Key.summaryRewarded => { p with summaryRewarded := v }

/-- The object `xpState` (lines 206-214) with the `lastReason` key that `awardXp` adds.
`lastPlayedAt` is the instant in milliseconds that the stored ISO string denotes; `none`
stands for `null` or a missing key. -/
structure XpState where
  total : Int
  level : Int
  badge : String
  streak : Option Int
  lastPlayedAt : Option Int
  lastReason : Option String
  deriving DecidableEq, Repr

/-- What the page's XP card element carries (lines 196-207). -/
structure XpCard where
  /-- Result of `Number.parseInt(xpCard.dataset.xpReward || '0', 10)`; `none` is `NaN`. -/
  xpReward : Option Int
  /-- Result of `Number.parseInt(xpAmountNode?.textContent || '0', 10)`; `none` is `NaN`. -/
  xpAmount : Option Int
  deriving DecidableEq, Repr

/-- The page the tracker is loaded on: `xpCard` is `none` when
`document.querySelector('[data-xp-card]')` finds nothing (line 196). -/
structure Page where
  xpCard : Option XpCard
  deriving DecidableEq, Repr

/-- Line 203: `Number.parseInt(xpCard?.dataset.xpReward || '0', 10) || 40`. -/
def xpRewardTotal (page : Page) : Int :=
  match page.xpCard with
  | some card =>
    match card.xpReward with
    | some n => if n = 0 then 40 else n
    | none => 40
  | none => 40

/-- Lines 206-212: `defaultXpState`; `lastReason` is not yet a key. -/
def defaultXpState (page : Page) : XpState :=
  { total :=
      match page.xpCard with
      | some card =>
        match card.xpAmount with
        | some n => n
        | none => 0
      | none => 0
    level := 1
    badge := "Beginner"
    streak := some 0
    lastPlayedAt := none
    lastReason := none }

/-- The tracker's state: the two in-memory records, the two storage slots, and a history
variable.  `awardLog` records the `(reason, amount)` of every `awardXp` call that passed its
guard, newest first; no operation reads it. -/
structure State where
  progress : ProgressState
  xp : XpState
  storedProgress : Option ProgressState
  storedXp : Option XpState
  awardLog : List (String × Int)
  deriving DecidableEq, Repr

/-! ## Operations -/

/-- Line 216: `Math.max(1, Math.floor(xp / 120) + 1)`; integer division by a positive
number rounds down. -/
def computeLevel (xp : Int) : Int :=
  max 1 (xp / 120 + 1)

/-- Lines 217-225. -/
def computeBadge (level : Int) : String :=
  if level ≥ 5 then "Legend"
  else if level ≥ 3 then "Explorer"
  else "Beginner"

/-- The built-in `Math.round` of line 270 on an exact rational: the integer nearest to `x`,
the one towards plus infinity when two are equally near. -/
def mathRound (x : ℚ) : Int :=
  ⌊x + 1 / 2⌋

/-- Lines 192-194: `persistProgressState`, when the `setItem` of line 28 succeeds; see
`persistProgressStateWith` for a write that may fail. -/
def persistProgressState (σ : State) : State :=
  { σ with storedProgress := some σ.progress }

/-- Lines 227-229: `persistXpState`, when the `setItem` of line 28 succeeds; see
`persistXpStateWith` for a write that may fail. -/
def persistXpState (σ : State) : State :=
  { σ with storedXp := some σ.xp }

/-- Lines 264-287: `awardXp(amount, reason)` at clock reading `now`, for an integer amount.
`Math.round` is the identity on the integer `total + amount` (`awardXpRational` below has it
written out, for any amount); `reason` is always a non-empty step name, so `reason || ''`
is `reason`. -/
def awardXp (page : Page) (now : Int) (amount : Int) (reason : String) (σ : State) : State :=
  if page.xpCard.isNone || amount = 0 then σ
  else
    let x := σ.xp
    let lastAward := x.lastPlayedAt
    let total := max 0 (x.total + amount)
    let streak :=
      match lastAward with
      | some last =>
        let diffDays := (now - last) / 86400000
        if diffDays = 1 then some (x.streak.getD 0 + 1)
        else if diffDays > 1 then some 1
        else x.streak
      | none => some 1
    let level := computeLevel total
    let x1 : XpState :=
      { total := total
        level := level
        badge := computeBadge level
        streak := streak
        lastPlayedAt := some now
        lastReason := some reason }
    persistXpState { σ with xp := x1, awardLog := (reason, amount) :: σ.awardLog }

/-- Lines 291-296: the table `STEP_XP`; `none` is `undefined`. -/
def STEP_XP (page : Page) : Key → Option Int
  | Key.stage Stage.example => some 10
  | Key.stage Stage.practice => some 5
  | Key.stage Stage.test => some 7
  | Key.stage Stage.summary => some (xpRewardTotal page)
  | Key.stage Stage.concept => none
  | Key.summaryRewarded => none

/-- Lines 298-303: `triggerXpReward(step)`. -/
def triggerXpReward (page : Page) (now : Int) (step : Key) (σ : State) : State :=
  match STEP_XP page step with
  | some amount => if amount ≠ 0 then awardXp page now amount step.name σ else σ
  | none => σ

/-- Lines 321-332: `handleSummaryUnlocked`. -/
def handleSummaryUnlocked (page : Page) (now : Int) (σ : State) : State :=
  if !σ.progress.summaryRewarded then
    let σ1 := triggerXpReward page now (Key.stage Stage.summary) σ
    persistProgressState { σ1 with progress := { σ1.progress with summaryRewarded := true } }
  else σ

/-- Lines 351-353: every name of `PROGRESS_STEPS` other than `summary` is set. -/
def coreStepsComplete (p : ProgressState) : Bool :=
  (PROGRESS_STEPS.filter (fun name => name ≠ Stage.summary)).all
    (fun name => p.get (Key.stage name))

/-- Lines 335-349 of `setProgressStep`, for a step that is an own key of the record: the
guard, the write, the forced reset of `summary`, the persist and the two reward calls.
`none` is the early `return false`. -/
def stepBody (page : Page) (now : Int) (step : Key) (value : Bool) (σ : State) :
    Option State :=
  if σ.progress.get step = value then none
  else
    let p1 := σ.progress.set step value
    let p2 :=
      if !value && step ≠ Key.stage Stage.summary && p1.summary then
        { p1 with summary := false }
      else p1
    let σ1 := persistProgressState { σ with progress := p2 }
    let σ2 :=
      if value && step ≠ Key.stage Stage.summary then triggerXpReward page now step σ1
      else σ1
    let σ3 :=
      if step = Key.stage Stage.summary && value then handleSummaryUnlocked page now σ2
      else σ2
    some σ3

/-- Lines 334-359: `setProgressStep(step, value, { skipAuto })` for a step that is an own key
of the record; the result is the returned boolean and the state afterwards.  The nested call
`setProgressStep('summary', true, { skipAuto: true })` of line 355 runs the same body with
the cascade block switched off, and its return value is discarded. -/
def setProgressStep (page : Page) (now nowAuto : Int) (step : Key) (value : Bool)
    (skipAuto : Bool) (σ : State) : Bool × State :=
  match stepBody page now step value σ with
  | none => (false, σ)
  | some σ3 =>
    if !skipAuto && step ≠ Key.stage Stage.summary then
      if coreStepsComplete σ3.progress then
        (true, (stepBody page nowAuto (Key.stage Stage.summary) true σ3).getD σ3)
      else (true, σ3)
    else (true, σ3)

/-- The call `setProgressStep(name, value, { skipAuto })` for an arbitrary property name.
The guard of line 335 asks `name in progressState`: that holds for the six own keys of the
record, and for the names the record inherits from `Object.prototype`, which are given
here as `inherited`.  A call that passes the guard with an inherited name leaves the part of
JavaScript modelled here (the result is `none`); every other name is refused by the
guard. -/
def setProgressStepNamed (page : Page) (inherited : List String) (now nowAuto : Int)
    (name : String) (value skipAuto : Bool) (σ : State) : Option (Bool × State) :=
  match Key.ofName? name with
  | some k => some (setProgressStep page now nowAuto k value skipAuto σ)
  | none => if name ∈ inherited then none else some (false, σ)

/-! ## Sequences of calls -/

/-- One call `setProgressStep(stage, value, { skipAuto })` on a stage of `PROGRESS_STEPS`,
with the two clock readings it may consume. -/
structure Call where
  stage : Stage
  value : Bool
  skipAuto : Bool
  now : Int
  nowAuto : Int
  deriving DecidableEq, Repr

/-- The state after the call. -/
def Call.apply (page : Page) (c : Call) (σ : State) : State :=
  (setProgressStep page c.now c.nowAuto (Key.stage c.stage) c.value c.skipAuto σ).2

/-- The state after a finite sequence of calls, first call first. -/
def runCalls (page : Page) : List Call → State → State
  | [], σ => σ
  | c :: cs, σ => runCalls page cs (c.apply page σ)

/-- The state of a first visit: nothing stored under either key, so both records are the
defaults (lines 182 and 214 with `loadState` returning its fallback). -/
def freshState (page : Page) : State :=
  { progress := defaultProgressState
    xp := defaultXpState page
    storedProgress := none
    storedXp := none
    awardLog := [] }

/-- The in-memory state a page load builds from the two storage slots (lines 182-185 and
214): a stored record carries every key, so `Object.assign` replaces the defaults by it; an
empty slot leaves the defaults.  The award history starts empty. -/
def openPage (page : Page) (storedProgress : Option ProgressState)
    (storedXp : Option XpState) : State :=
  { progress := storedProgress.getD defaultProgressState
    xp := storedXp.getD (defaultXpState page)
    storedProgress := storedProgress
    storedXp := storedXp
    awardLog := [] }

/-- Something that happens to the tracker of one lesson: a `setProgressStep` call on a
stage, or a reload of the page, which rebuilds both records from storage. -/
inductive Action where
  | call (c : Call)
  | reload
  deriving DecidableEq, Repr

/-- The state after an action.  A reload keeps the storage slots and the award history. -/
def Action.apply (page : Page) : Action → State → State
  | Action.call c, σ => c.apply page σ
  | Action.reload, σ => { openPage page σ.storedProgress σ.storedXp with awardLog := σ.awardLog }

/-- The state after a finite sequence of actions, first action first. -/
def runActions (page : Page) : List Action → State → State
  | [], σ => σ
  | a :: as, σ => runActions page as (a.apply page σ)

/-- How many times the summary reward was granted: the `awardXp` calls of the history whose
reason is `summary`. -/
def summaryGrants (log : List (String × Int)) : Nat :=
  log.countP (fun entry => entry.1 = "summary")

/-- The progress slot of the storage agrees with the in-memory record: a reload would
rebuild the record that is in memory. -/
def Synced (σ : State) : Prop :=
  σ.storedProgress.getD defaultProgressState = σ.progress

/-- The total that results from a starting total by making the awards of a history, oldest
(last) entry first, each with the clamp of line 270. -/
def replayTotal (entries : List (String × Int)) (total : Int) : Int :=
  entries.foldr (fun entry t => max 0 (t + entry.2)) total

/-- The XP slot of the storage agrees with the in-memory XP record. -/
def XpSynced (page : Page) (σ : State) : Prop :=
  σ.storedXp.getD (defaultXpState page) = σ.xp

/-- The state `τ` comes from `σ` by awards that are all in the history: the history grew by
some entries, the total is the old total with exactly those awards made, and the XP slot of
the storage stayed in step. -/
def AwardsOnly (page : Page) (σ τ : State) : Prop :=
  ∃ entries : List (String × Int),
    τ.awardLog = entries ++ σ.awardLog ∧
      τ.xp.total = replayTotal entries σ.xp.total ∧
      (XpSynced page σ → XpSynced page τ)

/-- The data-model invariant of the progress record: `summary` implies the four other
stages. -/
def SummaryInv (p : ProgressState) : Prop :=
  p.summary = true →
    p.concept = true ∧ p.example_ = true ∧ p.practice = true ∧ p.test = true

instance (p : ProgressState) : Decidable (SummaryInv p) :=
  inferInstanceAs (Decidable (p.summary = true →
    p.concept = true ∧ p.example_ = true ∧ p.practice = true ∧ p.test = true))

/-- A call respects the prerequisites in a progress record when it is not a direct
`setProgressStep('summary', true)` made while one of the four other stages is unset. -/
def Call.respectsPrereqs (c : Call) (p : ProgressState) : Prop :=
  c.stage = Stage.summary → c.value = true → coreStepsComplete p = true

instance (c : Call) (p : ProgressState) : Decidable (c.respectsPrereqs p) :=
  inferInstanceAs (Decidable
    (c.stage = Stage.summary → c.value = true → coreStepsComplete p = true))

/-- Every call of the sequence respects the prerequisites in the state it is made in. -/
def respectsPrereqsAlong (page : Page) : List Call → State → Prop
  | [], _ => True
  | c :: cs, σ => c.respectsPrereqs σ.progress ∧ respectsPrereqsAlong page cs (c.apply page σ)

/-- Decision procedure for `respectsPrereqsAlong`, by recursion on the sequence. -/
def respectsPrereqsAlong.decide (page : Page) :
    (cs : List Call) → (σ : State) → Decidable (respectsPrereqsAlong page cs σ)
  | [], _ => isTrue trivial
  | c :: cs, σ =>
    match (inferInstance : Decidable (c.respectsPrereqs σ.progress)),
      respectsPrereqsAlong.decide page cs (c.apply page σ) with
    | isTrue h1, isTrue h2 => isTrue ⟨h1, h2⟩
    | isFalse h1, _ => isFalse (fun h => h1 h.1)
    | _, isFalse h2 => isFalse (fun h => h2 h.2)

instance (page : Page) (cs : List Call) (σ : State) :
    Decidable (respectsPrereqsAlong page cs σ) :=
  respectsPrereqsAlong.decide page cs σ

/-! ## The progress display and the page load -/

/-- Line 306 of `updateProgressUI`: the `reduce` over `PROGRESS_STEPS` that counts the stages
whose flag is set. -/
def completedCount (p : ProgressState) : Nat :=
  PROGRESS_STEPS.foldl (fun acc step => acc + (if p.get (Key.stage step) then 1 else 0)) 0

/-- Line 307 of `updateProgressUI`: `Math.round((completed / PROGRESS_STEPS.length) * 100)`,
in exact arithmetic. -/
def progressPercent (p : ProgressState) : Int :=
  mathRound ((completedCount p : ℚ) / (PROGRESS_STEPS.length : ℚ) * 100)

/-- What `window.localStorage.getItem(key)` does at line 20: it throws, or it returns the
stored string, or `null` when nothing is stored under the key. -/
inductive ReadResult where
  | throws
  | value (raw : Option String)
  deriving DecidableEq, Repr

/-- Lines 18-25: `safeStorage.get`; an exception becomes `null`. -/
def safeStorageGet : ReadResult → Option String
  | ReadResult.throws => none
  | ReadResult.value raw => raw

/-- Lines 43-54: `loadState(key, fallback)`.  `parse` stands for `JSON.parse`, `none` being
its `SyntaxError`; `!raw` holds for `null` and for the empty string. -/
def loadState {α : Type} (parse : String → Option α) (read : ReadResult) (fallback : α) : α :=
  match safeStorageGet read with
  | none => fallback
  | some raw =>
    if raw = "" then fallback
    else
      match parse raw with
      | some v => v
      | none => fallback

/-- Lines 182-185 and 214: the state a page load builds from what the two storage reads
return.  The two parsers stand for `JSON.parse` followed by reading the value as a record of
the data model: `some (some r)` is a complete record, `some none` a value with nothing to
merge (such as `{}` or `null`), `none` a `SyntaxError`.  The fallbacks `{}` of line 182 and
`null`, turned into `{}` by line 214, have nothing to merge either. -/
def initialState (page : Page) (parseProgress : String → Option (Option ProgressState))
    (parseXp : String → Option (Option XpState)) (progressRead xpRead : ReadResult) : State :=
  openPage page (loadState parseProgress progressRead none) (loadState parseXp xpRead none)

/-- The rank of a badge among the three tiers, for comparing badges. -/
def badgeRank (badge : String) : Nat :=
  if badge = "Legend" then 2
  else if badge = "Explorer" then 1
  else 0

/-! ## An award of any numeric amount

`awardXp` above takes the integer amounts that `triggerXpReward` hands it.  The function
below is the same source function for an arbitrary rational amount, with the `Math.round`
of line 270 written out; `awardXp_eq_awardXpRational` proves that the two agree on every
integer amount. -/

/-- Lines 264-287: `awardXp(amount, reason)` at clock reading `now`, for any rational
`amount`.  The history variable is left alone: it records integer amounts. -/
def awardXpRational (page : Page) (now : Int) (amount : ℚ) (reason : String) (σ : State) :
    State :=
  if page.xpCard.isNone || amount = 0 then σ
  else
    let x := σ.xp
    let lastAward := x.lastPlayedAt
    let total := max 0 (mathRound ((x.total : ℚ) + amount))
    let streak :=
      match lastAward with
      | some last =>
        let diffDays := (now - last) / 86400000
        if diffDays = 1 then some (x.streak.getD 0 + 1)
        else if diffDays > 1 then some 1
        else x.streak
      | none => some 1
    let level := computeLevel total
    let x1 : XpState :=
      { total := total
        level := level
        badge := computeBadge level
        streak := streak
        lastPlayedAt := some now
        lastReason := some reason }
    persistXpState { σ with xp := x1 }

/-! ## Storage writes that fail

`persistProgressState` and `persistXpState` above are the two writes on a storage whose
`setItem` succeeds.  `safeStorage.set` (lines 26-32) catches the exception of a `setItem`
that fails and goes on, so the slot keeps what it held.  The definitions below are the same
operations with the outcome of every write as an argument; `setProgressStepWith_allSucceed`
proves that they are the operations above when every write succeeds. -/

/-- The outcomes of the `setItem` calls that one run of lines 335-349 can reach, `false`
being the exception caught at line 29: the write of the progress record at line 342, the
write of the XP record at line 285 (one run awards at most once, for the stage or for the
summary), and the write of the progress record at line 331. -/
structure Writes where
  progress : Bool
  xp : Bool
  rewarded : Bool
  deriving DecidableEq, Repr

/-- Every write succeeds. -/
def Writes.allSucceed : Writes :=
  ⟨true, true, true⟩

/-- Lines 26-32: `safeStorage.set(key, value)` seen from the slot of `key`: a `setItem` that
throws leaves the slot as it was. -/
def safeStorageSet {α : Type} (succeeds : Bool) (slot : Option α) (value : α) : Option α :=
  if succeeds then some value else slot

/-- Lines 192-194 with lines 26-32: `persistProgressState` when the write may fail. -/
def persistProgressStateWith (succeeds : Bool) (σ : State) : State :=
  { σ with storedProgress := safeStorageSet succeeds σ.storedProgress σ.progress }

/-- Lines 227-229 with lines 26-32: `persistXpState` when the write may fail. -/
def persistXpStateWith (succeeds : Bool) (σ : State) : State :=
  { σ with storedXp := safeStorageSet succeeds σ.storedXp σ.xp }

/-- Lines 264-287: `awardXp` when the write may fail. -/
def awardXpWith (page : Page) (w : Writes) (now : Int) (amount : Int) (reason : String)
    (σ : State) : State :=
  if page.xpCard.isNone || amount = 0 then σ
  else
    let x := σ.xp
    let lastAward := x.lastPlayedAt
    let total := max 0 (x.total + amount)
    let streak :=
      match lastAward with
      | some last =>
        let diffDays := (now - last) / 86400000
        if diffDays = 1 then some (x.streak.getD 0 + 1)
        else if diffDays > 1 then some 1
        else x.streak
      | none => some 1
    let level := computeLevel total
    let x1 : XpState :=
      { total := total
        level := level
        badge := computeBadge level
        streak := streak
        lastPlayedAt := some now
        lastReason := some reason }
    persistXpStateWith w.xp { σ with xp := x1, awardLog := (reason, amount) :: σ.awardLog }

/-- Lines 298-303: `triggerXpReward` when the write may fail. -/
def triggerXpRewardWith (page : Page) (w : Writes) (now : Int) (step : Key) (σ : State) :
    State :=
  match STEP_XP page step with
  | some amount => if amount ≠ 0 then awardXpWith page w now amount step.name σ else σ
  | none => σ

/-- Lines 321-332: `handleSummaryUnlocked` when the writes may fail. -/
def handleSummaryUnlockedWith (page : Page) (w : Writes) (now : Int) (σ : State) : State :=
  if !σ.progress.summaryRewarded then
    let σ1 := triggerXpRewardWith page w now (Key.stage Stage.summary) σ
    persistProgressStateWith w.rewarded
      { σ1 with progress := { σ1.progress with summaryRewarded := true } }
  else σ

/-- Lines 335-349 of `setProgressStep` when the writes may fail. -/
def stepBodyWith (page : Page) (w : Writes) (now : Int) (step : Key) (value : Bool)
    (σ : State) : Option State :=
  if σ.progress.get step = value then none
  else
    let p1 := σ.progress.set step value
    let p2 :=
      if !value && step ≠ Key.stage Stage.summary && p1.summary then
        { p1 with summary := false }
      else p1
    let σ1 := persistProgressStateWith w.progress { σ with progress := p2 }
    let σ2 :=
      if value && step ≠ Key.stage Stage.summary then triggerXpRewardWith page w now step σ1
      else σ1
    let σ3 :=
      if step = Key.stage Stage.summary && value then handleSummaryUnlockedWith page w now σ2
      else σ2
    some σ3

/-- Lines 334-359: `setProgressStep` when the writes may fail: `w` holds the outcomes of the
writes of the call itself, `wAuto` those of the nested call of line 355. -/
def setProgressStepWith (page : Page) (w wAuto : Writes) (now nowAuto : Int) (step : Key)
    (value : Bool) (skipAuto : Bool) (σ : State) : Bool × State :=
  match stepBodyWith page w now step value σ with
  | none => (false, σ)
  | some σ3 =>
    if !skipAuto && step ≠ Key.stage Stage.summary then
      if coreStepsComplete σ3.progress then
        (true, (stepBodyWith page wAuto nowAuto (Key.stage Stage.summary) true σ3).getD σ3)
      else (true, σ3)
    else (true, σ3)

/-- An action together with the outcomes of the writes it makes: `writes` for the call
itself, `writesAuto` for the nested call of the auto-cascade.  A reload writes nothing. -/
structure Event where
  action : Action
  writes : Writes
  writesAuto : Writes
  deriving DecidableEq, Repr

/-- The state after an event. -/
def Event.apply (page : Page) (e : Event) (σ : State) : State :=
  match e.action with
  | Action.call c =>
    (setProgressStepWith page e.writes e.writesAuto c.now c.nowAuto (Key.stage c.stage)
      c.value c.skipAuto σ).2
  | Action.reload =>
    { openPage page σ.storedProgress σ.storedXp with awardLog := σ.awardLog }

/-- The state after a finite sequence of events, first event first. -/
def runEvents (page : Page) : List Event → State → State
  | [], σ => σ
  | e :: es, σ => runEvents page es (e.apply page σ)

/-- Two states hold the same progress record and the same award history; they hold the same
XP record if `sameXp`, and the same record in the progress slot of the storage if
`sameStored`. -/
def AgreeUpTo (sameXp sameStored : Prop) (σ τ : State) : Prop :=
  σ.progress = τ.progress ∧ σ.awardLog = τ.awardLog ∧ (sameXp → σ.xp = τ.xp) ∧
    (sameStored → σ.storedProgress = τ.storedProgress)

/-! ## The progress record on its own

`stepBody` and `setProgressStep` never read the XP record when they update the progress
record.  The two functions below are that update with the XP side projected away; the
theorems `stepBody_progress` and `setProgressStep_progress` prove that they are exactly
the progress component of the operations above. -/

/-- The progress record after `stepBody`; `none` is the early `return false`. -/
def progressBody (step : Key) (value : Bool) (p : ProgressState) : Option ProgressState :=
  if p.get step = value then none
  else
    let p1 := p.set step value
    let p2 :=
      if !value && step ≠ Key.stage Stage.summary && p1.summary then
        { p1 with summary := false }
      else p1
    some (if step = Key.stage Stage.summary && value then { p2 with summaryRewarded := true }
      else p2)

/-- The returned boolean and the progress record after `setProgressStep`. -/
def progressAfter (step : Key) (value skipAuto : Bool) (p : ProgressState) :
    Bool × ProgressState :=
  match progressBody step value p with
  | none => (false, p)
  | some p3 =>
    if !skipAuto && step ≠ Key.stage Stage.summary then
      if coreStepsComplete p3 then
        (true, (progressBody (Key.stage Stage.summary) true p3).getD p3)
      else (true, p3)
    else (true, p3)

/-! ## Frame lemmas: what the XP operations leave alone -/

@[simp]
theorem awardXp_progress (page : Page) (now amount : Int) (reason : String) (σ : State) :
    (awardXp page now amount reason σ).progress = σ.progress := by
  unfold awardXp persistXpState
  split <;> rfl

@[simp]
theorem awardXp_storedProgress (page : Page) (now amount : Int) (reason : String)
    (σ : State) :
    (awardXp page now amount reason σ).storedProgress = σ.storedProgress := by
  unfold awardXp persistXpState
  split <;> rfl

@[simp]
theorem triggerXpReward_progress (page : Page) (now : Int) (step : Key) (σ : State) :
    (triggerXpReward page now step σ).progress = σ.progress := by
  unfold triggerXpReward
  split
  · split <;> simp
  · rfl

@[simp]
theorem triggerXpReward_storedProgress (page : Page) (now : Int) (step : Key) (σ : State) :
    (triggerXpReward page now step σ).storedProgress = σ.storedProgress := by
  unfold triggerXpReward
  split
  · split <;> simp
  · rfl

/-- The progress record after `handleSummaryUnlocked`: the guard flag is set. -/
theorem handleSummaryUnlocked_progress (page : Page) (now : Int) (σ : State) :
    (handleSummaryUnlocked page now σ).progress
      = { σ.progress with summaryRewarded := true } := by
  unfold handleSummaryUnlocked persistProgressState
  cases h : σ.progress.summaryRewarded
  · simp
  · obtain ⟨⟨c, e, p, t, s, r⟩, x, sp, sx, lg⟩ := σ
    simp at h
    simp [h]

/-- The progress component of `stepBody` is `progressBody`. -/
theorem stepBody_progress (page : Page) (now : Int) (step : Key) (value : Bool) (σ : State) :
    (stepBody page now step value σ).map State.progress
      = progressBody step value σ.progress := by
  unfold stepBody progressBody
  by_cases h : σ.progress.get step = value
  · simp [h]
  · by_cases hs : step = Key.stage Stage.summary
    · subst hs
      cases value <;> simp [h, handleSummaryUnlocked_progress, persistProgressState]
    · cases value <;> simp [h, hs, persistProgressState]

/-- The returned boolean and the progress component of `setProgressStep` are
`progressAfter`. -/
theorem setProgressStep_progress (page : Page) (now nowAuto : Int) (step : Key)
    (value skipAuto : Bool) (σ : State) :
    ((setProgressStep page now nowAuto step value skipAuto σ).1,
      (setProgressStep page now nowAuto step value skipAuto σ).2.progress)
      = progressAfter step value skipAuto σ.progress := by
  have h1 := stepBody_progress page now step value σ
  unfold setProgressStep progressAfter
  cases hb : stepBody page now step value σ with
  | none =>
    rw [hb] at h1
    simp at h1
    simp [← h1]
  | some σ3 =>
    rw [hb] at h1
    simp at h1
    rw [← h1]
    have h2 := stepBody_progress page nowAuto (Key.stage Stage.summary) true σ3
    simp only []
    split
    · split
      · rw [← h2]
        cases stepBody page nowAuto (Key.stage Stage.summary) true σ3 <;> simp
      · rfl
    · rfl

/-! ## The summary invariant along sequences of calls -/

/-- One update that respects the prerequisites preserves the summary invariant. -/
theorem progressAfter_summaryInv (st : Stage) (v sk : Bool) (p : ProgressState)
    (hinv : SummaryInv p)
    (hc : st = Stage.summary → v = true → coreStepsComplete p = true) :
    SummaryInv (progressAfter (Key.stage st) v sk p).2 := by
  obtain ⟨c, e, pr, t, s, r⟩ := p
  revert hinv hc
  revert c e pr t s r
  cases st <;> cases v <;> cases sk <;> decide

/-- One call that respects the prerequisites preserves the summary invariant. -/
theorem summaryInv_apply (page : Page) (c : Call) (σ : State)
    (hinv : SummaryInv σ.progress) (hc : c.respectsPrereqs σ.progress) :
    SummaryInv (c.apply page σ).progress := by
  have h := setProgressStep_progress page c.now c.nowAuto (Key.stage c.stage) c.value
    c.skipAuto σ
  have h2 := congrArg Prod.snd h
  simp only [] at h2
  unfold Call.apply
  rw [h2]
  exact progressAfter_summaryInv c.stage c.value c.skipAuto σ.progress hinv hc

/-- The summary invariant survives every sequence of calls that respects the
prerequisites. -/
theorem summaryInv_runCalls (page : Page) (cs : List Call) (σ : State)
    (hinv : SummaryInv σ.progress) (hadm : respectsPrereqsAlong page cs σ) :
    SummaryInv (runCalls page cs σ).progress := by
  induction cs generalizing σ with
  | nil => simpa [runCalls] using hinv
  | cons c cs ih =>
    obtain ⟨h1, h2⟩ := hadm
    exact ih (c.apply page σ) (summaryInv_apply page c σ hinv h1) h2

/-! ## Single calls: the guard and the progress record -/

/-- The returned boolean of `setProgressStep`. -/
theorem setProgressStep_fst (page : Page) (now nowAuto : Int) (step : Key)
    (value skipAuto : Bool) (σ : State) :
    (setProgressStep page now nowAuto step value skipAuto σ).1
      = (progressAfter step value skipAuto σ.progress).1 :=
  congrArg Prod.fst (setProgressStep_progress page now nowAuto step value skipAuto σ)

/-- The progress record after `setProgressStep`. -/
theorem setProgressStep_snd_progress (page : Page) (now nowAuto : Int) (step : Key)
    (value skipAuto : Bool) (σ : State) :
    (setProgressStep page now nowAuto step value skipAuto σ).2.progress
      = (progressAfter step value skipAuto σ.progress).2 :=
  congrArg Prod.snd (setProgressStep_progress page now nowAuto step value skipAuto σ)

/-- The guard of line 335: when the flag already has the requested value the call returns
`false` and the whole state is untouched. -/
theorem setProgressStep_noop (page : Page) (now nowAuto : Int) (step : Key)
    (value skipAuto : Bool) (σ : State) (h : σ.progress.get step = value) :
    setProgressStep page now nowAuto step value skipAuto σ = (false, σ) := by
  simp [setProgressStep, stepBody, h]

/-- After a call on a stage, the flag of that stage has the requested value, and the call
returned `false` exactly when the flag had that value before. -/
theorem progressAfter_flag (st : Stage) (v sk : Bool) (p : ProgressState) :
    (progressAfter (Key.stage st) v sk p).2.get (Key.stage st) = v ∧
      ((progressAfter (Key.stage st) v sk p).1 = false ↔ p.get (Key.stage st) = v) := by
  obtain ⟨c, e, pr, t, s, r⟩ := p
  revert c e pr t s r
  cases st <;> cases v <;> cases sk <;> decide

/-! ## Claims C1 to C5 -/

/-- C1 as stated fails: on a first visit, one direct call `setProgressStep('summary', true)`
leaves `summary` set while the four other stages are unset. -/
theorem summary_invariant_broken_by_direct_summary :
    ¬ SummaryInv
      (runCalls ⟨none⟩ [⟨Stage.summary, true, false, 0, 0⟩] (freshState ⟨none⟩)).progress := by
  decide

/-- C1, amended: in every progress state reached from the all-false default record by a
finite sequence of `setProgressStep` calls (any of the five stages, any value, with or
without `skipAuto`) in which `summary` is set to true directly only while the four other
stages are set, `summary = true` implies that concept, example, practice and test are
true. -/
theorem summary_invariant_reachable (page : Page) (cs : List Call) (σ0 : State)
    (h0 : σ0.progress = defaultProgressState)
    (hadm : respectsPrereqsAlong page cs σ0) :
    SummaryInv (runCalls page cs σ0).progress := by
  apply summaryInv_runCalls page cs σ0 _ hadm
  rw [h0]
  decide

/-- Witness for C1, amended: a visit that completes all four stages (with a regression and
a suppressed call on the way), resets `summary` and sets it again directly; every call
respects the prerequisites and the final record has `summary` set. -/
theorem summary_invariant_reachable_witness :
    (freshState ⟨some ⟨none, none⟩⟩).progress = defaultProgressState ∧
    respectsPrereqsAlong ⟨some ⟨none, none⟩⟩
      [⟨Stage.concept, true, false, 0, 0⟩, ⟨Stage.example, true, false, 5, 5⟩,
        ⟨Stage.example, false, true, 6, 6⟩, ⟨Stage.practice, true, false, 7, 7⟩,
        ⟨Stage.test, true, false, 8, 8⟩, ⟨Stage.example, true, false, 9, 9⟩,
        ⟨Stage.summary, false, false, 10, 10⟩, ⟨Stage.summary, true, false, 11, 11⟩]
      (freshState ⟨some ⟨none, none⟩⟩) ∧
    SummaryInv (runCalls ⟨some ⟨none, none⟩⟩
      [⟨Stage.concept, true, false, 0, 0⟩, ⟨Stage.example, true, false, 5, 5⟩,
        ⟨Stage.example, false, true, 6, 6⟩, ⟨Stage.practice, true, false, 7, 7⟩,
        ⟨Stage.test, true, false, 8, 8⟩, ⟨Stage.example, true, false, 9, 9⟩,
        ⟨Stage.summary, false, false, 10, 10⟩, ⟨Stage.summary, true, false, 11, 11⟩]
      (freshState ⟨some ⟨none, none⟩⟩)).progress ∧
    (runCalls ⟨some ⟨none, none⟩⟩
      [⟨Stage.concept, true, false, 0, 0⟩, ⟨Stage.example, true, false, 5, 5⟩,
        ⟨Stage.example, false, true, 6, 6⟩, ⟨Stage.practice, true, false, 7, 7⟩,
        ⟨Stage.test, true, false, 8, 8⟩, ⟨Stage.example, true, false, 9, 9⟩,
        ⟨Stage.summary, false, false, 10, 10⟩, ⟨Stage.summary, true, false, 11, 11⟩]
      (freshState ⟨some ⟨none, none⟩⟩)).progress.summary = true :=
  ⟨rfl, by decide, summary_invariant_reachable _ _ _ rfl (by decide), by decide⟩

/-- Progress-record form of C2: completing the last unset prerequisite sets `summary`. -/
theorem progressAfter_last_prerequisite (st : Stage) (p : ProgressState)
    (hst : st ≠ Stage.summary) (hsum : p.summary = false)
    (hfalse : p.get (Key.stage st) = false)
    (hrest : ∀ t : Stage, t ≠ Stage.summary → t ≠ st → p.get (Key.stage t) = true) :
    (progressAfter (Key.stage st) true false p).1 = true ∧
      (progressAfter (Key.stage st) true false p).2.summary = true := by
  obtain ⟨c, e, pr, t, s, r⟩ := p
  revert hst hsum hfalse hrest
  cases st <;> cases c <;> cases e <;> cases pr <;> cases t <;> cases s <;> cases r <;>
    decide

/-- Progress-record form of C3: a regressing prerequisite takes `summary` down with it. -/
theorem progressAfter_regress (st : Stage) (sk : Bool) (p : ProgressState)
    (hst : st ≠ Stage.summary) (hsum : p.summary = true)
    (htrue : p.get (Key.stage st) = true) :
    (progressAfter (Key.stage st) false sk p).1 = true ∧
      (progressAfter (Key.stage st) false sk p).2.get (Key.stage st) = false ∧
      (progressAfter (Key.stage st) false sk p).2.summary = false := by
  obtain ⟨c, e, pr, t, s, r⟩ := p
  revert hst hsum htrue
  revert c e pr t s r
  cases st <;> cases sk <;> decide

/-- C2: in a state where `summary` is unset and `s` is the only unset stage among concept,
example, practice and test, `setProgressStep(s, true)` without `skipAuto` returns true and
leaves `summary` set; when all four are already set and `summary` is unset,
`setProgressStep('test', true)` returns false, changes nothing, and `summary` stays unset. -/
theorem last_prerequisite_sets_summary (page : Page) (now nowAuto : Int) (σ : State)
    (hsum : σ.progress.summary = false) :
    (∀ s : Stage, s ≠ Stage.summary → σ.progress.get (Key.stage s) = false →
      (∀ t : Stage, t ≠ Stage.summary → t ≠ s → σ.progress.get (Key.stage t) = true) →
      (setProgressStep page now nowAuto (Key.stage s) true false σ).1 = true ∧
        (setProgressStep page now nowAuto (Key.stage s) true false σ).2.progress.summary
          = true) ∧
    ((∀ t : Stage, t ≠ Stage.summary → σ.progress.get (Key.stage t) = true) →
      setProgressStep page now nowAuto (Key.stage Stage.test) true false σ = (false, σ) ∧
        (setProgressStep page now nowAuto (Key.stage Stage.test) true false σ).2.progress.summary
          = false) := by
  constructor
  · intro s hs hfalse hrest
    rw [setProgressStep_fst, setProgressStep_snd_progress]
    exact progressAfter_last_prerequisite s σ.progress hs hsum hfalse hrest
  · intro hall
    have htest : σ.progress.get (Key.stage Stage.test) = true := hall Stage.test (by decide)
    have hno := setProgressStep_noop page now nowAuto (Key.stage Stage.test) true false σ htest
    rw [hno]
    exact ⟨rfl, hsum⟩

/-- Witness for C2: with concept, example and practice set and an XP card on the page,
completing `test` sets `summary`; with `test` set as well, the same call leaves `summary`
unset. -/
theorem last_prerequisite_sets_summary_witness :
    (setProgressStep ⟨some ⟨none, none⟩⟩ 0 0 (Key.stage Stage.test) true false
      { freshState ⟨some ⟨none, none⟩⟩ with
        progress := ⟨true, true, true, false, false, false⟩ }).1 = true ∧
    (setProgressStep ⟨some ⟨none, none⟩⟩ 0 0 (Key.stage Stage.test) true false
      { freshState ⟨some ⟨none, none⟩⟩ with
        progress := ⟨true, true, true, false, false, false⟩ }).2.progress.summary = true ∧
    (setProgressStep ⟨some ⟨none, none⟩⟩ 0 0 (Key.stage Stage.test) true false
      { freshState ⟨some ⟨none, none⟩⟩ with
        progress := ⟨true, true, true, true, false, false⟩ }).2.progress.summary = false :=
  ⟨((last_prerequisite_sets_summary ⟨some ⟨none, none⟩⟩ 0 0
      { freshState ⟨some ⟨none, none⟩⟩ with
        progress := ⟨true, true, true, false, false, false⟩ } rfl).1
      Stage.test (by decide) rfl (by decide)).1,
    ((last_prerequisite_sets_summary ⟨some ⟨none, none⟩⟩ 0 0
      { freshState ⟨some ⟨none, none⟩⟩ with
        progress := ⟨true, true, true, false, false, false⟩ } rfl).1
      Stage.test (by decide) rfl (by decide)).2,
    ((last_prerequisite_sets_summary ⟨some ⟨none, none⟩⟩ 0 0
      { freshState ⟨some ⟨none, none⟩⟩ with
        progress := ⟨true, true, true, true, false, false⟩ } rfl).2 (by decide)).2⟩

/-- C3: for a stage `s` other than summary, in a state where `s` and `summary` are both set,
`setProgressStep(s, false)`, with or without `skipAuto`, returns true and leaves both `s`
and `summary` unset. -/
theorem regress_clears_summary (page : Page) (now nowAuto : Int) (s : Stage) (skipAuto : Bool)
    (σ : State) (hs : s ≠ Stage.summary) (hset : σ.progress.get (Key.stage s) = true)
    (hsum : σ.progress.summary = true) :
    (setProgressStep page now nowAuto (Key.stage s) false skipAuto σ).1 = true ∧
      (setProgressStep page now nowAuto (Key.stage s) false skipAuto σ).2.progress.get
        (Key.stage s) = false ∧
      (setProgressStep page now nowAuto (Key.stage s) false skipAuto σ).2.progress.summary
        = false := by
  rw [setProgressStep_fst, setProgressStep_snd_progress]
  exact progressAfter_regress s skipAuto σ.progress hs hsum hset

/-- Witness for C3: from the all-complete record, regressing `practice` with the cascade
suppressed. -/
theorem regress_clears_summary_witness :
    (setProgressStep ⟨some ⟨none, none⟩⟩ 0 0 (Key.stage Stage.practice) false true
      { freshState ⟨some ⟨none, none⟩⟩ with
        progress := ⟨true, true, true, true, true, true⟩ }).1 = true ∧
    (setProgressStep ⟨some ⟨none, none⟩⟩ 0 0 (Key.stage Stage.practice) false true
      { freshState ⟨some ⟨none, none⟩⟩ with
        progress := ⟨true, true, true, true, true, true⟩ }).2.progress.get
        (Key.stage Stage.practice) = false ∧
    (setProgressStep ⟨some ⟨none, none⟩⟩ 0 0 (Key.stage Stage.practice) false true
      { freshState ⟨some ⟨none, none⟩⟩ with
        progress := ⟨true, true, true, true, true, true⟩ }).2.progress.summary = false :=
  regress_clears_summary ⟨some ⟨none, none⟩⟩ 0 0 Stage.practice true
    { freshState ⟨some ⟨none, none⟩⟩ with
      progress := ⟨true, true, true, true, true, true⟩ } (by decide) rfl rfl

/-- C4: calling `setProgressStep(stage, v)` twice in a row, for any of the five stages, any
value, any state, any `skipAuto` flags and any clock readings: the second call returns false
and leaves the whole state (progress record, XP record, both storage slots, award history)
exactly as the first call left it. -/
theorem setProgressStep_idempotent (page : Page) (now1 nowAuto1 now2 nowAuto2 : Int)
    (s : Stage) (v skip1 skip2 : Bool) (σ : State) :
    setProgressStep page now2 nowAuto2 (Key.stage s) v skip2
        (setProgressStep page now1 nowAuto1 (Key.stage s) v skip1 σ).2
      = (false, (setProgressStep page now1 nowAuto1 (Key.stage s) v skip1 σ).2) := by
  apply setProgressStep_noop
  rw [setProgressStep_snd_progress]
  exact (progressAfter_flag s v skip1 σ.progress).1

/-- C5: for each of the five stages and every state, `setProgressStep(stage, completed)`
returns false exactly when the flag of the stage already equals `completed`; in that case
the whole state, the progress record with `summaryRewarded` and the XP record included, is
unchanged; otherwise it returns true and the flag equals `completed` afterwards. -/
theorem setProgressStep_changed_iff (page : Page) (now nowAuto : Int) (s : Stage)
    (completed skipAuto : Bool) (σ : State) :
    ((setProgressStep page now nowAuto (Key.stage s) completed skipAuto σ).1 = false ↔
      σ.progress.get (Key.stage s) = completed) ∧
    (σ.progress.get (Key.stage s) = completed →
      (setProgressStep page now nowAuto (Key.stage s) completed skipAuto σ).2 = σ) ∧
    (σ.progress.get (Key.stage s) ≠ completed →
      (setProgressStep page now nowAuto (Key.stage s) completed skipAuto σ).1 = true ∧
        (setProgressStep page now nowAuto (Key.stage s) completed skipAuto σ).2.progress.get
          (Key.stage s) = completed) := by
  have hflag := progressAfter_flag s completed skipAuto σ.progress
  refine ⟨?_, ?_, ?_⟩
  · rw [setProgressStep_fst]
    exact hflag.2
  · intro h
    rw [setProgressStep_noop page now nowAuto (Key.stage s) completed skipAuto σ h]
  · intro h
    rw [setProgressStep_fst, setProgressStep_snd_progress]
    refine ⟨?_, hflag.1⟩
    cases hb : (progressAfter (Key.stage s) completed skipAuto σ.progress).1
    · exact absurd (hflag.2.mp hb) h
    · rfl

/-! ## Claim C6: names that are not stages -/

/-- A name that is no property of the record, own or inherited, is refused by the guard:
the call returns false and the state is untouched. -/
theorem setProgressStepNamed_not_a_property (page : Page) (inherited : List String)
    (now nowAuto : Int) (name : String) (value skipAuto : Bool) (σ : State)
    (hown : Key.ofName? name = none) (hinh : name ∉ inherited) :
    setProgressStepNamed page inherited now nowAuto name value skipAuto σ
      = some (false, σ) := by
  simp [setProgressStepNamed, hown, hinh]

/-- C6, the defect: `summaryRewarded` is not a stage, yet on a first visit
`setProgressStep('summaryRewarded', true)` passes the guard, returns true, sets the
reward flag and persists it. -/
theorem summaryRewarded_accepted_as_step (inherited : List String) :
    setProgressStepNamed ⟨some ⟨none, none⟩⟩ inherited 0 0 "summaryRewarded" true false
        (freshState ⟨some ⟨none, none⟩⟩)
      = some (true,
          { freshState ⟨some ⟨none, none⟩⟩ with
            progress := ⟨false, false, false, false, false, true⟩
            storedProgress := some ⟨false, false, false, false, false, true⟩ }) := by
  simp [setProgressStepNamed, Key.ofName?]
  decide

/-! ## The XP side of a call -/

/-- The award history after `awardXp`: one entry more exactly when the guard of line 265
lets the call through. -/
theorem awardXp_awardLog (page : Page) (now amount : Int) (reason : String) (σ : State) :
    (awardXp page now amount reason σ).awardLog
      = if page.xpCard.isNone || amount = 0 then σ.awardLog
        else (reason, amount) :: σ.awardLog := by
  unfold awardXp persistXpState
  split <;> rfl

/-- The XP record after `awardXp` depends on the state only through its XP record. -/
theorem awardXp_xp_congr (page : Page) (now amount : Int) (reason : String) (σ τ : State)
    (h : σ.xp = τ.xp) :
    (awardXp page now amount reason σ).xp = (awardXp page now amount reason τ).xp := by
  unfold awardXp persistXpState
  split <;> simp [h]

/-- The XP record after `triggerXpReward` depends on the state only through its XP
record. -/
theorem triggerXpReward_xp_congr (page : Page) (now : Int) (step : Key) (σ τ : State)
    (h : σ.xp = τ.xp) :
    (triggerXpReward page now step σ).xp = (triggerXpReward page now step τ).xp := by
  unfold triggerXpReward
  split
  · split
    · exact awardXp_xp_congr page now _ _ σ τ h
    · exact h
  · exact h

/-- The reward of a stage other than summary is never logged as a summary grant. -/
theorem triggerXpReward_stage_summaryGrants (page : Page) (now : Int) (s : Stage) (σ : State)
    (hs : s ≠ Stage.summary) :
    summaryGrants (triggerXpReward page now (Key.stage s) σ).awardLog
      = summaryGrants σ.awardLog := by
  cases s <;>
    simp [triggerXpReward, STEP_XP, awardXp_awardLog, summaryGrants, Key.name, Stage.name]
      at hs ⊢ <;>
    split <;> simp

/-- One summary reward adds at most one summary grant to the history. -/
theorem triggerXpReward_summary_summaryGrants (page : Page) (now : Int) (σ : State) :
    summaryGrants σ.awardLog
        ≤ summaryGrants (triggerXpReward page now (Key.stage Stage.summary) σ).awardLog ∧
      summaryGrants (triggerXpReward page now (Key.stage Stage.summary) σ).awardLog
        ≤ summaryGrants σ.awardLog + 1 := by
  unfold triggerXpReward
  simp only [STEP_XP]
  split
  · rw [awardXp_awardLog]
    split
    · simp
    · simp [summaryGrants, Key.name, Stage.name]
  · simp

/-- Writing `false` over an unset `summary` changes nothing. -/
theorem summary_false_eq (p : ProgressState) (h : p.summary = false) :
    ({ p with summary := false } : ProgressState) = p := by
  obtain ⟨c, e, pr, t, s, r⟩ := p
  simp at h
  simp [h]

/-- The body of `setProgressStep` for a stage other than summary, in closed form. -/
theorem stepBody_stage (page : Page) (now : Int) (s : Stage) (v : Bool) (σ : State)
    (hs : s ≠ Stage.summary) :
    stepBody page now (Key.stage s) v σ
      = if σ.progress.get (Key.stage s) = v then none
        else some
          (if v then
            triggerXpReward page now (Key.stage s)
              (persistProgressState { σ with progress := σ.progress.set (Key.stage s) true })
          else
            persistProgressState
              { σ with
                progress := { σ.progress.set (Key.stage s) false with summary := false } }) := by
  have hk : Key.stage s ≠ Key.stage Stage.summary := by
    intro h
    exact hs (Key.stage.inj h)
  unfold stepBody
  by_cases hget : σ.progress.get (Key.stage s) = v
  · simp [hget]
  · cases v
    · cases hsum : (σ.progress.set (Key.stage s) false).summary
      · have : ({ σ.progress.set (Key.stage s) false with summary := false } : ProgressState)
            = σ.progress.set (Key.stage s) false :=
          summary_false_eq _ hsum
        simp [hget, hk, hsum, this]
      · simp [hget, hk, hsum]
    · simp [hget, hk]

/-- The body of `setProgressStep` for the summary stage, in closed form. -/
theorem stepBody_summary (page : Page) (now : Int) (v : Bool) (σ : State) :
    stepBody page now (Key.stage Stage.summary) v σ
      = if σ.progress.summary = v then none
        else some
          (if v then
            handleSummaryUnlocked page now
              (persistProgressState { σ with progress := { σ.progress with summary := true } })
          else
            persistProgressState
              { σ with progress := { σ.progress with summary := false } }) := by
  unfold stepBody
  by_cases hget : σ.progress.summary = v
  · simp [hget, ProgressState.get]
  · cases v <;> simp [hget, ProgressState.get, ProgressState.set]

/-! ## The summary reward guard -/

/-- With the guard flag set, `handleSummaryUnlocked` changes nothing. -/
theorem handleSummaryUnlocked_of_rewarded (page : Page) (now : Int) (σ : State)
    (h : σ.progress.summaryRewarded = true) :
    handleSummaryUnlocked page now σ = σ := by
  simp [handleSummaryUnlocked, h]

/-- What `handleSummaryUnlocked` does to the guard flag, the history and the storage. -/
theorem handleSummaryUnlocked_effect (page : Page) (now : Int) (σ : State) :
    (handleSummaryUnlocked page now σ).progress.summaryRewarded = true ∧
      summaryGrants (handleSummaryUnlocked page now σ).awardLog
        ≤ summaryGrants σ.awardLog + 1 ∧
      (σ.storedProgress = some σ.progress →
        (handleSummaryUnlocked page now σ).storedProgress
          = some (handleSummaryUnlocked page now σ).progress) := by
  refine ⟨?_, ?_, ?_⟩
  · rw [handleSummaryUnlocked_progress]
  · cases h : σ.progress.summaryRewarded
    · simp only [handleSummaryUnlocked, h, persistProgressState]
      exact (triggerXpReward_summary_summaryGrants page now σ).2
    · rw [handleSummaryUnlocked_of_rewarded page now σ h]
      exact Nat.le_succ _
  · intro hst
    cases h : σ.progress.summaryRewarded
    · simp [handleSummaryUnlocked, h, persistProgressState]
    · rw [handleSummaryUnlocked_of_rewarded page now σ h]
      exact hst

/-- The effect on the summary reward of a `setProgressStep` call on the summary stage whose
return value is discarded (a direct call, or the nested call of the auto-cascade). -/
theorem summaryCall_effect (page : Page) (now : Int) (v : Bool) (σ : State) :
    (σ.progress.summaryRewarded = true →
      ((stepBody page now (Key.stage Stage.summary) v σ).getD σ).progress.summaryRewarded
          = true ∧
        ((stepBody page now (Key.stage Stage.summary) v σ).getD σ).awardLog = σ.awardLog ∧
        ((stepBody page now (Key.stage Stage.summary) v σ).getD σ).xp = σ.xp) ∧
    summaryGrants ((stepBody page now (Key.stage Stage.summary) v σ).getD σ).awardLog
        ≤ summaryGrants σ.awardLog + 1 ∧
    (summaryGrants ((stepBody page now (Key.stage Stage.summary) v σ).getD σ).awardLog
        ≠ summaryGrants σ.awardLog →
      ((stepBody page now (Key.stage Stage.summary) v σ).getD σ).progress.summaryRewarded
        = true) ∧
    (Synced σ → Synced ((stepBody page now (Key.stage Stage.summary) v σ).getD σ)) := by
  rw [stepBody_summary]
  by_cases hget : σ.progress.summary = v
  · simp [hget]
  · cases v
    · simp [hget, persistProgressState, Synced, openPage]
    · simp only [hget, if_false, if_true, Option.getD_some]
      have heff := handleSummaryUnlocked_effect page now
        (persistProgressState { σ with progress := { σ.progress with summary := true } })
      refine ⟨?_, heff.2.1, ?_, ?_⟩
      · intro hr
        rw [handleSummaryUnlocked_of_rewarded _ _ _ (by simpa [persistProgressState] using hr)]
        simp [persistProgressState, hr]
      · intro _
        exact heff.1
      · intro _
        have := heff.2.2 (by simp [persistProgressState])
        simp [Synced, openPage, this]

/-- The four prerequisites, spelled out. -/
theorem coreStepsComplete_eq (p : ProgressState) :
    coreStepsComplete p = (p.concept && p.example_ && p.practice && p.test) := by
  simp [coreStepsComplete, PROGRESS_STEPS, ProgressState.get, List.filter, Bool.and_assoc]

/-- Writing a stage flag leaves the reward guard alone. -/
theorem set_stage_summaryRewarded (p : ProgressState) (s : Stage) (v : Bool) :
    (p.set (Key.stage s) v).summaryRewarded = p.summaryRewarded := by
  cases s <;> rfl

/-- `setProgressStep` on the summary stage, direct or nested: the state afterwards. -/
theorem setProgressStep_summary_snd (page : Page) (now nowAuto : Int) (v skipAuto : Bool)
    (σ : State) :
    (setProgressStep page now nowAuto (Key.stage Stage.summary) v skipAuto σ).2
      = (stepBody page now (Key.stage Stage.summary) v σ).getD σ := by
  unfold setProgressStep
  cases stepBody page now (Key.stage Stage.summary) v σ <;> simp

/-- `setProgressStep` on a stage other than summary, in closed form. -/
theorem setProgressStep_stage (page : Page) (now nowAuto : Int) (s : Stage)
    (v skipAuto : Bool) (σ : State) (hs : s ≠ Stage.summary) :
    setProgressStep page now nowAuto (Key.stage s) v skipAuto σ
      = if σ.progress.get (Key.stage s) = v then (false, σ)
        else
          (true,
            if v then
              if !skipAuto &&
                  coreStepsComplete (σ.progress.set (Key.stage s) true) then
                (stepBody page nowAuto (Key.stage Stage.summary) true
                  (triggerXpReward page now (Key.stage s)
                    (persistProgressState
                      { σ with progress := σ.progress.set (Key.stage s) true }))).getD
                  (triggerXpReward page now (Key.stage s)
                    (persistProgressState
                      { σ with progress := σ.progress.set (Key.stage s) true }))
              else
                triggerXpReward page now (Key.stage s)
                  (persistProgressState
                    { σ with progress := σ.progress.set (Key.stage s) true })
            else
              persistProgressState
                { σ with
                  progress :=
                    { σ.progress.set (Key.stage s) false with summary := false } }) := by
  have hk : Key.stage s ≠ Key.stage Stage.summary := by
    intro h
    exact hs (Key.stage.inj h)
  unfold setProgressStep
  rw [stepBody_stage page now s v σ hs]
  by_cases hget : σ.progress.get (Key.stage s) = v
  · simp [hget]
  · cases v
    · have hcore : coreStepsComplete
          { σ.progress.set (Key.stage s) false with summary := false } = false := by
        rw [coreStepsComplete_eq]
        cases s <;> simp [ProgressState.set] at hs ⊢
      cases skipAuto <;> simp [hget, hk, persistProgressState, hcore]
    · cases skipAuto <;> simp [hget, hk, persistProgressState]
      split <;> rfl

/-- What one call on a stage does to the summary reward: with the guard flag set it stays
set, no summary grant is made, and the XP record is the one left by the reward of the stage
itself, if any; in any case at most one summary grant is made, a grant sets the flag, and the
progress slot of the storage stays in step with the record. -/
theorem call_effect (page : Page) (c : Call) (σ : State) :
    (σ.progress.summaryRewarded = true →
      (c.apply page σ).progress.summaryRewarded = true ∧
        summaryGrants (c.apply page σ).awardLog = summaryGrants σ.awardLog ∧
        (c.apply page σ).xp
          = if σ.progress.get (Key.stage c.stage) ≠ c.value ∧ c.value = true ∧
                c.stage ≠ Stage.summary then
              (triggerXpReward page c.now (Key.stage c.stage) σ).xp
            else σ.xp) ∧
    summaryGrants (c.apply page σ).awardLog ≤ summaryGrants σ.awardLog + 1 ∧
    (summaryGrants (c.apply page σ).awardLog ≠ summaryGrants σ.awardLog →
      (c.apply page σ).progress.summaryRewarded = true) ∧
    (Synced σ → Synced (c.apply page σ)) := by
  obtain ⟨st, v, sk, now, nowAuto⟩ := c
  unfold Call.apply
  simp only []
  by_cases hs : st = Stage.summary
  · subst hs
    rw [setProgressStep_summary_snd]
    have h := summaryCall_effect page now v σ
    refine ⟨?_, h.2.1, h.2.2.1, h.2.2.2⟩
    intro hr
    obtain ⟨h1, h2, h3⟩ := h.1 hr
    refine ⟨h1, by rw [h2], ?_⟩
    simp [h3]
  · rw [setProgressStep_stage page now nowAuto st v sk σ hs]
    by_cases hget : σ.progress.get (Key.stage st) = v
    · simp [hget]
    · cases v
      · simp [hget, persistProgressState, Synced, set_stage_summaryRewarded]
      · rw [if_neg hget]
        simp only [↓reduceIte]
        have hq1 : (triggerXpReward page now (Key.stage st)
            (persistProgressState
              { σ with progress := σ.progress.set (Key.stage st) true })).progress.summaryRewarded
            = σ.progress.summaryRewarded := by
          simp [persistProgressState, set_stage_summaryRewarded]
        have hq2 : summaryGrants (triggerXpReward page now (Key.stage st)
            (persistProgressState
              { σ with progress := σ.progress.set (Key.stage st) true })).awardLog
            = summaryGrants σ.awardLog := by
          rw [triggerXpReward_stage_summaryGrants page now st _ hs]
          rfl
        have hq3 : (triggerXpReward page now (Key.stage st)
            (persistProgressState
              { σ with progress := σ.progress.set (Key.stage st) true })).xp
            = (triggerXpReward page now (Key.stage st) σ).xp :=
          triggerXpReward_xp_congr page now (Key.stage st) _ σ rfl
        have hq4 : Synced (triggerXpReward page now (Key.stage st)
            (persistProgressState
              { σ with progress := σ.progress.set (Key.stage st) true })) := by
          simp [Synced, persistProgressState]
        split
        · have h := summaryCall_effect page nowAuto true
            (triggerXpReward page now (Key.stage st)
              (persistProgressState
                { σ with progress := σ.progress.set (Key.stage st) true }))
          rw [hq2] at h
          refine ⟨?_, h.2.1, h.2.2.1, fun _ => h.2.2.2 hq4⟩
          intro hr
          obtain ⟨h1, h2, h3⟩ := h.1 (by rw [hq1]; exact hr)
          refine ⟨h1, by rw [h2, hq2], ?_⟩
          have hf : σ.progress.get (Key.stage st) = false := by simpa using hget
          rw [h3, hq3]
          simp [hs, hf]
        · refine ⟨?_, by rw [hq2]; exact Nat.le_succ _, fun h => absurd hq2 h,
            fun _ => hq4⟩
          intro hr
          refine ⟨by rw [hq1]; exact hr, hq2, ?_⟩
          have hf : σ.progress.get (Key.stage st) = false := by simpa using hget
          rw [hq3]
          simp [hs, hf]

/-- What one action, a call or a reload, does to the summary reward. -/
theorem action_effect (page : Page) (a : Action) (σ : State) (hsync : Synced σ) :
    Synced (a.apply page σ) ∧
    (σ.progress.summaryRewarded = true →
      (a.apply page σ).progress.summaryRewarded = true ∧
        summaryGrants (a.apply page σ).awardLog = summaryGrants σ.awardLog) ∧
    summaryGrants (a.apply page σ).awardLog ≤ summaryGrants σ.awardLog + 1 ∧
    (summaryGrants (a.apply page σ).awardLog ≠ summaryGrants σ.awardLog →
      (a.apply page σ).progress.summaryRewarded = true) := by
  cases a with
  | call c =>
    have h := call_effect page c σ
    exact ⟨h.2.2.2 hsync, fun hr => ⟨(h.1 hr).1, (h.1 hr).2.1⟩, h.2.1, h.2.2.1⟩
  | reload =>
    unfold Synced at hsync
    simp [Action.apply, openPage, Synced, hsync]

/-- The invariant behind C7: the storage is in step with the record, and a summary grant in
the history means that the guard flag is set and that it is the only grant. -/
theorem runActions_invariant (page : Page) (as : List Action) (σ : State)
    (hsync : Synced σ) (hone : summaryGrants σ.awardLog ≤ 1)
    (hflag : summaryGrants σ.awardLog ≠ 0 → σ.progress.summaryRewarded = true) :
    Synced (runActions page as σ) ∧
    summaryGrants (runActions page as σ).awardLog ≤ 1 ∧
    (summaryGrants (runActions page as σ).awardLog ≠ 0 →
      (runActions page as σ).progress.summaryRewarded = true) ∧
    (σ.progress.summaryRewarded = true →
      (runActions page as σ).progress.summaryRewarded = true ∧
        summaryGrants (runActions page as σ).awardLog = summaryGrants σ.awardLog) := by
  induction as generalizing σ with
  | nil => exact ⟨hsync, hone, hflag, fun hr => ⟨hr, rfl⟩⟩
  | cons a as ih =>
    obtain ⟨h1, h2, h3, h4⟩ := action_effect page a σ hsync
    have hone1 : summaryGrants (a.apply page σ).awardLog ≤ 1 := by
      by_cases hr : σ.progress.summaryRewarded = true
      · rw [(h2 hr).2]
        exact hone
      · have h0 : summaryGrants σ.awardLog = 0 := by
          by_contra hne
          exact hr (hflag hne)
        rw [h0] at h3
        exact h3
    have hflag1 : summaryGrants (a.apply page σ).awardLog ≠ 0 →
        (a.apply page σ).progress.summaryRewarded = true := by
      intro hne
      by_cases hr : σ.progress.summaryRewarded = true
      · exact (h2 hr).1
      · have h0 : summaryGrants σ.awardLog = 0 := by
          by_contra hne0
          exact hr (hflag hne0)
        apply h4
        rw [h0]
        exact hne
    obtain ⟨i1, i2, i3, i4⟩ := ih (a.apply page σ) h1 hone1 hflag1
    refine ⟨i1, i2, i3, ?_⟩
    intro hr
    obtain ⟨j1, j2⟩ := i4 (h2 hr).1
    exact ⟨j1, j2.trans (h2 hr).2⟩

/-- Running two sequences one after the other. -/
theorem runActions_append (page : Page) (as bs : List Action) (σ : State) :
    runActions page (as ++ bs) σ = runActions page bs (runActions page as σ) := by
  induction as generalizing σ with
  | nil => rfl
  | cons a as ih => exact ih (a.apply page σ)

/-! ## The award history accounts for the XP total -/

/-- Nothing happened. -/
theorem AwardsOnly.refl (page : Page) (σ : State) : AwardsOnly page σ σ :=
  ⟨[], rfl, rfl, fun h => h⟩

/-- One thing after another. -/
theorem AwardsOnly.trans (page : Page) (σ τ υ : State) (h1 : AwardsOnly page σ τ)
    (h2 : AwardsOnly page τ υ) : AwardsOnly page σ υ := by
  obtain ⟨e1, a1, b1, c1⟩ := h1
  obtain ⟨e2, a2, b2, c2⟩ := h2
  refine ⟨e2 ++ e1, ?_, ?_, fun h => c2 (c1 h)⟩
  · rw [a2, a1, List.append_assoc]
  · rw [b2, b1]
    simp [replayTotal, List.foldr_append]

/-- A step that touches neither the XP record, nor its storage slot, nor the history. -/
theorem AwardsOnly.of_xp_eq (page : Page) (σ τ : State) (hx : τ.xp = σ.xp)
    (hs : τ.storedXp = σ.storedXp) (hl : τ.awardLog = σ.awardLog) : AwardsOnly page σ τ := by
  refine ⟨[], by simpa using hl, by simp [replayTotal, hx], ?_⟩
  intro h
  unfold XpSynced at h ⊢
  rw [hs, hx]
  exact h

/-- An `awardXp` call either does nothing or makes one award and logs it. -/
theorem awardXp_awardsOnly (page : Page) (now amount : Int) (reason : String) (σ : State) :
    AwardsOnly page σ (awardXp page now amount reason σ) := by
  unfold awardXp
  split
  · exact AwardsOnly.refl page σ
  · exact ⟨[(reason, amount)], rfl, rfl, fun _ => rfl⟩

/-- `triggerXpReward` only makes logged awards. -/
theorem triggerXpReward_awardsOnly (page : Page) (now : Int) (step : Key) (σ : State) :
    AwardsOnly page σ (triggerXpReward page now step σ) := by
  unfold triggerXpReward
  split
  · split
    · exact awardXp_awardsOnly page now _ _ σ
    · exact AwardsOnly.refl page σ
  · exact AwardsOnly.refl page σ

/-- `handleSummaryUnlocked` only makes logged awards. -/
theorem handleSummaryUnlocked_awardsOnly (page : Page) (now : Int) (σ : State) :
    AwardsOnly page σ (handleSummaryUnlocked page now σ) := by
  unfold handleSummaryUnlocked
  split
  · exact AwardsOnly.trans page _ _ _
      (triggerXpReward_awardsOnly page now (Key.stage Stage.summary) σ)
      (AwardsOnly.of_xp_eq page _ _ rfl rfl rfl)
  · exact AwardsOnly.refl page σ

/-- The body of `setProgressStep` on a stage only makes logged awards. -/
theorem stepBody_awardsOnly (page : Page) (now : Int) (s : Stage) (value : Bool)
    (σ : State) : AwardsOnly page σ ((stepBody page now (Key.stage s) value σ).getD σ) := by
  by_cases hs : s = Stage.summary
  · subst hs
    rw [stepBody_summary]
    split
    · exact AwardsOnly.refl page σ
    · simp only [Option.getD_some]
      split
      · exact AwardsOnly.trans page _ _ _ (AwardsOnly.of_xp_eq page σ _ rfl rfl rfl)
          (handleSummaryUnlocked_awardsOnly page now _)
      · exact AwardsOnly.of_xp_eq page σ _ rfl rfl rfl
  · rw [stepBody_stage page now s value σ hs]
    split
    · exact AwardsOnly.refl page σ
    · simp only [Option.getD_some]
      split
      · exact AwardsOnly.trans page _ _ _ (AwardsOnly.of_xp_eq page σ _ rfl rfl rfl)
          (triggerXpReward_awardsOnly page now (Key.stage s) _)
      · exact AwardsOnly.of_xp_eq page σ _ rfl rfl rfl

/-- A call on a stage only makes logged awards. -/
theorem call_awardsOnly (page : Page) (c : Call) (σ : State) :
    AwardsOnly page σ (c.apply page σ) := by
  unfold Call.apply setProgressStep
  have h1 := stepBody_awardsOnly page c.now c.stage c.value σ
  cases hb : stepBody page c.now (Key.stage c.stage) c.value σ with
  | none => exact AwardsOnly.refl page σ
  | some σ3 =>
    rw [hb] at h1
    simp only [Option.getD_some] at h1
    simp only []
    split
    · split
      · exact AwardsOnly.trans page _ _ _ h1
          (stepBody_awardsOnly page c.nowAuto Stage.summary true σ3)
      · exact h1
    · exact h1

/-- The award history accounts for the XP total: after any sequence of calls and reloads on
a lesson, the total is the total the page was opened with, with the awards of the history
made one after the other. -/
theorem total_replays_awardLog (page : Page) (storedProgress : Option ProgressState)
    (storedXp : Option XpState) (as : List Action) :
    (runActions page as (openPage page storedProgress storedXp)).xp.total
      = replayTotal (runActions page as (openPage page storedProgress storedXp)).awardLog
          (openPage page storedProgress storedXp).xp.total := by
  have key : ∀ (as : List Action) (σ : State) (t0 : Int), XpSynced page σ →
      σ.xp.total = replayTotal σ.awardLog t0 →
      (runActions page as σ).xp.total = replayTotal (runActions page as σ).awardLog t0 := by
    intro as
    induction as with
    | nil => intro σ t0 _ h; exact h
    | cons a as ih =>
      intro σ t0 hsync h
      cases a with
      | call c =>
        obtain ⟨entries, e1, e2, e3⟩ := call_awardsOnly page c σ
        apply ih (c.apply page σ) t0 (e3 hsync)
        rw [e2, e1, h]
        simp [replayTotal, List.foldr_append]
      | reload =>
        apply ih _ t0
        · simp [Action.apply, openPage, XpSynced]
        · unfold XpSynced at hsync
          simp [Action.apply, openPage, hsync, h]
  exact key as _ _ rfl rfl

/-! ## Claim C7: the summary reward is granted at most once -/

/-- On a storage whose writes succeed: for one lesson, opened with whatever the two storage
slots hold, and any finite sequence of `setProgressStep` calls on the five stages and page
reloads, the XP total is the total the page was opened with plus the awards of the history,
and that history holds at most one summary reward; and once `summaryRewarded` is true, no
later call or reload grants it again. -/
theorem runActions_summary_once (page : Page) (storedProgress : Option ProgressState)
    (storedXp : Option XpState) (as bs : List Action) (c : Call) :
    (runActions page (as ++ bs) (openPage page storedProgress storedXp)).xp.total
      = replayTotal
          (runActions page (as ++ bs) (openPage page storedProgress storedXp)).awardLog
          (openPage page storedProgress storedXp).xp.total ∧
    summaryGrants
        (runActions page (as ++ bs) (openPage page storedProgress storedXp)).awardLog ≤ 1 ∧
    ((runActions page as (openPage page storedProgress storedXp)).progress.summaryRewarded
        = true →
      summaryGrants
          (runActions page (as ++ bs) (openPage page storedProgress storedXp)).awardLog
        = summaryGrants
          (runActions page as (openPage page storedProgress storedXp)).awardLog ∧
      (c.apply page (runActions page as (openPage page storedProgress storedXp))).xp
        = if (runActions page as (openPage page storedProgress storedXp)).progress.get
                (Key.stage c.stage) ≠ c.value ∧ c.value = true ∧
              c.stage ≠ Stage.summary then
            (triggerXpReward page c.now (Key.stage c.stage)
              (runActions page as (openPage page storedProgress storedXp))).xp
          else (runActions page as (openPage page storedProgress storedXp)).xp) := by
  have hsync : Synced (openPage page storedProgress storedXp) := rfl
  have hone : summaryGrants (openPage page storedProgress storedXp).awardLog ≤ 1 := by
    simp [openPage, summaryGrants]
  have hflag : summaryGrants (openPage page storedProgress storedXp).awardLog ≠ 0 →
      (openPage page storedProgress storedXp).progress.summaryRewarded = true := by
    intro h
    simp [openPage, summaryGrants] at h
  refine ⟨total_replays_awardLog page storedProgress storedXp (as ++ bs), ?_, ?_⟩
  · exact (runActions_invariant page (as ++ bs) _ hsync hone hflag).2.1
  · intro hr
    obtain ⟨i1, i2, i3, _⟩ := runActions_invariant page as _ hsync hone hflag
    constructor
    · rw [runActions_append]
      exact ((runActions_invariant page bs _ i1 i2 i3).2.2.2 hr).2
    · exact ((call_effect page c _).1 hr).2.2

/-- With every write succeeding, `awardXpWith` is `awardXp`. -/
theorem awardXpWith_allSucceed (page : Page) (now amount : Int) (reason : String)
    (σ : State) :
    awardXpWith page Writes.allSucceed now amount reason σ
      = awardXp page now amount reason σ := by
  unfold awardXpWith awardXp
  split <;> rfl

/-- With every write succeeding, `triggerXpRewardWith` is `triggerXpReward`. -/
theorem triggerXpRewardWith_allSucceed (page : Page) (now : Int) (step : Key) (σ : State) :
    triggerXpRewardWith page Writes.allSucceed now step σ
      = triggerXpReward page now step σ := by
  unfold triggerXpRewardWith triggerXpReward
  split
  · rw [awardXpWith_allSucceed]
  · rfl

/-- With every write succeeding, `handleSummaryUnlockedWith` is `handleSummaryUnlocked`. -/
theorem handleSummaryUnlockedWith_allSucceed (page : Page) (now : Int) (σ : State) :
    handleSummaryUnlockedWith page Writes.allSucceed now σ
      = handleSummaryUnlocked page now σ := by
  unfold handleSummaryUnlockedWith handleSummaryUnlocked
  rw [triggerXpRewardWith_allSucceed]
  split <;> rfl

/-- With every write succeeding, `stepBodyWith` is `stepBody`. -/
theorem stepBodyWith_allSucceed (page : Page) (now : Int) (step : Key) (value : Bool)
    (σ : State) :
    stepBodyWith page Writes.allSucceed now step value σ = stepBody page now step value σ := by
  unfold stepBodyWith stepBody
  simp only [triggerXpRewardWith_allSucceed, handleSummaryUnlockedWith_allSucceed]
  split <;> rfl

/-- With every write succeeding, `setProgressStepWith` is `setProgressStep`. -/
theorem setProgressStepWith_allSucceed (page : Page) (now nowAuto : Int) (step : Key)
    (value skipAuto : Bool) (σ : State) :
    setProgressStepWith page Writes.allSucceed Writes.allSucceed now nowAuto step value
        skipAuto σ
      = setProgressStep page now nowAuto step value skipAuto σ := by
  unfold setProgressStepWith setProgressStep
  simp only [stepBodyWith_allSucceed]

/-- With every write succeeding, a run of events is the run of their actions on a storage
whose writes succeed. -/
theorem runEvents_allSucceed (page : Page) (es : List Event) (σ : State)
    (h : ∀ e ∈ es, e.writes = Writes.allSucceed ∧ e.writesAuto = Writes.allSucceed) :
    runEvents page es σ = runActions page (es.map Event.action) σ := by
  induction es generalizing σ with
  | nil => rfl
  | cons e es ih =>
    have he := h e (List.mem_cons_self e es)
    have hes : ∀ e1 ∈ es,
        e1.writes = Writes.allSucceed ∧ e1.writesAuto = Writes.allSucceed :=
      fun e1 h1 => h e1 (List.mem_cons_of_mem e h1)
    simp only [runEvents, List.map_cons, runActions]
    rw [ih _ hes]
    congr 1
    unfold Event.apply
    rw [he.1, he.2]
    cases e.action with
    | call c => simp [Action.apply, Call.apply, setProgressStepWith_allSucceed]
    | reload => rfl

/-- A write to the XP slot does not touch what `AgreeUpTo` compares: `awardXpWith`, whatever
the outcome of its write, and `awardXp` keep two states in agreement. -/
theorem awardXpWith_agree (page : Page) (w : Writes) (now amount : Int) (reason : String)
    (sameXp sameStored : Prop) (σ τ : State) (h : AgreeUpTo sameXp sameStored σ τ) :
    AgreeUpTo sameXp sameStored (awardXpWith page w now amount reason σ)
      (awardXp page now amount reason τ) := by
  obtain ⟨hp, hl, hx, hs⟩ := h
  unfold awardXpWith awardXp
  by_cases hg : (page.xpCard.isNone || amount = 0) = true
  · rw [if_pos hg, if_pos hg]
    exact ⟨hp, hl, hx, hs⟩
  · rw [if_neg hg, if_neg hg]
    refine ⟨hp, ?_, ?_, hs⟩
    · simp [persistXpStateWith, persistXpState, hl]
    · intro hb
      simp [persistXpStateWith, persistXpState, hx hb]

/-- The same for `triggerXpRewardWith` and `triggerXpReward`. -/
theorem triggerXpRewardWith_agree (page : Page) (w : Writes) (now : Int) (step : Key)
    (sameXp sameStored : Prop) (σ τ : State) (h : AgreeUpTo sameXp sameStored σ τ) :
    AgreeUpTo sameXp sameStored (triggerXpRewardWith page w now step σ)
      (triggerXpReward page now step τ) := by
  unfold triggerXpRewardWith triggerXpReward
  split
  · split
    · exact awardXpWith_agree page w now _ _ sameXp sameStored σ τ h
    · exact h
  · exact h

/-- A write to the progress slot that succeeds brings the slots into agreement. -/
theorem persistProgressStateWith_agree (succeeds : Bool) (sameXp sameStored : Prop)
    (σ τ : State) (hw : sameStored → succeeds = true) (hp : σ.progress = τ.progress)
    (hl : σ.awardLog = τ.awardLog) (hx : sameXp → σ.xp = τ.xp) :
    AgreeUpTo sameXp sameStored (persistProgressStateWith succeeds σ)
      (persistProgressState τ) := by
  refine ⟨hp, hl, hx, ?_⟩
  intro hb
  simp [persistProgressStateWith, persistProgressState, safeStorageSet, hw hb, hp]

/-- The same for `handleSummaryUnlockedWith` and `handleSummaryUnlocked`, when the write to
the progress slot succeeds if the slots are compared. -/
theorem handleSummaryUnlockedWith_agree (page : Page) (w : Writes) (now : Int)
    (sameXp sameStored : Prop) (σ τ : State) (hw : sameStored → w.rewarded = true)
    (h : AgreeUpTo sameXp sameStored σ τ) :
    AgreeUpTo sameXp sameStored (handleSummaryUnlockedWith page w now σ)
      (handleSummaryUnlocked page now τ) := by
  have ht := triggerXpRewardWith_agree page w now (Key.stage Stage.summary) sameXp sameStored
    σ τ h
  unfold handleSummaryUnlockedWith handleSummaryUnlocked
  rw [h.1]
  split
  · apply persistProgressStateWith_agree w.rewarded sameXp sameStored _ _ hw
    · simp only []
      rw [ht.1]
    · exact ht.2.1
    · exact ht.2.2.1
  · exact h

/-- The same for the body of `setProgressStep`: both return early, or both go on and leave
states in agreement. -/
theorem stepBodyWith_agree (page : Page) (w : Writes) (now : Int) (step : Key)
    (value : Bool) (sameXp sameStored : Prop) (σ τ : State)
    (hw : sameStored → w.progress = true ∧ w.rewarded = true)
    (h : AgreeUpTo sameXp sameStored σ τ) :
    (stepBodyWith page w now step value σ = none ∧ stepBody page now step value τ = none) ∨
      ∃ σ1 τ1 : State, stepBodyWith page w now step value σ = some σ1 ∧
        stepBody page now step value τ = some τ1 ∧ AgreeUpTo sameXp sameStored σ1 τ1 := by
  unfold stepBodyWith stepBody
  rw [h.1]
  by_cases hg : τ.progress.get step = value
  · left
    rw [if_pos hg, if_pos hg]
    exact ⟨rfl, rfl⟩
  · right
    rw [if_neg hg, if_neg hg]
    refine ⟨_, _, rfl, rfl, ?_⟩
    have h1 : AgreeUpTo sameXp sameStored
        (persistProgressStateWith w.progress
          { σ with
            progress :=
              if (!value && decide (step ≠ Key.stage Stage.summary) &&
                  (τ.progress.set step value).summary) = true then
                { τ.progress.set step value with summary := false }
              else τ.progress.set step value })
        (persistProgressState
          { τ with
            progress :=
              if (!value && decide (step ≠ Key.stage Stage.summary) &&
                  (τ.progress.set step value).summary) = true then
                { τ.progress.set step value with summary := false }
              else τ.progress.set step value }) :=
      persistProgressStateWith_agree w.progress sameXp sameStored _ _ (fun hb => (hw hb).1)
        rfl h.2.1 h.2.2.1
    have aux : ∀ (b1 b2 : Bool) (σ1 τ1 : State), AgreeUpTo sameXp sameStored σ1 τ1 →
        AgreeUpTo sameXp sameStored
          (if b2 = true then
            handleSummaryUnlockedWith page w now
              (if b1 = true then triggerXpRewardWith page w now step σ1 else σ1)
          else if b1 = true then triggerXpRewardWith page w now step σ1 else σ1)
          (if b2 = true then
            handleSummaryUnlocked page now
              (if b1 = true then triggerXpReward page now step τ1 else τ1)
          else if b1 = true then triggerXpReward page now step τ1 else τ1) := by
      intro b1 b2 σ1 τ1 h0
      have h2 : AgreeUpTo sameXp sameStored
          (if b1 = true then triggerXpRewardWith page w now step σ1 else σ1)
          (if b1 = true then triggerXpReward page now step τ1 else τ1) := by
        cases b1
        · exact h0
        · exact triggerXpRewardWith_agree page w now step sameXp sameStored σ1 τ1 h0
      cases b2
      · exact h2
      · exact handleSummaryUnlockedWith_agree page w now sameXp sameStored _ _
          (fun hb => (hw hb).2) h2
    exact aux _ _ _ _ h1

/-- The same for `setProgressStepWith` and `setProgressStep`: the returned booleans are
equal and the states afterwards agree. -/
theorem setProgressStepWith_agree (page : Page) (w wAuto : Writes) (now nowAuto : Int)
    (step : Key) (value skipAuto : Bool) (sameXp sameStored : Prop) (σ τ : State)
    (hw : sameStored → w.progress = true ∧ w.rewarded = true)
    (hwAuto : sameStored → wAuto.progress = true ∧ wAuto.rewarded = true)
    (h : AgreeUpTo sameXp sameStored σ τ) :
    (setProgressStepWith page w wAuto now nowAuto step value skipAuto σ).1
        = (setProgressStep page now nowAuto step value skipAuto τ).1 ∧
      AgreeUpTo sameXp sameStored
        (setProgressStepWith page w wAuto now nowAuto step value skipAuto σ).2
        (setProgressStep page now nowAuto step value skipAuto τ).2 := by
  unfold setProgressStepWith setProgressStep
  rcases stepBodyWith_agree page w now step value sameXp sameStored σ τ hw h with
    ⟨h1, h2⟩ | ⟨σ1, τ1, h1, h2, h3⟩
  · rw [h1, h2]
    exact ⟨rfl, h⟩
  · rw [h1, h2]
    simp only []
    rw [h3.1]
    split
    · split
      · refine ⟨rfl, ?_⟩
        rcases stepBodyWith_agree page wAuto nowAuto (Key.stage Stage.summary) true sameXp
            sameStored σ1 τ1 hwAuto h3 with ⟨h4, h5⟩ | ⟨σ2, τ2, h4, h5, h6⟩
        · rw [h4, h5]
          exact h3
        · rw [h4, h5]
          exact h6
      · exact ⟨rfl, h3⟩
    · exact ⟨rfl, h3⟩

/-- While the writes of the progress record succeed, a run of events keeps the progress
record, the progress slot and the award history of the run of its actions on a storage
whose writes all succeed. -/
theorem runEvents_agree (page : Page) (es : List Event) (σ τ : State)
    (hw : ∀ e ∈ es, (e.writes.progress = true ∧ e.writes.rewarded = true) ∧
      (e.writesAuto.progress = true ∧ e.writesAuto.rewarded = true))
    (h : AgreeUpTo False True σ τ) :
    AgreeUpTo False True (runEvents page es σ) (runActions page (es.map Event.action) τ) := by
  induction es generalizing σ τ with
  | nil => exact h
  | cons e es ih =>
    have he := hw e (List.mem_cons_self e es)
    have hes : ∀ e1 ∈ es, (e1.writes.progress = true ∧ e1.writes.rewarded = true) ∧
        (e1.writesAuto.progress = true ∧ e1.writesAuto.rewarded = true) :=
      fun e1 h1 => hw e1 (List.mem_cons_of_mem e h1)
    simp only [runEvents, List.map_cons, runActions]
    apply ih _ _ hes
    unfold Event.apply
    cases e.action with
    | call c =>
      exact (setProgressStepWith_agree page e.writes e.writesAuto c.now c.nowAuto
        (Key.stage c.stage) c.value c.skipAuto False True σ τ (fun _ => he.1)
        (fun _ => he.2) h).2
    | reload =>
      have hs := h.2.2.2 trivial
      exact ⟨by simp [Action.apply, openPage, hs],
        by simp [Action.apply, h.2.1], fun hf => hf.elim,
        fun _ => by simp [Action.apply, openPage, hs]⟩

/-- C7 as stated fails: the claim does not ask that the writes to storage succeed, and
`safeStorage.set` lets a failed write pass (lines 26-32).  On a page with the XP card and
the default reward, the four stages are completed while the writes of the progress record
fail and those of the XP record succeed; the page is reloaded, which rebuilds the progress
record from an empty slot, with `summaryRewarded` unset, and the XP record with total 62;
the four stages are completed again.  The summary reward is granted a second time: two
grants in the history, and a total of 124 = 2 * (10 + 5 + 7 + 40). -/
theorem summary_reward_twice_after_lost_write :
    (runEvents ⟨some ⟨none, none⟩⟩
      [⟨Action.call ⟨Stage.concept, true, false, 0, 0⟩, ⟨false, true, false⟩,
          ⟨false, true, false⟩⟩,
       ⟨Action.call ⟨Stage.example, true, false, 1, 1⟩, ⟨false, true, false⟩,
          ⟨false, true, false⟩⟩,
       ⟨Action.call ⟨Stage.practice, true, false, 2, 2⟩, ⟨false, true, false⟩,
          ⟨false, true, false⟩⟩,
       ⟨Action.call ⟨Stage.test, true, false, 3, 3⟩, ⟨false, true, false⟩,
          ⟨false, true, false⟩⟩]
      (openPage ⟨some ⟨none, none⟩⟩ none none)).progress.summaryRewarded = true ∧
    (runEvents ⟨some ⟨none, none⟩⟩
      [⟨Action.call ⟨Stage.concept, true, false, 0, 0⟩, ⟨false, true, false⟩,
          ⟨false, true, false⟩⟩,
       ⟨Action.call ⟨Stage.example, true, false, 1, 1⟩, ⟨false, true, false⟩,
          ⟨false, true, false⟩⟩,
       ⟨Action.call ⟨Stage.practice, true, false, 2, 2⟩, ⟨false, true, false⟩,
          ⟨false, true, false⟩⟩,
       ⟨Action.call ⟨Stage.test, true, false, 3, 3⟩, ⟨false, true, false⟩,
          ⟨false, true, false⟩⟩]
      (openPage ⟨some ⟨none, none⟩⟩ none none)).xp.total = 62 ∧
    summaryGrants (runEvents ⟨some ⟨none, none⟩⟩
      [⟨Action.call ⟨Stage.concept, true, false, 0, 0⟩, ⟨false, true, false⟩,
          ⟨false, true, false⟩⟩,
       ⟨Action.call ⟨Stage.example, true, false, 1, 1⟩, ⟨false, true, false⟩,
          ⟨false, true, false⟩⟩,
       ⟨Action.call ⟨Stage.practice, true, false, 2, 2⟩, ⟨false, true, false⟩,
          ⟨false, true, false⟩⟩,
       ⟨Action.call ⟨Stage.test, true, false, 3, 3⟩, ⟨false, true, false⟩,
          ⟨false, true, false⟩⟩,
       ⟨Action.reload, Writes.allSucceed, Writes.allSucceed⟩,
       ⟨Action.call ⟨Stage.concept, true, false, 4, 4⟩, Writes.allSucceed,
          Writes.allSucceed⟩,
       ⟨Action.call ⟨Stage.example, true, false, 5, 5⟩, Writes.allSucceed,
          Writes.allSucceed⟩,
       ⟨Action.call ⟨Stage.practice, true, false, 6, 6⟩, Writes.allSucceed,
          Writes.allSucceed⟩,
       ⟨Action.call ⟨Stage.test, true, false, 7, 7⟩, Writes.allSucceed,
          Writes.allSucceed⟩]
      (openPage ⟨some ⟨none, none⟩⟩ none none)).awardLog = 2 ∧
    (runEvents ⟨some ⟨none, none⟩⟩
      [⟨Action.call ⟨Stage.concept, true, false, 0, 0⟩, ⟨false, true, false⟩,
          ⟨false, true, false⟩⟩,
       ⟨Action.call ⟨Stage.example, true, false, 1, 1⟩, ⟨false, true, false⟩,
          ⟨false, true, false⟩⟩,
       ⟨Action.call ⟨Stage.practice, true, false, 2, 2⟩, ⟨false, true, false⟩,
          ⟨false, true, false⟩⟩,
       ⟨Action.call ⟨Stage.test, true, false, 3, 3⟩, ⟨false, true, false⟩,
          ⟨false, true, false⟩⟩,
       ⟨Action.reload, Writes.allSucceed, Writes.allSucceed⟩,
       ⟨Action.call ⟨Stage.concept, true, false, 4, 4⟩, Writes.allSucceed,
          Writes.allSucceed⟩,
       ⟨Action.call ⟨Stage.example, true, false, 5, 5⟩, Writes.allSucceed,
          Writes.allSucceed⟩,
       ⟨Action.call ⟨Stage.practice, true, false, 6, 6⟩, Writes.allSucceed,
          Writes.allSucceed⟩,
       ⟨Action.call ⟨Stage.test, true, false, 7, 7⟩, Writes.allSucceed,
          Writes.allSucceed⟩]
      (openPage ⟨some ⟨none, none⟩⟩ none none)).xp.total = 124 := by
  decide

/-- C7, amended: for one lesson, opened with whatever the two storage slots hold, and any
finite sequence of `setProgressStep` calls on the five stages (any value, with or without
`skipAuto`) and page reloads during which every write of the progress record to storage
succeeds: the award history holds at most one summary reward; once `summaryRewarded` is
true, no later call or reload grants it again, and the XP record after any further call is
the one left by the reward of the stage itself, if any, with nothing added for the summary;
and if the writes of the XP record succeed too, the XP total is the total the page was
opened with plus the awards of the history. -/
theorem summary_reward_at_most_once (page : Page) (storedProgress : Option ProgressState)
    (storedXp : Option XpState) (as bs : List Event) (c : Call) (w wAuto : Writes)
    (hw : ∀ e ∈ as ++ bs, (e.writes.progress = true ∧ e.writes.rewarded = true) ∧
      (e.writesAuto.progress = true ∧ e.writesAuto.rewarded = true)) :
    summaryGrants
        (runEvents page (as ++ bs) (openPage page storedProgress storedXp)).awardLog ≤ 1 ∧
    ((runEvents page as (openPage page storedProgress storedXp)).progress.summaryRewarded
        = true →
      summaryGrants
          (runEvents page (as ++ bs) (openPage page storedProgress storedXp)).awardLog
        = summaryGrants
          (runEvents page as (openPage page storedProgress storedXp)).awardLog ∧
      (Event.apply page ⟨Action.call c, w, wAuto⟩
          (runEvents page as (openPage page storedProgress storedXp))).xp
        = if (runEvents page as (openPage page storedProgress storedXp)).progress.get
                (Key.stage c.stage) ≠ c.value ∧ c.value = true ∧
              c.stage ≠ Stage.summary then
            (triggerXpReward page c.now (Key.stage c.stage)
              (runEvents page as (openPage page storedProgress storedXp))).xp
          else (runEvents page as (openPage page storedProgress storedXp)).xp) ∧
    ((∀ e ∈ as ++ bs, e.writes.xp = true ∧ e.writesAuto.xp = true) →
      (runEvents page (as ++ bs) (openPage page storedProgress storedXp)).xp.total
        = replayTotal
            (runEvents page (as ++ bs) (openPage page storedProgress storedXp)).awardLog
            (openPage page storedProgress storedXp).xp.total) := by
  have hrefl : AgreeUpTo False True (openPage page storedProgress storedXp)
      (openPage page storedProgress storedXp) := ⟨rfl, rfl, fun hf => hf.elim, fun _ => rfl⟩
  have hwa : ∀ e ∈ as, (e.writes.progress = true ∧ e.writes.rewarded = true) ∧
      (e.writesAuto.progress = true ∧ e.writesAuto.rewarded = true) :=
    fun e he => hw e (List.mem_append_left bs he)
  have hab := runEvents_agree page (as ++ bs) _ _ hw hrefl
  have ha := runEvents_agree page as _ _ hwa hrefl
  have hcore := runActions_summary_once page storedProgress storedXp (as.map Event.action)
    (bs.map Event.action) c
  rw [← List.map_append] at hcore
  refine ⟨?_, ?_, ?_⟩
  · rw [hab.2.1]
    exact hcore.2.1
  · intro hr
    rw [ha.1] at hr
    constructor
    · rw [hab.2.1, ha.2.1]
      exact (hcore.2.2 hr).1
    · have hx := (setProgressStepWith_agree page w wAuto c.now c.nowAuto (Key.stage c.stage)
        c.value c.skipAuto True False
        (runEvents page as (openPage page storedProgress storedXp))
        (runEvents page as (openPage page storedProgress storedXp))
        (fun hf => hf.elim) (fun hf => hf.elim)
        ⟨rfl, rfl, fun _ => rfl, fun hf => hf.elim⟩).2.2.2.1 trivial
      rw [← ha.1] at hr
      show (setProgressStepWith page w wAuto c.now c.nowAuto (Key.stage c.stage) c.value
        c.skipAuto _).2.xp = _
      rw [hx]
      exact ((call_effect page c _).1 hr).2.2
  · intro hxw
    have hall : ∀ e ∈ as ++ bs,
        e.writes = Writes.allSucceed ∧ e.writesAuto = Writes.allSucceed := by
      intro e he
      obtain ⟨⟨h1, h2⟩, h3, h4⟩ := hw e he
      obtain ⟨h5, h6⟩ := hxw e he
      obtain ⟨a, ⟨wp, wx, wr⟩, ⟨vp, vx, vr⟩⟩ := e
      simp only at h1 h2 h3 h4 h5 h6
      subst h1 h2 h3 h4 h5 h6
      exact ⟨rfl, rfl⟩
    rw [runEvents_allSucceed page (as ++ bs) _ hall]
    exact hcore.1

/-- A run for C7, amended, in which the reward is granted, every write of the progress
record succeeding while the writes of the XP record fail during the first four calls: all
four stages are completed (the cascade grants 40), `test` regresses, the page is reloaded,
`test` is completed again (the cascade sets `summary` again), and `summary` is reset and set
directly.  One grant is in the history. -/
theorem summary_reward_at_most_once_witness :
    summaryGrants (runEvents ⟨some ⟨none, none⟩⟩
      ([⟨Action.call ⟨Stage.concept, true, false, 0, 0⟩, ⟨true, false, true⟩,
          ⟨true, false, true⟩⟩,
        ⟨Action.call ⟨Stage.example, true, false, 1, 1⟩, ⟨true, false, true⟩,
          ⟨true, false, true⟩⟩,
        ⟨Action.call ⟨Stage.practice, true, false, 2, 2⟩, ⟨true, false, true⟩,
          ⟨true, false, true⟩⟩,
        ⟨Action.call ⟨Stage.test, true, false, 3, 3⟩, ⟨true, false, true⟩,
          ⟨true, false, true⟩⟩] ++
       [⟨Action.call ⟨Stage.test, false, false, 4, 4⟩, Writes.allSucceed,
          Writes.allSucceed⟩,
        ⟨Action.reload, Writes.allSucceed, Writes.allSucceed⟩,
        ⟨Action.call ⟨Stage.test, true, false, 5, 5⟩, Writes.allSucceed,
          Writes.allSucceed⟩,
        ⟨Action.call ⟨Stage.summary, false, false, 6, 6⟩, Writes.allSucceed,
          Writes.allSucceed⟩,
        ⟨Action.call ⟨Stage.summary, true, false, 7, 7⟩, Writes.allSucceed,
          Writes.allSucceed⟩])
      (openPage ⟨some ⟨none, none⟩⟩ none none)).awardLog = 1 :=
  Nat.le_antisymm
    (summary_reward_at_most_once ⟨some ⟨none, none⟩⟩ none none _ _
      ⟨Stage.summary, true, false, 8, 8⟩ Writes.allSucceed Writes.allSucceed
      (by decide)).1
    (by decide)

/-! ## Claims C8 to C10: the per-stage rewards -/

/-- Reading a stage flag after writing another one. -/
theorem get_set_ne (p : ProgressState) (s t : Stage) (v : Bool) (h : t ≠ s) :
    (p.set (Key.stage s) v).get (Key.stage t) = p.get (Key.stage t) := by
  cases s <;> cases t <;> first | rfl | exact absurd rfl h

/-- Reading a stage flag after writing it. -/
theorem get_set_same (p : ProgressState) (s : Stage) (v : Bool) :
    (p.set (Key.stage s) v).get (Key.stage s) = v := by
  cases s <;> rfl

/-- Resetting `summary` leaves the flags of the other stages alone. -/
theorem get_reset_summary (p : ProgressState) (t : Stage) (h : t ≠ Stage.summary) :
    ({ p with summary := false } : ProgressState).get (Key.stage t) = p.get (Key.stage t) := by
  cases t <;> first | rfl | exact absurd rfl h

/-- An unset prerequisite keeps the cascade from firing. -/
theorem coreStepsComplete_of_unset (p : ProgressState) (t : Stage) (ht : t ≠ Stage.summary)
    (h : p.get (Key.stage t) = false) : coreStepsComplete p = false := by
  rw [coreStepsComplete_eq]
  cases t <;> simp [ProgressState.get] at ht h ⊢ <;> simp [h]

/-- Completing a stage while another prerequisite is unset: no cascade, whatever
`skipAuto` is. -/
theorem setProgressStep_complete_no_cascade (page : Page) (now nowAuto : Int) (s : Stage)
    (skipAuto : Bool) (σ : State) (hs : s ≠ Stage.summary)
    (hfalse : σ.progress.get (Key.stage s) = false)
    (hother : ∃ t : Stage, t ≠ Stage.summary ∧ t ≠ s ∧ σ.progress.get (Key.stage t) = false) :
    setProgressStep page now nowAuto (Key.stage s) true skipAuto σ
      = (true, triggerXpReward page now (Key.stage s)
          (persistProgressState { σ with progress := σ.progress.set (Key.stage s) true })) := by
  obtain ⟨t, ht1, ht2, ht3⟩ := hother
  have hcore : coreStepsComplete (σ.progress.set (Key.stage s) true) = false :=
    coreStepsComplete_of_unset _ t ht1 (by rw [get_set_ne _ s t true ht2]; exact ht3)
  rw [setProgressStep_stage page now nowAuto s true skipAuto σ hs]
  simp [hfalse, hcore]

/-- Completing a stage with the cascade suppressed. -/
theorem setProgressStep_complete_skipAuto (page : Page) (now nowAuto : Int) (s : Stage)
    (σ : State) (hs : s ≠ Stage.summary) (hfalse : σ.progress.get (Key.stage s) = false) :
    setProgressStep page now nowAuto (Key.stage s) true true σ
      = (true, triggerXpReward page now (Key.stage s)
          (persistProgressState { σ with progress := σ.progress.set (Key.stage s) true })) := by
  rw [setProgressStep_stage page now nowAuto s true true σ hs]
  simp [hfalse]

/-- Regressing a stage that is set. -/
theorem setProgressStep_regress (page : Page) (now nowAuto : Int) (s : Stage)
    (skipAuto : Bool) (σ : State) (hs : s ≠ Stage.summary)
    (htrue : σ.progress.get (Key.stage s) = true) :
    setProgressStep page now nowAuto (Key.stage s) false skipAuto σ
      = (true, persistProgressState
          { σ with
            progress := { σ.progress.set (Key.stage s) false with summary := false } }) := by
  rw [setProgressStep_stage page now nowAuto s false skipAuto σ hs]
  simp [htrue]

/-- Completing a stage while another prerequisite is unset: the XP record is the one the
reward of the stage leaves, and only the flag of the stage changes. -/
theorem complete_no_cascade_xp (page : Page) (now nowAuto : Int) (s : Stage)
    (skipAuto : Bool) (σ : State) (hs : s ≠ Stage.summary)
    (hfalse : σ.progress.get (Key.stage s) = false)
    (hother : ∃ t : Stage, t ≠ Stage.summary ∧ t ≠ s ∧ σ.progress.get (Key.stage t) = false) :
    (setProgressStep page now nowAuto (Key.stage s) true skipAuto σ).2.xp
        = (triggerXpReward page now (Key.stage s) σ).xp ∧
      (setProgressStep page now nowAuto (Key.stage s) true skipAuto σ).2.progress
        = σ.progress.set (Key.stage s) true := by
  rw [setProgressStep_complete_no_cascade page now nowAuto s skipAuto σ hs hfalse hother]
  exact ⟨triggerXpReward_xp_congr page now (Key.stage s) _ σ rfl, by
    simp [persistProgressState]⟩

/-- Regressing a stage that is set: the XP record is untouched. -/
theorem regress_xp (page : Page) (now nowAuto : Int) (s : Stage) (skipAuto : Bool)
    (σ : State) (hs : s ≠ Stage.summary) (htrue : σ.progress.get (Key.stage s) = true) :
    (setProgressStep page now nowAuto (Key.stage s) false skipAuto σ).2.xp = σ.xp ∧
      (setProgressStep page now nowAuto (Key.stage s) false skipAuto σ).2.progress
        = { σ.progress.set (Key.stage s) false with summary := false } := by
  rw [setProgressStep_regress page now nowAuto s skipAuto σ hs htrue]
  exact ⟨rfl, rfl⟩

/-- The total after the reward of a stage other than summary, on a page with an XP card and
a non-negative total: the entry of `STEP_XP` is added, nothing when there is no entry. -/
theorem triggerXpReward_stage_total (page : Page) (now : Int) (s : Stage) (σ : State)
    (hcard : page.xpCard.isSome = true) (htotal : 0 ≤ σ.xp.total) (hs : s ≠ Stage.summary) :
    (triggerXpReward page now (Key.stage s) σ).xp.total
      = σ.xp.total + (STEP_XP page (Key.stage s)).getD 0 := by
  have hnone : page.xpCard.isNone = false := by
    cases h : page.xpCard <;> simp [h] at hcard ⊢
  cases s <;>
    simp [triggerXpReward, STEP_XP, awardXp, persistXpState, hnone] at hs ⊢ <;>
    omega

/-- C8 as stated fails: the claim puts no condition on the total.  A page whose XP amount
element displays -50 opens with the total -50 (line 207); with every stage unset, completing
`example` leaves the total at `max(0, -50 + 10) = 0`, an increase of 50 and not of 10. -/
theorem reward_table_fails_below_zero :
    (⟨some ⟨none, some (-50)⟩⟩ : Page).xpCard.isSome = true ∧
    (freshState ⟨some ⟨none, some (-50)⟩⟩).xp.total = -50 ∧
    (freshState ⟨some ⟨none, some (-50)⟩⟩).progress.get (Key.stage Stage.example)
      = false ∧
    (freshState ⟨some ⟨none, some (-50)⟩⟩).progress.get (Key.stage Stage.practice)
      = false ∧
    (setProgressStep ⟨some ⟨none, some (-50)⟩⟩ 0 0 (Key.stage Stage.example) true false
      (freshState ⟨some ⟨none, some (-50)⟩⟩)).2.xp.total = 0 ∧
    (setProgressStep ⟨some ⟨none, some (-50)⟩⟩ 0 0 (Key.stage Stage.example) true false
      (freshState ⟨some ⟨none, some (-50)⟩⟩)).2.xp.total
      ≠ (freshState ⟨some ⟨none, some (-50)⟩⟩).xp.total + 10 := by
  decide

/-- C8, amended: the reward table.  On a page with an XP card, in a state where stage `s` is
unset and another stage among concept, example, practice and test is unset too,
`setProgressStep(s, true)`, with or without `skipAuto`, leaves the total at
`max(0, total + 10)` for example, `max(0, total + 5)` for practice, `max(0, total + 7)` for
test and at the old total for concept; so from a non-negative total it adds exactly 10, 5, 7
and nothing. -/
theorem reward_table (page : Page) (now nowAuto : Int) (s : Stage) (skipAuto : Bool)
    (σ : State) (hcard : page.xpCard.isSome = true)
    (hs : s ≠ Stage.summary) (hfalse : σ.progress.get (Key.stage s) = false)
    (hother : ∃ t : Stage, t ≠ Stage.summary ∧ t ≠ s ∧ σ.progress.get (Key.stage t) = false) :
    (s = Stage.example →
      (setProgressStep page now nowAuto (Key.stage s) true skipAuto σ).2.xp.total
        = max 0 (σ.xp.total + 10)) ∧
    (s = Stage.practice →
      (setProgressStep page now nowAuto (Key.stage s) true skipAuto σ).2.xp.total
        = max 0 (σ.xp.total + 5)) ∧
    (s = Stage.test →
      (setProgressStep page now nowAuto (Key.stage s) true skipAuto σ).2.xp.total
        = max 0 (σ.xp.total + 7)) ∧
    (s = Stage.concept →
      (setProgressStep page now nowAuto (Key.stage s) true skipAuto σ).2.xp.total
        = σ.xp.total) ∧
    (0 ≤ σ.xp.total →
      (s = Stage.example →
        (setProgressStep page now nowAuto (Key.stage s) true skipAuto σ).2.xp.total
          = σ.xp.total + 10) ∧
      (s = Stage.practice →
        (setProgressStep page now nowAuto (Key.stage s) true skipAuto σ).2.xp.total
          = σ.xp.total + 5) ∧
      (s = Stage.test →
        (setProgressStep page now nowAuto (Key.stage s) true skipAuto σ).2.xp.total
          = σ.xp.total + 7)) := by
  have hnone : page.xpCard.isNone = false := by
    cases h : page.xpCard <;> simp [h] at hcard ⊢
  rw [(complete_no_cascade_xp page now nowAuto s skipAuto σ hs hfalse hother).1]
  refine ⟨?_, ?_, ?_, ?_, ?_⟩
  · intro hst
    subst hst
    simp [triggerXpReward, STEP_XP, awardXp, persistXpState, hnone]
  · intro hst
    subst hst
    simp [triggerXpReward, STEP_XP, awardXp, persistXpState, hnone]
  · intro hst
    subst hst
    simp [triggerXpReward, STEP_XP, awardXp, persistXpState, hnone]
  · intro hst
    subst hst
    simp [triggerXpReward, STEP_XP]
  · intro htotal
    rw [triggerXpReward_stage_total page now s σ hcard htotal hs]
    refine ⟨?_, ?_, ?_⟩ <;> intro hst <;> subst hst <;> simp [STEP_XP]

/-- Witness for C8, amended: on a first visit with an XP card, completing `example` takes
the total from 0 to 10. -/
theorem reward_table_witness :
    (setProgressStep ⟨some ⟨none, none⟩⟩ 0 0 (Key.stage Stage.example) true false
      (freshState ⟨some ⟨none, none⟩⟩)).2.xp.total = 0 + 10 :=
  ((reward_table ⟨some ⟨none, none⟩⟩ 0 0 Stage.example false
    (freshState ⟨some ⟨none, none⟩⟩) rfl (by decide) rfl
    ⟨Stage.concept, by decide, by decide, rfl⟩).2.2.2.2 (by decide)).1 rfl

/-- C9 as stated fails: on a first visit with an XP card, completing `example`, regressing
it and completing it again leaves a total of 20: the second completion adds the 10 points a
second time. -/
theorem second_completion_adds_points_again :
    (runCalls ⟨some ⟨none, none⟩⟩
      [⟨Stage.example, true, false, 0, 0⟩, ⟨Stage.example, false, false, 1, 1⟩]
      (freshState ⟨some ⟨none, none⟩⟩)).xp.total = 10 ∧
    (runCalls ⟨some ⟨none, none⟩⟩
      [⟨Stage.example, true, false, 0, 0⟩, ⟨Stage.example, false, false, 1, 1⟩,
        ⟨Stage.example, true, false, 2, 2⟩]
      (freshState ⟨some ⟨none, none⟩⟩)).xp.total = 20 := by
  decide

/-- C9, amended: the points of a stage are granted on every transition of the stage from
unset to set.  On a page with an XP card, from a state with a non-negative total in which
`s` (example, practice or test) is unset and another prerequisite is unset too, in the
sequence `setProgressStep(s, true)`, `setProgressStep(s, false)`, `setProgressStep(s, true)`
the first completion adds the points of `s` (10, 5, 7), the regression leaves the XP record
as it is, and the second completion adds the same points again. -/
theorem points_granted_on_every_completion (page : Page) (n1 a1 n2 a2 n3 a3 : Int)
    (k1 k2 k3 : Bool) (s : Stage) (σ : State)
    (hcard : page.xpCard.isSome = true) (htotal : 0 ≤ σ.xp.total)
    (hs : s = Stage.example ∨ s = Stage.practice ∨ s = Stage.test)
    (hfalse : σ.progress.get (Key.stage s) = false)
    (hother : ∃ t : Stage, t ≠ Stage.summary ∧ t ≠ s ∧ σ.progress.get (Key.stage t) = false) :
    ∃ pts : Int,
      (s = Stage.example ∧ pts = 10 ∨ s = Stage.practice ∧ pts = 5 ∨
        s = Stage.test ∧ pts = 7) ∧
      (setProgressStep page n1 a1 (Key.stage s) true k1 σ).2.xp.total = σ.xp.total + pts ∧
      (setProgressStep page n2 a2 (Key.stage s) false k2
        (setProgressStep page n1 a1 (Key.stage s) true k1 σ).2).2.xp
        = (setProgressStep page n1 a1 (Key.stage s) true k1 σ).2.xp ∧
      (setProgressStep page n3 a3 (Key.stage s) true k3
        (setProgressStep page n2 a2 (Key.stage s) false k2
          (setProgressStep page n1 a1 (Key.stage s) true k1 σ).2).2).2.xp.total
        = σ.xp.total + pts + pts := by
  have hns : s ≠ Stage.summary := by
    rcases hs with h | h | h <;> rw [h] <;> decide
  obtain ⟨t, ht1, ht2, ht3⟩ := hother
  have hpts : ∃ pts : Int, (STEP_XP page (Key.stage s)).getD 0 = pts ∧ 0 ≤ pts ∧
      (s = Stage.example ∧ pts = 10 ∨ s = Stage.practice ∧ pts = 5 ∨
        s = Stage.test ∧ pts = 7) := by
    rcases hs with h | h | h <;> subst h <;> simp [STEP_XP]
  obtain ⟨pts, hp1, hp2, hp3⟩ := hpts
  refine ⟨pts, hp3, ?_⟩
  -- first completion
  obtain ⟨x1, p1⟩ := complete_no_cascade_xp page n1 a1 s k1 σ hns hfalse ⟨t, ht1, ht2, ht3⟩
  have e1 := triggerXpReward_stage_total page n1 s σ hcard htotal hns
  rw [hp1] at e1
  generalize (setProgressStep page n1 a1 (Key.stage s) true k1 σ).2 = σ1 at x1 p1 ⊢
  have t1 : σ1.xp.total = σ.xp.total + pts := by rw [x1, e1]
  -- regression
  have hset : σ1.progress.get (Key.stage s) = true := by rw [p1, get_set_same]
  obtain ⟨x2, p2⟩ := regress_xp page n2 a2 s k2 σ1 hns hset
  generalize (setProgressStep page n2 a2 (Key.stage s) false k2 σ1).2 = σ2 at x2 p2 ⊢
  -- second completion
  have hfalse3 : σ2.progress.get (Key.stage s) = false := by
    rw [p2, get_reset_summary _ s hns, get_set_same]
  have hother3 : σ2.progress.get (Key.stage t) = false := by
    rw [p2, get_reset_summary _ t ht1, get_set_ne _ s t false ht2, p1,
      get_set_ne _ s t true ht2]
    exact ht3
  obtain ⟨x3, _⟩ := complete_no_cascade_xp page n3 a3 s k3 σ2 hns hfalse3
    ⟨t, ht1, ht2, hother3⟩
  have htotal2 : 0 ≤ σ2.xp.total := by
    rw [x2, t1]
    omega
  have e3 := triggerXpReward_stage_total page n3 s σ2 hcard htotal2 hns
  rw [hp1] at e3
  refine ⟨t1, x2, ?_⟩
  rw [x3, e3, x2, t1]

/-- Witness for C9, amended: on a first visit with an XP card, `example` is completed,
regressed and completed again while `concept` stays unset. -/
theorem points_granted_on_every_completion_witness :
    ∃ pts : Int,
      (Stage.example = Stage.example ∧ pts = 10 ∨ Stage.example = Stage.practice ∧ pts = 5 ∨
        Stage.example = Stage.test ∧ pts = 7) ∧
      (setProgressStep ⟨some ⟨none, none⟩⟩ 0 0 (Key.stage Stage.example) true false
        (freshState ⟨some ⟨none, none⟩⟩)).2.xp.total
        = (freshState ⟨some ⟨none, none⟩⟩).xp.total + pts ∧
      (setProgressStep ⟨some ⟨none, none⟩⟩ 1 1 (Key.stage Stage.example) false false
        (setProgressStep ⟨some ⟨none, none⟩⟩ 0 0 (Key.stage Stage.example) true false
          (freshState ⟨some ⟨none, none⟩⟩)).2).2.xp
        = (setProgressStep ⟨some ⟨none, none⟩⟩ 0 0 (Key.stage Stage.example) true false
          (freshState ⟨some ⟨none, none⟩⟩)).2.xp ∧
      (setProgressStep ⟨some ⟨none, none⟩⟩ 2 2 (Key.stage Stage.example) true false
        (setProgressStep ⟨some ⟨none, none⟩⟩ 1 1 (Key.stage Stage.example) false false
          (setProgressStep ⟨some ⟨none, none⟩⟩ 0 0 (Key.stage Stage.example) true false
            (freshState ⟨some ⟨none, none⟩⟩)).2).2).2.xp.total
        = (freshState ⟨some ⟨none, none⟩⟩).xp.total + pts + pts :=
  points_granted_on_every_completion ⟨some ⟨none, none⟩⟩ 0 0 1 1 2 2 false false false
    Stage.example (freshState ⟨some ⟨none, none⟩⟩) rfl (by decide) (Or.inl rfl) rfl
    ⟨Stage.concept, by decide, by decide, rfl⟩

/-- C10 as stated fails: on a first visit with an XP card, `setProgressStep('example', true,
{ skipAuto: true })` changes the XP record: the total goes from 0 to 10. -/
theorem skipAuto_does_not_suppress_reward :
    (setProgressStep ⟨some ⟨none, none⟩⟩ 0 0 (Key.stage Stage.example) true true
      (freshState ⟨some ⟨none, none⟩⟩)).2.xp ≠ (freshState ⟨some ⟨none, none⟩⟩).xp ∧
    (setProgressStep ⟨some ⟨none, none⟩⟩ 0 0 (Key.stage Stage.example) true true
      (freshState ⟨some ⟨none, none⟩⟩)).2.xp.total = 10 := by
  decide

/-- C10, amended: with `skipAuto` set, `setProgressStep(stage, true)` on a stage other than
summary that was unset still triggers the reward of that stage: the XP record afterwards is
the one `triggerXpReward(stage)` produces.  On a page with an XP card and a non-negative
total that adds 10 for example, 5 for practice and 7 for test; for concept, which has no
entry in `STEP_XP`, the XP record is unchanged. -/
theorem skipAuto_keeps_stage_reward (page : Page) (now nowAuto : Int) (s : Stage) (σ : State)
    (hs : s ≠ Stage.summary) (hfalse : σ.progress.get (Key.stage s) = false) :
    (setProgressStep page now nowAuto (Key.stage s) true true σ).2.xp
        = (triggerXpReward page now (Key.stage s) σ).xp ∧
    (page.xpCard.isSome = true → 0 ≤ σ.xp.total →
      (s = Stage.example →
        (setProgressStep page now nowAuto (Key.stage s) true true σ).2.xp.total
          = σ.xp.total + 10) ∧
      (s = Stage.practice →
        (setProgressStep page now nowAuto (Key.stage s) true true σ).2.xp.total
          = σ.xp.total + 5) ∧
      (s = Stage.test →
        (setProgressStep page now nowAuto (Key.stage s) true true σ).2.xp.total
          = σ.xp.total + 7)) ∧
    (s = Stage.concept →
      (setProgressStep page now nowAuto (Key.stage s) true true σ).2.xp = σ.xp) := by
  have hxp : (setProgressStep page now nowAuto (Key.stage s) true true σ).2.xp
      = (triggerXpReward page now (Key.stage s) σ).xp := by
    rw [setProgressStep_complete_skipAuto page now nowAuto s σ hs hfalse]
    exact triggerXpReward_xp_congr page now (Key.stage s) _ σ rfl
  refine ⟨hxp, ?_, ?_⟩
  · intro hcard htotal
    rw [hxp, triggerXpReward_stage_total page now s σ hcard htotal hs]
    refine ⟨?_, ?_, ?_⟩ <;> intro hst <;> subst hst <;> simp [STEP_XP]
  · intro hst
    subst hst
    rw [hxp]
    simp [triggerXpReward, STEP_XP]

/-- Witness for C10, amended: the suppressed completion of `practice` on a first visit with
an XP card adds 5 points. -/
theorem skipAuto_keeps_stage_reward_witness :
    (setProgressStep ⟨some ⟨none, none⟩⟩ 0 0 (Key.stage Stage.practice) true true
      (freshState ⟨some ⟨none, none⟩⟩)).2.xp.total
      = (freshState ⟨some ⟨none, none⟩⟩).xp.total + 5 :=
  ((skipAuto_keeps_stage_reward ⟨some ⟨none, none⟩⟩ 0 0 Stage.practice
    (freshState ⟨some ⟨none, none⟩⟩) (by decide) rfl).2.1 rfl (by decide)).2.1 rfl

/-! ## `awardXp` on its own -/

/-- The configured summary reward is never zero: line 203 falls back to 40. -/
theorem xpRewardTotal_ne_zero (page : Page) : xpRewardTotal page ≠ 0 := by
  unfold xpRewardTotal
  split
  · split
    · split
      · decide
      · assumption
    · decide
  · decide

/-- On a page with the XP card and for a non-zero amount, `awardXp` passes its guard: the XP
record afterwards, field by field. -/
theorem awardXp_xp (page : Page) (now amount : Int) (reason : String) (σ : State)
    (hcard : page.xpCard.isSome = true) (hamount : amount ≠ 0) :
    (awardXp page now amount reason σ).xp
      = { total := max 0 (σ.xp.total + amount)
          level := computeLevel (max 0 (σ.xp.total + amount))
          badge := computeBadge (computeLevel (max 0 (σ.xp.total + amount)))
          streak :=
            match σ.xp.lastPlayedAt with
            | some last =>
              if (now - last) / 86400000 = 1 then some (σ.xp.streak.getD 0 + 1)
              else if (now - last) / 86400000 > 1 then some 1
              else σ.xp.streak
            | none => some 1
          lastPlayedAt := some now
          lastReason := some reason } := by
  have hnone : page.xpCard.isNone = false := by
    cases h : page.xpCard <;> simp [h] at hcard ⊢
  simp [awardXp, persistXpState, hnone, hamount]

/-- On a page without the XP card `awardXp` returns at its guard. -/
theorem awardXp_no_card (page : Page) (now amount : Int) (reason : String) (σ : State)
    (hcard : page.xpCard = none) : awardXp page now amount reason σ = σ := by
  simp [awardXp, hcard]

/-- `Math.round` is the nearest integer, halves going up. -/
theorem mathRound_nearest (x : ℚ) :
    x - 1 / 2 < (mathRound x : ℚ) ∧ (mathRound x : ℚ) ≤ x + 1 / 2 := by
  unfold mathRound
  constructor
  · have := Int.lt_floor_add_one (x + 1 / 2)
    linarith
  · exact Int.floor_le (x + 1 / 2)

/-- `Math.round` leaves an integer as it is. -/
theorem mathRound_intCast (n : Int) : mathRound (n : ℚ) = n := by
  unfold mathRound
  rw [Int.floor_eq_iff]
  constructor <;> norm_num

/-! ## Claims C11 and C12: the cascade and its reward -/

/-- Progress-record form of C11: with the cascade suppressed `summary` and the reward guard
stay as they are. -/
theorem progressAfter_skipAuto (st : Stage) (p : ProgressState) (hst : st ≠ Stage.summary)
    (hsum : p.summary = false) (hfalse : p.get (Key.stage st) = false) :
    (progressAfter (Key.stage st) true true p).2.summary = false ∧
      (progressAfter (Key.stage st) true true p).2.summaryRewarded = p.summaryRewarded := by
  obtain ⟨c, e, pr, t, s, r⟩ := p
  revert hst hsum hfalse
  revert c e pr t s r
  cases st <;> decide

/-- C11: with `skipAuto` set, in a state where `summary` is unset and `s` is the only unset
stage among concept, example, practice and test, `setProgressStep(s, true, { skipAuto: true })`
leaves `summary` unset and `summaryRewarded` as it was. -/
theorem skipAuto_suppresses_cascade (page : Page) (now nowAuto : Int) (s : Stage) (σ : State)
    (hs : s ≠ Stage.summary) (hsum : σ.progress.summary = false)
    (hfalse : σ.progress.get (Key.stage s) = false)
    (_hrest : ∀ t : Stage, t ≠ Stage.summary → t ≠ s →
      σ.progress.get (Key.stage t) = true) :
    (setProgressStep page now nowAuto (Key.stage s) true true σ).2.progress.summary = false ∧
      (setProgressStep page now nowAuto (Key.stage s) true true σ).2.progress.summaryRewarded
        = σ.progress.summaryRewarded := by
  rw [setProgressStep_snd_progress]
  exact progressAfter_skipAuto s σ.progress hs hsum hfalse

/-- Witness for C11: with concept, example and practice set, completing `test` with the
cascade suppressed leaves `summary` unset, where the unsuppressed call would set it. -/
theorem skipAuto_suppresses_cascade_witness :
    (setProgressStep ⟨some ⟨none, none⟩⟩ 0 0 (Key.stage Stage.test) true true
      { freshState ⟨some ⟨none, none⟩⟩ with
        progress := ⟨true, true, true, false, false, false⟩ }).2.progress.summary = false ∧
    (setProgressStep ⟨some ⟨none, none⟩⟩ 0 0 (Key.stage Stage.test) true true
      { freshState ⟨some ⟨none, none⟩⟩ with
        progress := ⟨true, true, true, false, false, false⟩ }).2.progress.summaryRewarded
      = false :=
  skipAuto_suppresses_cascade ⟨some ⟨none, none⟩⟩ 0 0 Stage.test
    { freshState ⟨some ⟨none, none⟩⟩ with
      progress := ⟨true, true, true, false, false, false⟩ }
    (by decide) rfl rfl (by decide)

/-- Setting the only unset prerequisite completes the four of them. -/
theorem coreStepsComplete_set_last (p : ProgressState) (s : Stage) (hs : s ≠ Stage.summary)
    (hrest : ∀ t : Stage, t ≠ Stage.summary → t ≠ s → p.get (Key.stage t) = true) :
    coreStepsComplete (p.set (Key.stage s) true) = true := by
  rw [coreStepsComplete_eq]
  have hc := hrest Stage.concept (by decide)
  have he := hrest Stage.example (by decide)
  have hp := hrest Stage.practice (by decide)
  have ht := hrest Stage.test (by decide)
  cases s <;> simp [ProgressState.set, ProgressState.get] at hs hc he hp ht ⊢ <;>
    simp [hc, he, hp, ht]

/-- Completing the last prerequisite without `skipAuto`, with `summary` and the reward guard
unset: the state afterwards, as the two rewards and the three writes of the progress record
that make it up. -/
theorem setProgressStep_complete_cascade (page : Page) (now nowAuto : Int) (s : Stage)
    (σ : State) (hs : s ≠ Stage.summary) (hsum : σ.progress.summary = false)
    (hrew : σ.progress.summaryRewarded = false)
    (hfalse : σ.progress.get (Key.stage s) = false)
    (hrest : ∀ t : Stage, t ≠ Stage.summary → t ≠ s →
      σ.progress.get (Key.stage t) = true) :
    setProgressStep page now nowAuto (Key.stage s) true false σ
      = (true,
          persistProgressState
            { triggerXpReward page nowAuto (Key.stage Stage.summary)
                (persistProgressState
                  { triggerXpReward page now (Key.stage s)
                      (persistProgressState
                        { σ with progress := σ.progress.set (Key.stage s) true }) with
                    progress :=
                      { σ.progress.set (Key.stage s) true with summary := true } }) with
              progress :=
                { σ.progress.set (Key.stage s) true with
                  summary := true, summaryRewarded := true } }) := by
  have hcore := coreStepsComplete_set_last σ.progress s hs hrest
  have hsum1 : (σ.progress.set (Key.stage s) true).summary = false := by
    have := get_set_ne σ.progress s Stage.summary true (fun h => hs h.symm)
    simpa [ProgressState.get, hsum] using this
  have hrew1 : (σ.progress.set (Key.stage s) true).summaryRewarded = false := by
    rw [set_stage_summaryRewarded]
    exact hrew
  rw [setProgressStep_stage page now nowAuto s true false σ hs]
  simp only [hfalse, hcore]
  rw [stepBody_summary]
  simp [persistProgressState, hsum1, handleSummaryUnlocked, hrew1]

/-- C12 as stated fails: the claim puts no condition on the total or on the configured
reward.  With concept, example and practice set, completing `test` on a page whose
`data-xp-reward` is -30, at total 0, leaves the total at `max(0, max(0, 0 + 7) - 30) = 0`
and not at `0 + 7 - 30`; and on a page that configures no reward and displays the amount
-50, it leaves `max(0, max(0, -50 + 7) + 40) = 40` and not `-50 + 7 + 40`. -/
theorem cascade_reward_clamped_at_zero :
    xpRewardTotal ⟨some ⟨some (-30), none⟩⟩ = -30 ∧
    ({ freshState ⟨some ⟨some (-30), none⟩⟩ with
        progress := ⟨true, true, true, false, false, false⟩ } : State).xp.total = 0 ∧
    (setProgressStep ⟨some ⟨some (-30), none⟩⟩ 0 0 (Key.stage Stage.test) true false
      { freshState ⟨some ⟨some (-30), none⟩⟩ with
        progress := ⟨true, true, true, false, false, false⟩ }).2.xp.total = 0 ∧
    (setProgressStep ⟨some ⟨some (-30), none⟩⟩ 0 0 (Key.stage Stage.test) true false
      { freshState ⟨some ⟨some (-30), none⟩⟩ with
        progress := ⟨true, true, true, false, false, false⟩ }).2.xp.total
      ≠ 0 + 7 + xpRewardTotal ⟨some ⟨some (-30), none⟩⟩ ∧
    xpRewardTotal ⟨some ⟨none, some (-50)⟩⟩ = 40 ∧
    ({ freshState ⟨some ⟨none, some (-50)⟩⟩ with
        progress := ⟨true, true, true, false, false, false⟩ } : State).xp.total = -50 ∧
    (setProgressStep ⟨some ⟨none, some (-50)⟩⟩ 0 0 (Key.stage Stage.test) true false
      { freshState ⟨some ⟨none, some (-50)⟩⟩ with
        progress := ⟨true, true, true, false, false, false⟩ }).2.xp.total = 40 ∧
    (setProgressStep ⟨some ⟨none, some (-50)⟩⟩ 0 0 (Key.stage Stage.test) true false
      { freshState ⟨some ⟨none, some (-50)⟩⟩ with
        progress := ⟨true, true, true, false, false, false⟩ }).2.xp.total
      ≠ -50 + 7 + xpRewardTotal ⟨some ⟨none, some (-50)⟩⟩ := by
  decide

/-- C12, amended: cascade reward accounting.  On a page with the XP card, in a state where
`summary` and `summaryRewarded` are unset and `s` is the only unset stage among concept,
example, practice and test, `setProgressStep(s, true)` without `skipAuto` sets `summary`
and `summaryRewarded` and makes two awards, each clamped at 0: the points of `s` (example
10, practice 5, test 7, no award for concept) and then the summary reward; the award history
gains exactly these, so no stage is rewarded a second time.  With a non-negative total and a
non-negative summary reward the total grows by exactly the points of `s` plus the summary
reward.  The summary reward is the page's `data-xp-reward` when that is a non-zero integer,
and 40 when it is missing, zero or not a number. -/
theorem cascade_reward_accounting (page : Page) (now nowAuto : Int) (s : Stage) (σ : State)
    (hcard : page.xpCard.isSome = true)
    (hs : s ≠ Stage.summary) (hsum : σ.progress.summary = false)
    (hrew : σ.progress.summaryRewarded = false)
    (hfalse : σ.progress.get (Key.stage s) = false)
    (hrest : ∀ t : Stage, t ≠ Stage.summary → t ≠ s →
      σ.progress.get (Key.stage t) = true) :
    (setProgressStep page now nowAuto (Key.stage s) true false σ).2.progress.summary = true ∧
    (setProgressStep page now nowAuto (Key.stage s) true false σ).2.progress.summaryRewarded
      = true ∧
    (s = Stage.concept →
      (setProgressStep page now nowAuto (Key.stage s) true false σ).2.xp.total
          = max 0 (σ.xp.total + xpRewardTotal page) ∧
        (setProgressStep page now nowAuto (Key.stage s) true false σ).2.awardLog
          = ("summary", xpRewardTotal page) :: σ.awardLog) ∧
    (s = Stage.example →
      (setProgressStep page now nowAuto (Key.stage s) true false σ).2.xp.total
          = max 0 (max 0 (σ.xp.total + 10) + xpRewardTotal page) ∧
        (setProgressStep page now nowAuto (Key.stage s) true false σ).2.awardLog
          = ("summary", xpRewardTotal page) :: ("example", 10) :: σ.awardLog) ∧
    (s = Stage.practice →
      (setProgressStep page now nowAuto (Key.stage s) true false σ).2.xp.total
          = max 0 (max 0 (σ.xp.total + 5) + xpRewardTotal page) ∧
        (setProgressStep page now nowAuto (Key.stage s) true false σ).2.awardLog
          = ("summary", xpRewardTotal page) :: ("practice", 5) :: σ.awardLog) ∧
    (s = Stage.test →
      (setProgressStep page now nowAuto (Key.stage s) true false σ).2.xp.total
          = max 0 (max 0 (σ.xp.total + 7) + xpRewardTotal page) ∧
        (setProgressStep page now nowAuto (Key.stage s) true false σ).2.awardLog
          = ("summary", xpRewardTotal page) :: ("test", 7) :: σ.awardLog) ∧
    (0 ≤ σ.xp.total → 0 ≤ xpRewardTotal page →
      (s = Stage.concept →
        (setProgressStep page now nowAuto (Key.stage s) true false σ).2.xp.total
          = σ.xp.total + 0 + xpRewardTotal page) ∧
      (s = Stage.example →
        (setProgressStep page now nowAuto (Key.stage s) true false σ).2.xp.total
          = σ.xp.total + 10 + xpRewardTotal page) ∧
      (s = Stage.practice →
        (setProgressStep page now nowAuto (Key.stage s) true false σ).2.xp.total
          = σ.xp.total + 5 + xpRewardTotal page) ∧
      (s = Stage.test →
        (setProgressStep page now nowAuto (Key.stage s) true false σ).2.xp.total
          = σ.xp.total + 7 + xpRewardTotal page)) ∧
    (∀ (card : XpCard) (n : Int), page.xpCard = some card → card.xpReward = some n →
      n ≠ 0 → xpRewardTotal page = n) ∧
    (∀ card : XpCard, page.xpCard = some card →
      card.xpReward = none ∨ card.xpReward = some 0 → xpRewardTotal page = 40) := by
  have hnone : page.xpCard.isNone = false := by
    cases h : page.xpCard <;> simp [h] at hcard ⊢
  have hne := xpRewardTotal_ne_zero page
  rw [setProgressStep_complete_cascade page now nowAuto s σ hs hsum hrew hfalse hrest]
  refine ⟨rfl, rfl, ?_, ?_, ?_, ?_, ?_, ?_, ?_⟩
  · intro h
    subst h
    simp [triggerXpReward, STEP_XP, awardXp, persistXpState, persistProgressState, hnone, hne,
      Key.name, Stage.name]
  · intro h
    subst h
    simp [triggerXpReward, STEP_XP, awardXp, persistXpState, persistProgressState, hnone, hne,
      Key.name, Stage.name]
  · intro h
    subst h
    simp [triggerXpReward, STEP_XP, awardXp, persistXpState, persistProgressState, hnone, hne,
      Key.name, Stage.name]
  · intro h
    subst h
    simp [triggerXpReward, STEP_XP, awardXp, persistXpState, persistProgressState, hnone, hne,
      Key.name, Stage.name]
  · intro htotal hreward
    refine ⟨?_, ?_, ?_, ?_⟩ <;> intro h <;> subst h <;>
      simp [triggerXpReward, STEP_XP, awardXp, persistXpState, persistProgressState, hnone,
        hne, Key.name, Stage.name] <;>
      omega
  · intro card n hc hn hn0
    simp [xpRewardTotal, hc, hn, hn0]
  · rintro card hc (h | h) <;> simp [xpRewardTotal, hc, h]

/-- Witness for C12, amended: on a first visit with an XP card whose `data-xp-reward` is 25,
with concept, example and practice set, completing `test` takes the total from 0 to 7 + 25,
and the history gains the award for `test` and the summary award of 25. -/
theorem cascade_reward_accounting_witness :
    (setProgressStep ⟨some ⟨some 25, none⟩⟩ 0 0 (Key.stage Stage.test) true false
      { freshState ⟨some ⟨some 25, none⟩⟩ with
        progress := ⟨true, true, true, false, false, false⟩ }).2.xp.total
      = 0 + 7 + 25 ∧
    (setProgressStep ⟨some ⟨some 25, none⟩⟩ 0 0 (Key.stage Stage.test) true false
      { freshState ⟨some ⟨some 25, none⟩⟩ with
        progress := ⟨true, true, true, false, false, false⟩ }).2.awardLog
      = [("summary", 25), ("test", 7)] :=
  ⟨((cascade_reward_accounting ⟨some ⟨some 25, none⟩⟩ 0 0 Stage.test
      { freshState ⟨some ⟨some 25, none⟩⟩ with
        progress := ⟨true, true, true, false, false, false⟩ }
      rfl (by decide) rfl rfl rfl (by decide)).2.2.2.2.2.2.1 (by decide) (by decide)).2.2.2 rfl,
    ((cascade_reward_accounting ⟨some ⟨some 25, none⟩⟩ 0 0 Stage.test
      { freshState ⟨some ⟨some 25, none⟩⟩ with
        progress := ⟨true, true, true, false, false, false⟩ }
      rfl (by decide) rfl rfl rfl (by decide)).2.2.2.2.2.1 rfl).2⟩

/-! ## Claim C13: the end-to-end scenario -/

/-- C13 as stated fails: on a first visit with an XP card and the default reward, after
`example`, `practice` and `test` are completed at one instant the total is 22 and `summary`
is not completed, because `concept` is still unset: no cascade, no summary reward. -/
theorem scenario_stops_at_22_without_concept :
    (runCalls ⟨some ⟨none, none⟩⟩
      [⟨Stage.example, true, false, 0, 0⟩, ⟨Stage.practice, true, false, 0, 0⟩,
        ⟨Stage.test, true, false, 0, 0⟩]
      (freshState ⟨some ⟨none, none⟩⟩)).progress.summary = false ∧
    (runCalls ⟨some ⟨none, none⟩⟩
      [⟨Stage.example, true, false, 0, 0⟩, ⟨Stage.practice, true, false, 0, 0⟩,
        ⟨Stage.test, true, false, 0, 0⟩]
      (freshState ⟨some ⟨none, none⟩⟩)).xp.total = 22 ∧
    (runCalls ⟨some ⟨none, none⟩⟩
      [⟨Stage.example, true, false, 0, 0⟩, ⟨Stage.practice, true, false, 0, 0⟩,
        ⟨Stage.test, true, false, 0, 0⟩]
      (freshState ⟨some ⟨none, none⟩⟩)).progress.summaryRewarded = false := by
  decide

/-- C13, amended: on a first visit with an XP card and the default reward of 40 (all five
stages unset, `summaryRewarded` unset, total 0, level 1, badge Beginner, streak 0, no
`lastPlayedAt`), with all calls at one instant `now`: completing `example` gives total 10,
level 1, badge Beginner, streak 1; completing `practice` gives total 15; completing `test`
gives total 22 and leaves `summary` unset, `concept` being unset; completing `concept` then
adds no points of its own and completes `summary` by the cascade, ending with `summary`
set, total 62 and `summaryRewarded` set. -/
theorem end_to_end_scenario (now : Int) :
    (freshState ⟨some ⟨none, none⟩⟩).progress = ⟨false, false, false, false, false, false⟩ ∧
    (freshState ⟨some ⟨none, none⟩⟩).xp = ⟨0, 1, "Beginner", some 0, none, none⟩ ∧
    xpRewardTotal ⟨some ⟨none, none⟩⟩ = 40 ∧
    (runCalls ⟨some ⟨none, none⟩⟩ [⟨Stage.example, true, false, now, now⟩]
      (freshState ⟨some ⟨none, none⟩⟩)).xp
      = ⟨10, 1, "Beginner", some 1, some now, some "example"⟩ ∧
    (runCalls ⟨some ⟨none, none⟩⟩
      [⟨Stage.example, true, false, now, now⟩, ⟨Stage.practice, true, false, now, now⟩]
      (freshState ⟨some ⟨none, none⟩⟩)).xp.total = 15 ∧
    (runCalls ⟨some ⟨none, none⟩⟩
      [⟨Stage.example, true, false, now, now⟩, ⟨Stage.practice, true, false, now, now⟩,
        ⟨Stage.test, true, false, now, now⟩]
      (freshState ⟨some ⟨none, none⟩⟩)).xp.total = 22 ∧
    (runCalls ⟨some ⟨none, none⟩⟩
      [⟨Stage.example, true, false, now, now⟩, ⟨Stage.practice, true, false, now, now⟩,
        ⟨Stage.test, true, false, now, now⟩]
      (freshState ⟨some ⟨none, none⟩⟩)).progress
      = ⟨false, true, true, true, false, false⟩ ∧
    (runCalls ⟨some ⟨none, none⟩⟩
      [⟨Stage.example, true, false, now, now⟩, ⟨Stage.practice, true, false, now, now⟩,
        ⟨Stage.test, true, false, now, now⟩, ⟨Stage.concept, true, false, now, now⟩]
      (freshState ⟨some ⟨none, none⟩⟩)).progress
      = ⟨true, true, true, true, true, true⟩ ∧
    (runCalls ⟨some ⟨none, none⟩⟩
      [⟨Stage.example, true, false, now, now⟩, ⟨Stage.practice, true, false, now, now⟩,
        ⟨Stage.test, true, false, now, now⟩, ⟨Stage.concept, true, false, now, now⟩]
      (freshState ⟨some ⟨none, none⟩⟩)).xp
      = ⟨62, 1, "Beginner", some 1, some now, some "summary"⟩ := by
  refine ⟨rfl, rfl, rfl, ?_, ?_, ?_, ?_, ?_, ?_⟩ <;>
    simp [runCalls, Call.apply, setProgressStep, stepBody, handleSummaryUnlocked,
      triggerXpReward, STEP_XP, awardXp, persistXpState, persistProgressState,
      coreStepsComplete, PROGRESS_STEPS, freshState, defaultProgressState, defaultXpState,
      ProgressState.get, ProgressState.set, xpRewardTotal, computeLevel, computeBadge,
      Key.name, Stage.name]

/-! ## Claims C14 to C16: total, level and badge after an award -/

/-- C14 as stated fails: on a page without the XP card `awardXp(10)` returns at its guard
and the total of a first visit stays 0, not `max(0, 0 + 10)`. -/
theorem awardXp_without_card_keeps_total :
    (awardXp ⟨none⟩ 0 10 "example" (freshState ⟨none⟩)).xp.total = 0 ∧
    (awardXp ⟨none⟩ 0 10 "example" (freshState ⟨none⟩)).xp.total
      ≠ max 0 ((freshState ⟨none⟩).xp.total + 10) := by
  decide

/-- On a page with the XP card and for a non-zero amount, `awardXpRational` passes its
guard: the total afterwards. -/
theorem awardXpRational_total (page : Page) (now : Int) (amount : ℚ) (reason : String)
    (σ : State) (hcard : page.xpCard.isSome = true) (hamount : amount ≠ 0) :
    (awardXpRational page now amount reason σ).xp.total
      = max 0 (mathRound ((σ.xp.total : ℚ) + amount)) := by
  have hnone : page.xpCard.isNone = false := by
    cases h : page.xpCard <;> simp [h] at hcard ⊢
  simp [awardXpRational, persistXpState, hnone, hamount]

/-- On an integer amount `awardXp` is `awardXpRational`, up to the history variable: the two
leave the same records in memory and in storage. -/
theorem awardXp_eq_awardXpRational (page : Page) (now amount : Int) (reason : String)
    (σ : State) :
    (awardXp page now amount reason σ).xp
        = (awardXpRational page now (amount : ℚ) reason σ).xp ∧
      (awardXp page now amount reason σ).storedXp
        = (awardXpRational page now (amount : ℚ) reason σ).storedXp ∧
      (awardXp page now amount reason σ).progress
        = (awardXpRational page now (amount : ℚ) reason σ).progress ∧
      (awardXp page now amount reason σ).storedProgress
        = (awardXpRational page now (amount : ℚ) reason σ).storedProgress := by
  have hround : mathRound ((σ.xp.total : ℚ) + (amount : ℚ)) = σ.xp.total + amount := by
    rw [← Int.cast_add]
    exact mathRound_intCast _
  unfold awardXp awardXpRational
  by_cases hg : (page.xpCard.isNone || amount = 0) = true
  · have hg2 : (page.xpCard.isNone || ((amount : ℚ) = 0)) = true := by
      simpa using hg
    rw [if_pos hg, if_pos hg2]
    exact ⟨rfl, rfl, rfl, rfl⟩
  · have hg2 : ¬ (page.xpCard.isNone || ((amount : ℚ) = 0)) = true := by
      simpa using hg
    rw [if_neg hg, if_neg hg2]
    simp [persistXpState, hround]

/-- C14, amended: on a page with the XP card, for every XP record and every non-zero amount,
`awardXp(amount)` sets the total to `max(0, round(total + amount))`, where `round` is the
integer nearest to the sum, the upper one when two are equally near; the total is a
non-negative integer after the award; and when the amount is an integer `n` the new total is
`max(0, total + n)`. -/
theorem awardXp_total (page : Page) (now : Int) (amount : ℚ) (reason : String) (σ : State)
    (hcard : page.xpCard.isSome = true) (hamount : amount ≠ 0) :
    (awardXpRational page now amount reason σ).xp.total
        = max 0 (mathRound ((σ.xp.total : ℚ) + amount)) ∧
    ((σ.xp.total : ℚ) + amount - 1 / 2 < (mathRound ((σ.xp.total : ℚ) + amount) : ℚ) ∧
      (mathRound ((σ.xp.total : ℚ) + amount) : ℚ) ≤ (σ.xp.total : ℚ) + amount + 1 / 2) ∧
    0 ≤ (awardXpRational page now amount reason σ).xp.total ∧
    (∀ n : Int, amount = (n : ℚ) →
      (awardXp page now n reason σ).xp = (awardXpRational page now amount reason σ).xp ∧
      (awardXp page now n reason σ).xp.total = max 0 (σ.xp.total + n) ∧
      0 ≤ (awardXp page now n reason σ).xp.total) := by
  refine ⟨awardXpRational_total page now amount reason σ hcard hamount,
    mathRound_nearest _, ?_, ?_⟩
  · rw [awardXpRational_total page now amount reason σ hcard hamount]
    exact le_max_left 0 _
  · intro n hn
    subst hn
    have hn0 : n ≠ 0 := by
      intro h
      apply hamount
      rw [h]
      rfl
    refine ⟨(awardXp_eq_awardXpRational page now n reason σ).1, ?_, ?_⟩
    · rw [awardXp_xp page now n reason σ hcard hn0]
    · rw [awardXp_xp page now n reason σ hcard hn0]
      exact le_max_left 0 _

/-- Witness for C14, amended: on a first visit with the XP card, an award of 5/2 leaves the
total 3 (the half goes up), and an award of -5/2 from the total 5 leaves 3 as well (5/2 is
rounded to 3, not to 2). -/
theorem awardXp_total_witness :
    (awardXpRational ⟨some ⟨none, none⟩⟩ 0 (5 / 2) "example"
      (freshState ⟨some ⟨none, none⟩⟩)).xp.total = 3 ∧
    (awardXpRational ⟨some ⟨none, some 5⟩⟩ 0 (-5 / 2) "example"
      (freshState ⟨some ⟨none, some 5⟩⟩)).xp.total = 3 := by
  constructor
  · rw [(awardXp_total ⟨some ⟨none, none⟩⟩ 0 (5 / 2) "example"
      (freshState ⟨some ⟨none, none⟩⟩) rfl (by norm_num)).1]
    have h : mathRound (((freshState ⟨some ⟨none, none⟩⟩).xp.total : ℚ) + 5 / 2) = 3 := by
      simp only [freshState, defaultXpState, mathRound]
      rw [Int.floor_eq_iff]
      norm_num
    rw [h]
    decide
  · rw [(awardXp_total ⟨some ⟨none, some 5⟩⟩ 0 (-5 / 2) "example"
      (freshState ⟨some ⟨none, some 5⟩⟩) rfl (by norm_num)).1]
    have h : mathRound (((freshState ⟨some ⟨none, some 5⟩⟩).xp.total : ℚ) + -5 / 2)
        = 3 := by
      simp only [freshState, defaultXpState, mathRound]
      rw [Int.floor_eq_iff]
      norm_num
    rw [h]
    decide

/-- For a non-negative total the `Math.max(1, ·)` of `computeLevel` is idle. -/
theorem computeLevel_of_nonneg (t : Int) (h : 0 ≤ t) : computeLevel t = t / 120 + 1 := by
  unfold computeLevel
  have : 0 ≤ t / 120 := Int.ediv_nonneg h (by decide)
  omega

/-- On a page with the XP card and for a non-zero amount, the record `awardXpRational`
leaves has a non-negative total, the level of that total and the badge of that level. -/
theorem awardXpRational_level_badge (page : Page) (now : Int) (amount : ℚ) (reason : String)
    (σ : State) (hcard : page.xpCard.isSome = true) (hamount : amount ≠ 0) :
    0 ≤ (awardXpRational page now amount reason σ).xp.total ∧
      (awardXpRational page now amount reason σ).xp.level
        = computeLevel (awardXpRational page now amount reason σ).xp.total ∧
      (awardXpRational page now amount reason σ).xp.badge
        = computeBadge (awardXpRational page now amount reason σ).xp.level := by
  have hnone : page.xpCard.isNone = false := by
    cases h : page.xpCard <;> simp [h] at hcard ⊢
  simp [awardXpRational, persistXpState, hnone, hamount]

/-- C15 as stated fails: on a page without the XP card `awardXp(10)` returns at its guard,
so a record loaded from storage with total 300 and level 1 keeps level 1, which is not
`floor(300 / 120) + 1 = 3`. -/
theorem awardXp_without_card_keeps_level :
    (awardXp ⟨none⟩ 0 10 "example"
      (openPage ⟨none⟩ none (some ⟨300, 1, "Beginner", some 0, none, none⟩))).xp.total
      = 300 ∧
    (awardXp ⟨none⟩ 0 10 "example"
      (openPage ⟨none⟩ none (some ⟨300, 1, "Beginner", some 0, none, none⟩))).xp.level
      = 1 ∧
    (awardXp ⟨none⟩ 0 10 "example"
      (openPage ⟨none⟩ none (some ⟨300, 1, "Beginner", some 0, none, none⟩))).xp.level
      ≠ (awardXp ⟨none⟩ 0 10 "example"
          (openPage ⟨none⟩ none
            (some ⟨300, 1, "Beginner", some 0, none, none⟩))).xp.total / 120 + 1 := by
  decide

/-- C15, amended: on a page with the XP card, after every `awardXp` call with a non-zero
amount the level is `floor(total / 120) + 1` for the new total and at least 1, the
`Math.max(1, ·)` of `computeLevel` being idle on the new total, which is non-negative;
totals 0, 119, 120, 239, 240 and 10000 give levels 1, 1, 2, 2, 3 and 84.  The same holds
for an amount that is not an integer. -/
theorem awardXp_level (page : Page) (now amount : Int) (reason : String) (σ : State)
    (hcard : page.xpCard.isSome = true) (hamount : amount ≠ 0) :
    (awardXp page now amount reason σ).xp.level
        = (awardXp page now amount reason σ).xp.total / 120 + 1 ∧
    1 ≤ (awardXp page now amount reason σ).xp.level ∧
    0 ≤ (awardXp page now amount reason σ).xp.total ∧
    (∀ t : Int, 0 ≤ t → computeLevel t = t / 120 + 1) ∧
    (computeLevel 0 = 1 ∧ computeLevel 119 = 1 ∧ computeLevel 120 = 2 ∧
      computeLevel 239 = 2 ∧ computeLevel 240 = 3 ∧ computeLevel 10000 = 84) ∧
    (∀ q : ℚ, q ≠ 0 →
      (awardXpRational page now q reason σ).xp.level
          = (awardXpRational page now q reason σ).xp.total / 120 + 1 ∧
        1 ≤ (awardXpRational page now q reason σ).xp.level) := by
  refine ⟨?_, ?_, ?_, computeLevel_of_nonneg, by decide, ?_⟩
  · rw [awardXp_xp page now amount reason σ hcard hamount]
    exact computeLevel_of_nonneg _ (le_max_left 0 _)
  · rw [awardXp_xp page now amount reason σ hcard hamount]
    exact le_max_left 1 _
  · rw [awardXp_xp page now amount reason σ hcard hamount]
    exact le_max_left 0 _
  · intro q hq
    obtain ⟨h0, hl, _⟩ := awardXpRational_level_badge page now q reason σ hcard hq
    rw [hl]
    exact ⟨computeLevel_of_nonneg _ h0, le_max_left 1 _⟩

/-- Witness for C15, amended: an award of 130 on a first visit with the XP card gives
level 2. -/
theorem awardXp_level_witness :
    (awardXp ⟨some ⟨none, none⟩⟩ 0 130 "test" (freshState ⟨some ⟨none, none⟩⟩)).xp.level
      = (awardXp ⟨some ⟨none, none⟩⟩ 0 130 "test"
          (freshState ⟨some ⟨none, none⟩⟩)).xp.total / 120 + 1 ∧
    (awardXp ⟨some ⟨none, none⟩⟩ 0 130 "test" (freshState ⟨some ⟨none, none⟩⟩)).xp.level
      = 2 :=
  ⟨(awardXp_level ⟨some ⟨none, none⟩⟩ 0 130 "test" (freshState ⟨some ⟨none, none⟩⟩)
      rfl (by decide)).1,
    by decide⟩

/-- The three bands of `computeBadge`. -/
theorem computeBadge_bands (level : Int) :
    (computeBadge level = "Beginner" ↔ level < 3) ∧
    (computeBadge level = "Explorer" ↔ 3 ≤ level ∧ level < 5) ∧
    (computeBadge level = "Legend" ↔ 5 ≤ level) := by
  unfold computeBadge
  by_cases h5 : level ≥ 5
  · simp [h5]
    omega
  · by_cases h3 : level ≥ 3
    · simp [h5, h3]
      omega
    · simp [h5, h3]
      omega

/-- C16 as stated fails: on a page without the XP card `awardXp(10)` returns at its guard,
so a record loaded from storage with level 3 and the badge Beginner keeps that badge, which
is not the badge of level 3. -/
theorem awardXp_without_card_keeps_badge :
    (awardXp ⟨none⟩ 0 10 "example"
      (openPage ⟨none⟩ none (some ⟨300, 3, "Beginner", some 0, none, none⟩))).xp.level
      = 3 ∧
    (awardXp ⟨none⟩ 0 10 "example"
      (openPage ⟨none⟩ none (some ⟨300, 3, "Beginner", some 0, none, none⟩))).xp.badge
      = "Beginner" ∧
    ¬ ((awardXp ⟨none⟩ 0 10 "example"
        (openPage ⟨none⟩ none (some ⟨300, 3, "Beginner", some 0, none, none⟩))).xp.badge
        = "Beginner" ↔
      (awardXp ⟨none⟩ 0 10 "example"
        (openPage ⟨none⟩ none
          (some ⟨300, 3, "Beginner", some 0, none, none⟩))).xp.level < 3) := by
  decide

/-- C16, amended: on a page with the XP card, after every `awardXp` call with a non-zero
amount the badge is a function of the new level: Beginner exactly when the level is below 3,
Explorer exactly when it is 3 or 4, Legend exactly when it is 5 or more.  The same holds for
an amount that is not an integer. -/
theorem awardXp_badge (page : Page) (now amount : Int) (reason : String) (σ : State)
    (hcard : page.xpCard.isSome = true) (hamount : amount ≠ 0) :
    (awardXp page now amount reason σ).xp.badge
        = computeBadge (awardXp page now amount reason σ).xp.level ∧
    ((awardXp page now amount reason σ).xp.badge = "Beginner" ↔
      (awardXp page now amount reason σ).xp.level < 3) ∧
    ((awardXp page now amount reason σ).xp.badge = "Explorer" ↔
      3 ≤ (awardXp page now amount reason σ).xp.level ∧
        (awardXp page now amount reason σ).xp.level < 5) ∧
    ((awardXp page now amount reason σ).xp.badge = "Legend" ↔
      5 ≤ (awardXp page now amount reason σ).xp.level) ∧
    (∀ q : ℚ, q ≠ 0 →
      ((awardXpRational page now q reason σ).xp.badge = "Beginner" ↔
        (awardXpRational page now q reason σ).xp.level < 3) ∧
      ((awardXpRational page now q reason σ).xp.badge = "Explorer" ↔
        3 ≤ (awardXpRational page now q reason σ).xp.level ∧
          (awardXpRational page now q reason σ).xp.level < 5) ∧
      ((awardXpRational page now q reason σ).xp.badge = "Legend" ↔
        5 ≤ (awardXpRational page now q reason σ).xp.level)) := by
  have hb : (awardXp page now amount reason σ).xp.badge
      = computeBadge (awardXp page now amount reason σ).xp.level := by
    rw [awardXp_xp page now amount reason σ hcard hamount]
  refine ⟨hb, ?_, ?_, ?_, ?_⟩
  · rw [hb]
    exact (computeBadge_bands _).1
  · rw [hb]
    exact (computeBadge_bands _).2.1
  · rw [hb]
    exact (computeBadge_bands _).2.2
  · intro q hq
    rw [(awardXpRational_level_badge page now q reason σ hcard hq).2.2]
    exact computeBadge_bands _

/-- Witness for C16, amended: an award of 300 on a first visit with the XP card gives level 3
and the badge Explorer. -/
theorem awardXp_badge_witness :
    (awardXp ⟨some ⟨none, none⟩⟩ 0 300 "test" (freshState ⟨some ⟨none, none⟩⟩)).xp.badge
      = computeBadge
        (awardXp ⟨some ⟨none, none⟩⟩ 0 300 "test" (freshState ⟨some ⟨none, none⟩⟩)).xp.level ∧
    (awardXp ⟨some ⟨none, none⟩⟩ 0 300 "test" (freshState ⟨some ⟨none, none⟩⟩)).xp.badge
      = "Explorer" :=
  ⟨(awardXp_badge ⟨some ⟨none, none⟩⟩ 0 300 "test" (freshState ⟨some ⟨none, none⟩⟩)
      rfl (by decide)).1,
    by decide⟩

/-! ## Claims C17 to C20: the streak -/

/-- C17 as stated fails: on a page without the XP card the first `awardXp(10)` of a first
visit, which has no `lastPlayedAt`, returns at its guard and the streak stays 0. -/
theorem first_award_without_card_keeps_streak :
    (freshState ⟨none⟩).xp.lastPlayedAt = none ∧
    (awardXp ⟨none⟩ 0 10 "example" (freshState ⟨none⟩)).xp.streak = some 0 ∧
    (awardXp ⟨none⟩ 0 10 "example" (freshState ⟨none⟩)).xp.streak ≠ some 1 := by
  decide

/-- C17, amended: on a page with the XP card, for every XP record with no `lastPlayedAt`
and every non-zero amount, `awardXp(amount)` sets the streak to 1 whatever it was. -/
theorem first_award_sets_streak (page : Page) (now amount : Int) (reason : String)
    (σ : State) (hcard : page.xpCard.isSome = true) (hamount : amount ≠ 0)
    (hlast : σ.xp.lastPlayedAt = none) :
    (awardXp page now amount reason σ).xp.streak = some 1 := by
  rw [awardXp_xp page now amount reason σ hcard hamount]
  simp [hlast]

/-- Witness for C17, amended: the first award of a first visit with the XP card, at a record
whose streak was 7. -/
theorem first_award_sets_streak_witness :
    (awardXp ⟨some ⟨none, none⟩⟩ 5 10 "example"
      { freshState ⟨some ⟨none, none⟩⟩ with
        xp := ⟨0, 1, "Beginner", some 7, none, none⟩ }).xp.streak = some 1 :=
  first_award_sets_streak ⟨some ⟨none, none⟩⟩ 5 10 "example"
    { freshState ⟨some ⟨none, none⟩⟩ with xp := ⟨0, 1, "Beginner", some 7, none, none⟩ }
    rfl (by decide) rfl

/-- C18 as stated fails: on a page without the XP card, with `lastPlayedAt` at instant 0 and
the clock at 1000 ms (`diffDays = 0`), `awardXp(10)` returns at its guard: the streak is
unchanged, but so are the total and `lastPlayedAt`. -/
theorem same_day_award_without_card_updates_nothing :
    ((1000 : Int) - 0) / 86400000 = 0 ∧
    (awardXp ⟨none⟩ 1000 10 "example"
      { freshState ⟨none⟩ with xp := ⟨10, 1, "Beginner", some 1, some 0, some "example"⟩ }).xp
      = ⟨10, 1, "Beginner", some 1, some 0, some "example"⟩ ∧
    (awardXp ⟨none⟩ 1000 10 "example"
      { freshState ⟨none⟩ with
        xp := ⟨10, 1, "Beginner", some 1, some 0, some "example"⟩ }).xp.lastPlayedAt
      ≠ some 1000 := by
  decide

/-- C18, amended: for every XP record with `lastPlayedAt` present and every clock reading
with `diffDays = floor((now - lastPlayedAt) / 86400000) = 0`, `awardXp` with a non-zero
amount leaves the streak unchanged; on a page with the XP card it still sets the total to
`max(0, total + amount)` and `lastPlayedAt` to `now`. -/
theorem same_day_award_keeps_streak (page : Page) (now amount last : Int) (reason : String)
    (σ : State) (hamount : amount ≠ 0) (hlast : σ.xp.lastPlayedAt = some last)
    (hdiff : (now - last) / 86400000 = 0) :
    (awardXp page now amount reason σ).xp.streak = σ.xp.streak ∧
    (page.xpCard.isSome = true →
      (awardXp page now amount reason σ).xp.total = max 0 (σ.xp.total + amount) ∧
        (awardXp page now amount reason σ).xp.lastPlayedAt = some now) := by
  cases hc : page.xpCard with
  | none =>
    rw [awardXp_no_card page now amount reason σ hc]
    simp
  | some card =>
    rw [awardXp_xp page now amount reason σ (by simp [hc]) hamount]
    simp [hlast, hdiff]

/-- Witness for C18, amended: a second award one second after the first, on a page with the
XP card. -/
theorem same_day_award_keeps_streak_witness :
    (awardXp ⟨some ⟨none, none⟩⟩ 1000 5 "practice"
      { freshState ⟨some ⟨none, none⟩⟩ with
        xp := ⟨10, 1, "Beginner", some 1, some 0, some "example"⟩ }).xp.streak = some 1 ∧
    (awardXp ⟨some ⟨none, none⟩⟩ 1000 5 "practice"
      { freshState ⟨some ⟨none, none⟩⟩ with
        xp := ⟨10, 1, "Beginner", some 1, some 0, some "example"⟩ }).xp.total = 15 ∧
    (awardXp ⟨some ⟨none, none⟩⟩ 1000 5 "practice"
      { freshState ⟨some ⟨none, none⟩⟩ with
        xp := ⟨10, 1, "Beginner", some 1, some 0, some "example"⟩ }).xp.lastPlayedAt
      = some 1000 :=
  ⟨(same_day_award_keeps_streak ⟨some ⟨none, none⟩⟩ 1000 5 0 "practice"
      { freshState ⟨some ⟨none, none⟩⟩ with
        xp := ⟨10, 1, "Beginner", some 1, some 0, some "example"⟩ }
      (by decide) rfl (by decide)).1,
    ((same_day_award_keeps_streak ⟨some ⟨none, none⟩⟩ 1000 5 0 "practice"
      { freshState ⟨some ⟨none, none⟩⟩ with
        xp := ⟨10, 1, "Beginner", some 1, some 0, some "example"⟩ }
      (by decide) rfl (by decide)).2 rfl).1,
    ((same_day_award_keeps_streak ⟨some ⟨none, none⟩⟩ 1000 5 0 "practice"
      { freshState ⟨some ⟨none, none⟩⟩ with
        xp := ⟨10, 1, "Beginner", some 1, some 0, some "example"⟩ }
      (by decide) rfl (by decide)).2 rfl).2⟩

/-- C19 as stated fails: on a page without the XP card, with `lastPlayedAt` at instant 0, a
streak of 3 and the clock exactly one day later (`diffDays = 1`), `awardXp(10)` returns at
its guard and the streak stays 3. -/
theorem next_day_award_without_card_keeps_streak :
    ((86400000 : Int) - 0) / 86400000 = 1 ∧
    (awardXp ⟨none⟩ 86400000 10 "example"
      { freshState ⟨none⟩ with
        xp := ⟨10, 1, "Beginner", some 3, some 0, some "example"⟩ }).xp.streak = some 3 ∧
    (awardXp ⟨none⟩ 86400000 10 "example"
      { freshState ⟨none⟩ with
        xp := ⟨10, 1, "Beginner", some 3, some 0, some "example"⟩ }).xp.streak
      ≠ some (3 + 1) := by
  decide

/-- C19, amended: on a page with the XP card, for every XP record with `lastPlayedAt`
present and every clock reading with `diffDays = floor((now - lastPlayedAt) / 86400000) = 1`,
that is with at least 24 and less than 48 hours elapsed, `awardXp` with a non-zero amount
sets the streak to the previous streak plus 1, a missing or zero previous streak counting
as 0. -/
theorem next_day_award_increments_streak (page : Page) (now amount last : Int)
    (reason : String) (σ : State) (hcard : page.xpCard.isSome = true) (hamount : amount ≠ 0)
    (hlast : σ.xp.lastPlayedAt = some last) (hdiff : (now - last) / 86400000 = 1) :
    (∀ n : Int, σ.xp.streak = some n →
      (awardXp page now amount reason σ).xp.streak = some (n + 1)) ∧
    (σ.xp.streak = none ∨ σ.xp.streak = some 0 →
      (awardXp page now amount reason σ).xp.streak = some 1) ∧
    (86400000 ≤ now - last ∧ now - last < 2 * 86400000) := by
  rw [awardXp_xp page now amount reason σ hcard hamount]
  refine ⟨?_, ?_, by omega⟩
  · intro n hn
    simp [hlast, hdiff, hn]
  · rintro (h | h) <;> simp [hlast, hdiff, h]

/-- Witness for C19, amended: an award exactly one day after the last one takes a streak of
3 to 4. -/
theorem next_day_award_increments_streak_witness :
    (awardXp ⟨some ⟨none, none⟩⟩ 86400000 10 "example"
      { freshState ⟨some ⟨none, none⟩⟩ with
        xp := ⟨10, 1, "Beginner", some 3, some 0, some "example"⟩ }).xp.streak
      = some (3 + 1) :=
  (next_day_award_increments_streak ⟨some ⟨none, none⟩⟩ 86400000 10 0 "example"
    { freshState ⟨some ⟨none, none⟩⟩ with
      xp := ⟨10, 1, "Beginner", some 3, some 0, some "example"⟩ }
    rfl (by decide) rfl (by decide)).1 3 rfl

/-- C20 as stated fails: on a page without the XP card, with `lastPlayedAt` at instant 0, a
streak of 3 and the clock two days later (`diffDays = 2`), `awardXp(10)` returns at its
guard and the streak stays 3. -/
theorem late_award_without_card_keeps_streak :
    ((172800000 : Int) - 0) / 86400000 > 1 ∧
    (awardXp ⟨none⟩ 172800000 10 "example"
      { freshState ⟨none⟩ with
        xp := ⟨10, 1, "Beginner", some 3, some 0, some "example"⟩ }).xp.streak = some 3 ∧
    (awardXp ⟨none⟩ 172800000 10 "example"
      { freshState ⟨none⟩ with
        xp := ⟨10, 1, "Beginner", some 3, some 0, some "example"⟩ }).xp.streak
      ≠ some 1 := by
  decide

/-- C20, amended: on a page with the XP card, for every XP record with `lastPlayedAt`
present and every clock reading with `diffDays = floor((now - lastPlayedAt) / 86400000) > 1`,
that is with at least 48 hours elapsed, `awardXp` with a non-zero amount resets the streak
to 1 whatever it was. -/
theorem late_award_resets_streak (page : Page) (now amount last : Int) (reason : String)
    (σ : State) (hcard : page.xpCard.isSome = true) (hamount : amount ≠ 0)
    (hlast : σ.xp.lastPlayedAt = some last) (hdiff : (now - last) / 86400000 > 1) :
    (awardXp page now amount reason σ).xp.streak = some 1 ∧
    2 * 86400000 ≤ now - last := by
  rw [awardXp_xp page now amount reason σ hcard hamount]
  refine ⟨?_, by omega⟩
  have hne : ¬ (now - last) / 86400000 = 1 := by omega
  simp [hlast, hne, hdiff]

/-- Witness for C20, amended: an award two days after the last one takes a streak of 3 back
to 1. -/
theorem late_award_resets_streak_witness :
    (awardXp ⟨some ⟨none, none⟩⟩ 172800000 10 "example"
      { freshState ⟨some ⟨none, none⟩⟩ with
        xp := ⟨10, 1, "Beginner", some 3, some 0, some "example"⟩ }).xp.streak = some 1 :=
  (late_award_resets_streak ⟨some ⟨none, none⟩⟩ 172800000 10 0 "example"
    { freshState ⟨some ⟨none, none⟩⟩ with
      xp := ⟨10, 1, "Beginner", some 3, some 0, some "example"⟩ }
    rfl (by decide) rfl (by decide)).1

/-! ## Claim C21: the completion percentage -/

/-- The count of line 306, flag by flag. -/
theorem completedCount_eq (p : ProgressState) :
    completedCount p
      = (if p.concept then 1 else 0) + (if p.example_ then 1 else 0) +
        (if p.practice then 1 else 0) + (if p.test then 1 else 0) +
        (if p.summary then 1 else 0) := by
  simp [completedCount, PROGRESS_STEPS, ProgressState.get]

/-- At most five stages are complete. -/
theorem completedCount_le (p : ProgressState) : completedCount p ≤ 5 := by
  rw [completedCount_eq]
  obtain ⟨c, e, pr, t, s, r⟩ := p
  cases c <;> cases e <;> cases pr <;> cases t <;> cases s <;> simp

/-- The percentage of `n` stages out of five, rounded, is `20 * n`. -/
theorem mathRound_fifths (n : Nat) : mathRound ((n : ℚ) / 5 * 100) = 20 * (n : Int) := by
  have h : (n : ℚ) / 5 * 100 = ((20 * (n : Int) : Int) : ℚ) := by
    push_cast
    ring
  rw [h]
  exact mathRound_intCast _

/-- C21: for every progress record the percentage that `updateProgressUI` displays is
`round(100 * completedCount / 5)` with `completedCount` the number of set flags among the
five stages, `summary` included; it is exactly `20 * completedCount`, hence one of 0, 20,
40, 60, 80 and 100, and two records with the same five stage flags have the same
percentage. -/
theorem progressPercent_spec (p : ProgressState) :
    progressPercent p = mathRound (100 * (completedCount p : ℚ) / 5) ∧
    completedCount p
      = (if p.concept then 1 else 0) + (if p.example_ then 1 else 0) +
        (if p.practice then 1 else 0) + (if p.test then 1 else 0) +
        (if p.summary then 1 else 0) ∧
    progressPercent p = 20 * (completedCount p : Int) ∧
    (progressPercent p = 0 ∨ progressPercent p = 20 ∨ progressPercent p = 40 ∨
      progressPercent p = 60 ∨ progressPercent p = 80 ∨ progressPercent p = 100) ∧
    (∀ q : ProgressState, q.concept = p.concept → q.example_ = p.example_ →
      q.practice = p.practice → q.test = p.test → q.summary = p.summary →
      progressPercent q = progressPercent p) := by
  have h20 : ∀ r : ProgressState, progressPercent r = 20 * (completedCount r : Int) := by
    intro r
    unfold progressPercent
    have hlen : ((PROGRESS_STEPS.length : Nat) : ℚ) = 5 := by
      simp [PROGRESS_STEPS]
    rw [hlen]
    exact mathRound_fifths _
  refine ⟨?_, completedCount_eq p, h20 p, ?_, ?_⟩
  · rw [h20 p]
    have h : 100 * (completedCount p : ℚ) / 5 = (completedCount p : ℚ) / 5 * 100 := by ring
    rw [h]
    exact (mathRound_fifths _).symm
  · rw [h20 p]
    have hle := completedCount_le p
    omega
  · intro q h1 h2 h3 h4 h5
    rw [h20 q, h20 p, completedCount_eq q, completedCount_eq p, h1, h2, h3, h4, h5]

/-! ## Claims C22 and C23: the page load -/

/-- C22 as stated fails: on a first visit to a page whose XP amount element displays 120,
the initial total is 120, not 0. -/
theorem first_visit_total_from_page :
    (initialState ⟨some ⟨none, some 120⟩⟩ (fun _ => none) (fun _ => none)
      (ReadResult.value none) (ReadResult.value none)).xp.total = 120 ∧
    (initialState ⟨some ⟨none, some 120⟩⟩ (fun _ => none) (fun _ => none)
      (ReadResult.value none) (ReadResult.value none)).xp.total ≠ 0 := by
  decide

/-- C22, amended: on a first visit, nothing being stored under the progress key and the XP
key, the initial state has all five stages and `summaryRewarded` unset, level 1, badge
Beginner, streak 0 and no `lastPlayedAt`, on every page; the total is the integer that the
XP amount element of the page displays, and 0 when the page has no XP card or the element
is missing, empty, not a number or displays 0. -/
theorem first_visit_state (page : Page)
    (parseProgress : String → Option (Option ProgressState))
    (parseXp : String → Option (Option XpState)) :
    (initialState page parseProgress parseXp (ReadResult.value none)
      (ReadResult.value none)).progress = ⟨false, false, false, false, false, false⟩ ∧
    (initialState page parseProgress parseXp (ReadResult.value none)
      (ReadResult.value none)).xp.level = 1 ∧
    (initialState page parseProgress parseXp (ReadResult.value none)
      (ReadResult.value none)).xp.badge = "Beginner" ∧
    (initialState page parseProgress parseXp (ReadResult.value none)
      (ReadResult.value none)).xp.streak = some 0 ∧
    (initialState page parseProgress parseXp (ReadResult.value none)
      (ReadResult.value none)).xp.lastPlayedAt = none ∧
    (∀ (card : XpCard) (n : Int), page.xpCard = some card → card.xpAmount = some n →
      (initialState page parseProgress parseXp (ReadResult.value none)
        (ReadResult.value none)).xp.total = n) ∧
    (page.xpCard = none ∨
        (∃ card : XpCard, page.xpCard = some card ∧
          (card.xpAmount = none ∨ card.xpAmount = some 0)) →
      (initialState page parseProgress parseXp (ReadResult.value none)
        (ReadResult.value none)).xp.total = 0) := by
  refine ⟨rfl, rfl, rfl, rfl, rfl, ?_, ?_⟩
  · intro card n hc hn
    simp [initialState, loadState, safeStorageGet, openPage, defaultXpState, hc, hn]
  · rintro (hc | ⟨card, hc, hn | hn⟩)
    · simp [initialState, loadState, safeStorageGet, openPage, defaultXpState, hc]
    · simp [initialState, loadState, safeStorageGet, openPage, defaultXpState, hc, hn]
    · simp [initialState, loadState, safeStorageGet, openPage, defaultXpState, hc, hn]

/-- C23: malformed persisted data is treated as absent.  When the raw string under a key is
not parseable as JSON, `loadState` returns its fallback, as it does when the read throws,
returns `null` or returns the empty string; and the initial state built from two such reads
is the state of a first visit to the page. -/
theorem malformed_storage_is_absent (page : Page)
    (parseProgress : String → Option (Option ProgressState))
    (parseXp : String → Option (Option XpState)) (rawProgress rawXp : String)
    (hp : parseProgress rawProgress = none) (hx : parseXp rawXp = none) :
    (∀ fallback : Option ProgressState,
      loadState parseProgress (ReadResult.value (some rawProgress)) fallback = fallback ∧
        loadState parseProgress ReadResult.throws fallback = fallback ∧
        loadState parseProgress (ReadResult.value none) fallback = fallback ∧
        loadState parseProgress (ReadResult.value (some "")) fallback = fallback) ∧
    (∀ fallback : Option XpState,
      loadState parseXp (ReadResult.value (some rawXp)) fallback = fallback ∧
        loadState parseXp ReadResult.throws fallback = fallback ∧
        loadState parseXp (ReadResult.value none) fallback = fallback ∧
        loadState parseXp (ReadResult.value (some "")) fallback = fallback) ∧
    (∀ progressRead xpRead : ReadResult,
      (progressRead = ReadResult.value (some rawProgress) ∨ progressRead = ReadResult.throws ∨
        progressRead = ReadResult.value none) →
      (xpRead = ReadResult.value (some rawXp) ∨ xpRead = ReadResult.throws ∨
        xpRead = ReadResult.value none) →
      initialState page parseProgress parseXp progressRead xpRead
        = initialState page parseProgress parseXp (ReadResult.value none)
            (ReadResult.value none)) := by
  have lp : ∀ fallback : Option ProgressState,
      loadState parseProgress (ReadResult.value (some rawProgress)) fallback = fallback := by
    intro fallback
    simp only [loadState, safeStorageGet]
    split
    · rfl
    · rw [hp]
  have lx : ∀ fallback : Option XpState,
      loadState parseXp (ReadResult.value (some rawXp)) fallback = fallback := by
    intro fallback
    simp only [loadState, safeStorageGet]
    split
    · rfl
    · rw [hx]
  refine ⟨fun fb => ⟨lp fb, rfl, rfl, by simp [loadState, safeStorageGet]⟩,
    fun fb => ⟨lx fb, rfl, rfl, by simp [loadState, safeStorageGet]⟩, ?_⟩
  intro progressRead xpRead hpr hxr
  have e1 : loadState parseProgress progressRead none = none := by
    rcases hpr with h | h | h <;> rw [h]
    · exact lp none
    · rfl
    · rfl
  have e2 : loadState parseXp xpRead none = none := by
    rcases hxr with h | h | h <;> rw [h]
    · exact lx none
    · rfl
    · rfl
  simp only [initialState, e1, e2]
  rfl

/-- Witness for C23: with a parser that recognises only the two strings it is given records
for, the strings `oops` and `not json` are not parseable, and a page load that reads them starts
from the state of a first visit. -/
theorem malformed_storage_is_absent_witness :
    initialState ⟨some ⟨none, none⟩⟩
        (fun raw => if raw = "P" then some (some ⟨true, true, true, true, true, true⟩) else none)
        (fun raw =>
          if raw = "X" then some (some ⟨62, 1, "Beginner", some 1, some 0, some "summary"⟩)
          else none)
        (ReadResult.value (some "oops")) (ReadResult.value (some "not json"))
      = initialState ⟨some ⟨none, none⟩⟩
        (fun raw => if raw = "P" then some (some ⟨true, true, true, true, true, true⟩) else none)
        (fun raw =>
          if raw = "X" then some (some ⟨62, 1, "Beginner", some 1, some 0, some "summary"⟩)
          else none)
        (ReadResult.value none) (ReadResult.value none) :=
  (malformed_storage_is_absent ⟨some ⟨none, none⟩⟩
    (fun raw => if raw = "P" then some (some ⟨true, true, true, true, true, true⟩) else none)
    (fun raw =>
      if raw = "X" then some (some ⟨62, 1, "Beginner", some 1, some 0, some "summary"⟩)
      else none)
    "oops" "not json" (by decide) (by decide)).2.2 _ _ (Or.inl rfl) (Or.inl rfl)

/-! ## Claim C24: persistence -/

/-- When the body of `setProgressStep` on a stage runs past its guard, the progress slot of
the storage holds the record it leaves in memory. -/
theorem stepBody_persisted (page : Page) (now : Int) (s : Stage) (v : Bool) (σ τ : State)
    (h : stepBody page now (Key.stage s) v σ = some τ) :
    τ.storedProgress = some τ.progress := by
  by_cases hs : s = Stage.summary
  · subst hs
    rw [stepBody_summary] at h
    split at h
    · exact absurd h (by simp)
    · cases v
      · simp [persistProgressState] at h
        rw [← h]
      · simp only [↓reduceIte, Option.some.injEq] at h
        rw [← h]
        exact (handleSummaryUnlocked_effect page now _).2.2 rfl
  · rw [stepBody_stage page now s v σ hs] at h
    split at h
    · exact absurd h (by simp)
    · cases v
      · simp [persistProgressState] at h
        rw [← h]
      · simp only [↓reduceIte, Option.some.injEq] at h
        rw [← h]
        simp [persistProgressState]

/-- A `setProgressStep` call on a stage that returns true leaves the progress slot of the
storage equal to the record in memory; one that returns false leaves the state as it is. -/
theorem setProgressStep_persisted (page : Page) (now nowAuto : Int) (s : Stage)
    (v skipAuto : Bool) (σ : State) :
    ((setProgressStep page now nowAuto (Key.stage s) v skipAuto σ).1 = true →
      (setProgressStep page now nowAuto (Key.stage s) v skipAuto σ).2.storedProgress
        = some (setProgressStep page now nowAuto (Key.stage s) v skipAuto σ).2.progress) ∧
    ((setProgressStep page now nowAuto (Key.stage s) v skipAuto σ).1 = false →
      (setProgressStep page now nowAuto (Key.stage s) v skipAuto σ).2 = σ) := by
  unfold setProgressStep
  cases hb : stepBody page now (Key.stage s) v σ with
  | none => simp
  | some σ3 =>
    have h3 := stepBody_persisted page now s v σ σ3 hb
    simp only []
    split
    · split
      · cases hn : stepBody page nowAuto (Key.stage Stage.summary) true σ3 with
        | none => simpa using h3
        | some σ4 =>
          have h4 := stepBody_persisted page nowAuto Stage.summary true σ3 σ4 hn
          simpa using h4
      · simpa using h3
    · simpa using h3

/-- C24 as stated fails: on a first visit nothing is stored, and a `setProgressStep` call
that finds the flag already at its value, such as `setProgressStep('test', false)`, returns
without writing, so no record is under the progress key; and on a page without the XP card
`awardXp(10)` writes nothing under the XP key. -/
theorem nothing_persisted_by_a_call_without_effect :
    (setProgressStep ⟨none⟩ 0 0 (Key.stage Stage.test) false false (freshState ⟨none⟩)).2.storedProgress
      = none ∧
    (setProgressStep ⟨none⟩ 0 0 (Key.stage Stage.test) false false (freshState ⟨none⟩)).2.storedProgress
      ≠ some (setProgressStep ⟨none⟩ 0 0 (Key.stage Stage.test) false false
          (freshState ⟨none⟩)).2.progress ∧
    (awardXp ⟨none⟩ 0 10 "example" (freshState ⟨none⟩)).storedXp
      ≠ some (awardXp ⟨none⟩ 0 10 "example" (freshState ⟨none⟩)).xp := by
  decide

/-- C24, amended: with storage a store whose writes succeed, after every `setProgressStep`
call on a stage that returns true the record under the progress key is the in-memory
progress record, forced reset of `summary`, cascade and reward guard included; a call that
returns false writes nothing and changes nothing, so a stored record that a reload would
turn into the in-memory record still does so, for the progress record and for the XP record;
and on a page with the XP card, after every `awardXp` call with a non-zero amount the record
under the XP key is the in-memory XP record. -/
theorem persistence_after_mutation (page : Page) (now nowAuto amount : Int) (reason : String)
    (s : Stage) (v skipAuto : Bool) (σ : State) :
    ((setProgressStep page now nowAuto (Key.stage s) v skipAuto σ).1 = true →
      (setProgressStep page now nowAuto (Key.stage s) v skipAuto σ).2.storedProgress
        = some (setProgressStep page now nowAuto (Key.stage s) v skipAuto σ).2.progress) ∧
    ((setProgressStep page now nowAuto (Key.stage s) v skipAuto σ).1 = false →
      (setProgressStep page now nowAuto (Key.stage s) v skipAuto σ).2 = σ) ∧
    (Synced σ → Synced (setProgressStep page now nowAuto (Key.stage s) v skipAuto σ).2) ∧
    (XpSynced page σ →
      XpSynced page (setProgressStep page now nowAuto (Key.stage s) v skipAuto σ).2) ∧
    (page.xpCard.isSome = true → amount ≠ 0 →
      (awardXp page now amount reason σ).storedXp
        = some (awardXp page now amount reason σ).xp) := by
  have hp := setProgressStep_persisted page now nowAuto s v skipAuto σ
  refine ⟨hp.1, hp.2, ?_, ?_, ?_⟩
  · exact (call_effect page ⟨s, v, skipAuto, now, nowAuto⟩ σ).2.2.2
  · obtain ⟨_, _, _, h⟩ := call_awardsOnly page ⟨s, v, skipAuto, now, nowAuto⟩ σ
    exact h
  · intro hcard hamount
    have hnone : page.xpCard.isNone = false := by
      cases h : page.xpCard <;> simp [h] at hcard ⊢
    simp [awardXp, persistXpState, hnone, hamount]

/-! ## Claim C25: is the XP total monotone? -/

/-- An award of a non-negative amount does not lower the total. -/
theorem awardXp_total_mono (page : Page) (now amount : Int) (reason : String) (σ : State)
    (h : 0 ≤ amount) : σ.xp.total ≤ (awardXp page now amount reason σ).xp.total := by
  unfold awardXp persistXpState
  split
  · exact le_refl _
  · exact le_max_of_le_right (by omega)

/-- After `awardXp` the total is non-negative if it was. -/
theorem awardXp_total_nonneg (page : Page) (now amount : Int) (reason : String) (σ : State)
    (h : 0 ≤ σ.xp.total) : 0 ≤ (awardXp page now amount reason σ).xp.total := by
  unfold awardXp persistXpState
  split
  · exact h
  · exact le_max_left 0 _

/-- With a non-negative summary reward every entry of `STEP_XP` is non-negative, so
`triggerXpReward` does not lower the total. -/
theorem triggerXpReward_total_mono (page : Page) (now : Int) (step : Key) (σ : State)
    (hreward : 0 ≤ xpRewardTotal page) :
    σ.xp.total ≤ (triggerXpReward page now step σ).xp.total := by
  unfold triggerXpReward
  split
  · rename_i amount hstep
    split
    · apply awardXp_total_mono
      cases step with
      | summaryRewarded => simp [STEP_XP] at hstep
      | stage st =>
        cases st <;> simp [STEP_XP] at hstep <;> omega
    · exact le_refl _
  · exact le_refl _

/-- After `triggerXpReward` the total is non-negative if it was. -/
theorem triggerXpReward_total_nonneg (page : Page) (now : Int) (step : Key) (σ : State)
    (h : 0 ≤ σ.xp.total) : 0 ≤ (triggerXpReward page now step σ).xp.total := by
  unfold triggerXpReward
  split
  · split
    · exact awardXp_total_nonneg page now _ _ σ h
    · exact h
  · exact h

/-- What the body of `setProgressStep` on a stage does to the total: it stays non-negative,
and with a non-negative summary reward it does not go down. -/
theorem stepBody_total (page : Page) (now : Int) (s : Stage) (v : Bool) (σ : State) :
    (0 ≤ xpRewardTotal page →
      σ.xp.total ≤ ((stepBody page now (Key.stage s) v σ).getD σ).xp.total) ∧
    (0 ≤ σ.xp.total → 0 ≤ ((stepBody page now (Key.stage s) v σ).getD σ).xp.total) := by
  by_cases hs : s = Stage.summary
  · subst hs
    rw [stepBody_summary]
    split
    · exact ⟨fun _ => le_refl _, fun h => h⟩
    · cases v
      · exact ⟨fun _ => le_refl _, fun h => h⟩
      · simp only [↓reduceIte, Option.getD_some]
        unfold handleSummaryUnlocked persistProgressState
        split
        · exact ⟨fun hr => triggerXpReward_total_mono page now _ _ hr,
            fun h => triggerXpReward_total_nonneg page now _ _ h⟩
        · exact ⟨fun _ => le_refl _, fun h => h⟩
  · rw [stepBody_stage page now s v σ hs]
    split
    · exact ⟨fun _ => le_refl _, fun h => h⟩
    · cases v
      · exact ⟨fun _ => le_refl _, fun h => h⟩
      · simp only [↓reduceIte, Option.getD_some]
        exact ⟨fun hr => triggerXpReward_total_mono page now _ _ hr,
          fun h => triggerXpReward_total_nonneg page now _ _ h⟩

/-- What a `setProgressStep` call on a stage does to the total. -/
theorem setProgressStep_total (page : Page) (now nowAuto : Int) (s : Stage)
    (v skipAuto : Bool) (σ : State) :
    (0 ≤ xpRewardTotal page →
      σ.xp.total ≤ (setProgressStep page now nowAuto (Key.stage s) v skipAuto σ).2.xp.total) ∧
    (0 ≤ σ.xp.total →
      0 ≤ (setProgressStep page now nowAuto (Key.stage s) v skipAuto σ).2.xp.total) := by
  have h1 := stepBody_total page now s v σ
  unfold setProgressStep
  cases hb : stepBody page now (Key.stage s) v σ with
  | none => exact ⟨fun _ => le_refl _, fun h => h⟩
  | some σ3 =>
    rw [hb] at h1
    simp only [Option.getD_some] at h1
    have h2 := stepBody_total page nowAuto Stage.summary true σ3
    simp only []
    split
    · split
      · exact ⟨fun hr => le_trans (h1.1 hr) (h2.1 hr), fun h => h2.2 (h1.2 h)⟩
      · exact h1
    · exact h1

/-- C25 as stated fails: an award of a negative amount lowers the total.  With a total of
100, `awardXp(-30)` leaves 70; and on a page whose summary reward is configured as -30,
`setProgressStep('summary', true)` makes that award and leaves 70 as well. -/
theorem negative_award_lowers_total :
    (awardXp ⟨some ⟨some (-30), none⟩⟩ 0 (-30) "summary"
      { freshState ⟨some ⟨some (-30), none⟩⟩ with
        xp := ⟨100, 1, "Beginner", some 0, none, none⟩ }).xp.total = 70 ∧
    xpRewardTotal ⟨some ⟨some (-30), none⟩⟩ = -30 ∧
    (setProgressStep ⟨some ⟨some (-30), none⟩⟩ 0 0 (Key.stage Stage.summary) true false
      { freshState ⟨some ⟨some (-30), none⟩⟩ with
        xp := ⟨100, 1, "Beginner", some 0, none, none⟩ }).2.xp.total = 70 ∧
    ¬ ((100 : Int) ≤
      (setProgressStep ⟨some ⟨some (-30), none⟩⟩ 0 0 (Key.stage Stage.summary) true false
        { freshState ⟨some ⟨some (-30), none⟩⟩ with
          xp := ⟨100, 1, "Beginner", some 0, none, none⟩ }).2.xp.total) := by
  decide

/-- C25, amended: for every XP record with a non-negative total, an `awardXp(amount)` call
with a non-negative amount leaves the total greater than or equal to the total before, and
so does every `setProgressStep` call on a stage on a page whose summary reward is
non-negative; an award of a negative amount may lower the total, but after any of these
calls the total is still non-negative. -/
theorem xp_total_monotone (page : Page) (now nowAuto amount : Int) (reason : String)
    (s : Stage) (v skipAuto : Bool) (σ : State) (htotal : 0 ≤ σ.xp.total) :
    (0 ≤ amount → σ.xp.total ≤ (awardXp page now amount reason σ).xp.total) ∧
    (0 ≤ xpRewardTotal page →
      σ.xp.total ≤ (setProgressStep page now nowAuto (Key.stage s) v skipAuto σ).2.xp.total) ∧
    0 ≤ (awardXp page now amount reason σ).xp.total ∧
    0 ≤ (setProgressStep page now nowAuto (Key.stage s) v skipAuto σ).2.xp.total :=
  ⟨awardXp_total_mono page now amount reason σ,
    (setProgressStep_total page now nowAuto s v skipAuto σ).1,
    awardXp_total_nonneg page now amount reason σ htotal,
    (setProgressStep_total page now nowAuto s v skipAuto σ).2 htotal⟩

/-- Witness for C25, amended: with the default reward of 40 and a total of 100, the direct
completion of `summary` takes the total to 140. -/
theorem xp_total_monotone_witness :
    (100 : Int) ≤
      (setProgressStep ⟨some ⟨none, none⟩⟩ 0 0 (Key.stage Stage.summary) true false
        { freshState ⟨some ⟨none, none⟩⟩ with
          xp := ⟨100, 1, "Beginner", some 0, none, none⟩ }).2.xp.total ∧
    (setProgressStep ⟨some ⟨none, none⟩⟩ 0 0 (Key.stage Stage.summary) true false
      { freshState ⟨some ⟨none, none⟩⟩ with
        xp := ⟨100, 1, "Beginner", some 0, none, none⟩ }).2.xp.total = 140 :=
  ⟨(xp_total_monotone ⟨some ⟨none, none⟩⟩ 0 0 10 "example" Stage.summary true false
      { freshState ⟨some ⟨none, none⟩⟩ with xp := ⟨100, 1, "Beginner", some 0, none, none⟩ }
      (by decide)).2.1 (by decide),
    by decide⟩

/-! ## Claims C26 to C28: invariant and frame of a call -/

/-- C26: the invariant that `summary` implies concept, example, practice and test is
preserved by every `setProgressStep` call on a stage other than summary, for either value
and with or without `skipAuto`; a call that unsets `summary` preserves it too, so only a
direct `setProgressStep('summary', true)` or a loaded record can break it. -/
theorem summary_invariant_preserved (page : Page) (now nowAuto : Int) (s : Stage)
    (v skipAuto : Bool) (σ : State) (hs : s ≠ Stage.summary)
    (hinv : SummaryInv σ.progress) :
    SummaryInv (setProgressStep page now nowAuto (Key.stage s) v skipAuto σ).2.progress ∧
    SummaryInv
      (setProgressStep page now nowAuto (Key.stage Stage.summary) false skipAuto σ).2.progress := by
  constructor
  · rw [setProgressStep_snd_progress]
    exact progressAfter_summaryInv s v skipAuto σ.progress hinv (fun h => absurd h hs)
  · rw [setProgressStep_snd_progress]
    exact progressAfter_summaryInv Stage.summary false skipAuto σ.progress hinv
      (fun _ h => absurd h (by decide))

/-- Witness for C26: from the all-complete record, regressing `example` with the cascade
suppressed keeps the invariant, by taking `summary` down. -/
theorem summary_invariant_preserved_witness :
    SummaryInv (⟨true, true, true, true, true, true⟩ : ProgressState) ∧
    SummaryInv
      (setProgressStep ⟨some ⟨none, none⟩⟩ 0 0 (Key.stage Stage.example) false true
        { freshState ⟨some ⟨none, none⟩⟩ with
          progress := ⟨true, true, true, true, true, true⟩ }).2.progress ∧
    (setProgressStep ⟨some ⟨none, none⟩⟩ 0 0 (Key.stage Stage.example) false true
      { freshState ⟨some ⟨none, none⟩⟩ with
        progress := ⟨true, true, true, true, true, true⟩ }).2.progress.summary = false :=
  ⟨by decide,
    (summary_invariant_preserved ⟨some ⟨none, none⟩⟩ 0 0 Stage.example false true
      { freshState ⟨some ⟨none, none⟩⟩ with
        progress := ⟨true, true, true, true, true, true⟩ } (by decide) (by decide)).1,
    by decide⟩

/-- Progress-record form of C27: a call on a stage other than summary leaves the flags of
the other such stages alone. -/
theorem progressAfter_frame (st t : Stage) (v sk : Bool) (p : ProgressState)
    (hst : st ≠ Stage.summary) (ht : t ≠ Stage.summary) (hne : t ≠ st) :
    (progressAfter (Key.stage st) v sk p).2.get (Key.stage t) = p.get (Key.stage t) := by
  obtain ⟨c, e, pr, tt, s, r⟩ := p
  revert hst ht hne
  revert c e pr tt s r
  cases st <;> cases t <;> cases v <;> cases sk <;> decide

/-- A call on a stage never lowers the reward guard. -/
theorem progressAfter_rewarded (st : Stage) (v sk : Bool) (p : ProgressState)
    (h : p.summaryRewarded = true) :
    (progressAfter (Key.stage st) v sk p).2.summaryRewarded = true := by
  obtain ⟨c, e, pr, tt, s, r⟩ := p
  revert h
  revert c e pr tt s r
  cases st <;> cases v <;> cases sk <;> decide

/-- C27: the frame of `setProgressStep` on the progress record.  For every stage `s` other
than summary, every value and every state, the call changes the flag of no other stage among
concept, example, practice and test, so that of the six fields of the record only `s`,
`summary` and `summaryRewarded` can change; and `summaryRewarded` can only go from false to
true. -/
theorem setProgressStep_frame (page : Page) (now nowAuto : Int) (s : Stage)
    (v skipAuto : Bool) (σ : State) (hs : s ≠ Stage.summary) :
    (∀ t : Stage, t ≠ Stage.summary → t ≠ s →
      (setProgressStep page now nowAuto (Key.stage s) v skipAuto σ).2.progress.get
        (Key.stage t) = σ.progress.get (Key.stage t)) ∧
    ((setProgressStep page now nowAuto (Key.stage s) v skipAuto σ).2.progress.summaryRewarded
        ≠ σ.progress.summaryRewarded →
      σ.progress.summaryRewarded = false ∧
        (setProgressStep page now nowAuto (Key.stage s) v skipAuto σ).2.progress.summaryRewarded
          = true) := by
  constructor
  · intro t ht hne
    rw [setProgressStep_snd_progress]
    exact progressAfter_frame s t v skipAuto σ.progress hs ht hne
  · intro hchange
    rw [setProgressStep_snd_progress] at hchange ⊢
    have hup : σ.progress.summaryRewarded = true →
        (progressAfter (Key.stage s) v skipAuto σ.progress).2.summaryRewarded = true :=
      progressAfter_rewarded s v skipAuto σ.progress
    cases hb : σ.progress.summaryRewarded
    · refine ⟨rfl, ?_⟩
      cases ha : (progressAfter (Key.stage s) v skipAuto σ.progress).2.summaryRewarded
      · rw [hb, ha] at hchange
        exact absurd rfl hchange
      · rfl
    · rw [hb, hup hb] at hchange
      exact absurd rfl hchange

/-- Witness for C27: completing `test` as the last prerequisite changes `test`, `summary`
and `summaryRewarded`, and leaves concept, example and practice as they were. -/
theorem setProgressStep_frame_witness :
    (setProgressStep ⟨some ⟨none, none⟩⟩ 0 0 (Key.stage Stage.test) true false
      { freshState ⟨some ⟨none, none⟩⟩ with
        progress := ⟨true, true, true, false, false, false⟩ }).2.progress
      = ⟨true, true, true, true, true, true⟩ ∧
    (setProgressStep ⟨some ⟨none, none⟩⟩ 0 0 (Key.stage Stage.test) true false
      { freshState ⟨some ⟨none, none⟩⟩ with
        progress := ⟨true, true, true, false, false, false⟩ }).2.progress.get
        (Key.stage Stage.practice) = true :=
  ⟨by decide,
    (setProgressStep_frame ⟨some ⟨none, none⟩⟩ 0 0 Stage.test true false
      { freshState ⟨some ⟨none, none⟩⟩ with
        progress := ⟨true, true, true, false, false, false⟩ } (by decide)).1
      Stage.practice (by decide) (by decide)⟩

/-- C28: regression never touches XP.  For every one of the five stages, every state and
either `skipAuto` flag, `setProgressStep(stage, false)` leaves the XP record (total, level,
badge, streak, `lastPlayedAt`, last reason), its storage slot and the award history as they
were, and does not reset `summaryRewarded`. -/
theorem regress_leaves_xp (page : Page) (now nowAuto : Int) (s : Stage) (skipAuto : Bool)
    (σ : State) :
    (setProgressStep page now nowAuto (Key.stage s) false skipAuto σ).2.xp = σ.xp ∧
    (setProgressStep page now nowAuto (Key.stage s) false skipAuto σ).2.storedXp
      = σ.storedXp ∧
    (setProgressStep page now nowAuto (Key.stage s) false skipAuto σ).2.awardLog
      = σ.awardLog ∧
    (setProgressStep page now nowAuto (Key.stage s) false skipAuto σ).2.progress.summaryRewarded
      = σ.progress.summaryRewarded := by
  by_cases hs : s = Stage.summary
  · subst hs
    rw [setProgressStep_summary_snd, stepBody_summary]
    split <;> simp [persistProgressState]
  · rw [setProgressStep_stage page now nowAuto s false skipAuto σ hs]
    split <;> simp [persistProgressState, set_stage_summaryRewarded]

/-! ## Claims C29 and C30: the guard of `awardXp`, and the badge by total -/

/-- C29: `awardXp` with amount 0, or on a page without the XP card, is a complete no-op: the
whole state is returned as it was, so total, level, badge, streak, `lastPlayedAt` and the
record under the XP key are unchanged; a zero award neither sets `lastPlayedAt` to `now` nor
starts or advances a streak. -/
theorem awardXp_guard_is_noop (page : Page) (now amount : Int) (reason : String) (σ : State)
    (h : amount = 0 ∨ page.xpCard = none) :
    awardXp page now amount reason σ = σ ∧
    (awardXp page now amount reason σ).xp.lastPlayedAt = σ.xp.lastPlayedAt ∧
    (awardXp page now amount reason σ).xp.streak = σ.xp.streak ∧
    (awardXp page now amount reason σ).storedXp = σ.storedXp := by
  have hnoop : awardXp page now amount reason σ = σ := by
    rcases h with h | h
    · simp [awardXp, h]
    · exact awardXp_no_card page now amount reason σ h
  rw [hnoop]
  exact ⟨rfl, rfl, rfl, rfl⟩

/-- Witness for C29: a zero award a day after the last one, on a page with the XP card,
leaves a streak of 3 and the instant of the last award as they were. -/
theorem awardXp_guard_is_noop_witness :
    (awardXp ⟨some ⟨none, none⟩⟩ 86400000 0 "concept"
      { freshState ⟨some ⟨none, none⟩⟩ with
        xp := ⟨10, 1, "Beginner", some 3, some 0, some "example"⟩ }).xp
      = ⟨10, 1, "Beginner", some 3, some 0, some "example"⟩ :=
  congrArg State.xp
    (awardXp_guard_is_noop ⟨some ⟨none, none⟩⟩ 86400000 0 "concept"
      { freshState ⟨some ⟨none, none⟩⟩ with
        xp := ⟨10, 1, "Beginner", some 3, some 0, some "example"⟩ } (Or.inl rfl)).1

/-- The level does not go down when the total goes up. -/
theorem computeLevel_mono (t1 t2 : Int) (h : t1 ≤ t2) : computeLevel t1 ≤ computeLevel t2 := by
  unfold computeLevel
  have : t1 / 120 ≤ t2 / 120 := Int.ediv_le_ediv (by decide) h
  omega

/-- The rank of the badge of a level. -/
theorem badgeRank_computeBadge (level : Int) :
    badgeRank (computeBadge level) = if level ≥ 5 then 2 else if level ≥ 3 then 1 else 0 := by
  unfold computeBadge badgeRank
  by_cases h5 : level ≥ 5
  · simp [h5]
  · by_cases h3 : level ≥ 3
    · simp [h5, h3]
    · simp [h5, h3]

/-- The badge of the level of a non-negative total, by bands of the total. -/
theorem computeBadge_of_total (t : Int) (h : 0 ≤ t) :
    (computeBadge (t / 120 + 1) = "Beginner" ↔ t < 240) ∧
    (computeBadge (t / 120 + 1) = "Explorer" ↔ 240 ≤ t ∧ t < 480) ∧
    (computeBadge (t / 120 + 1) = "Legend" ↔ 480 ≤ t) := by
  have hb := computeBadge_bands (t / 120 + 1)
  refine ⟨hb.1.trans ?_, hb.2.1.trans ?_, hb.2.2.trans ?_⟩ <;> omega

/-- C30 as stated fails: on a page without the XP card `awardXp(10)` returns at its guard,
so a record loaded from storage with total 300 and the badge Beginner keeps that badge,
although 300 is not below 240. -/
theorem awardXp_without_card_badge_not_by_total :
    (awardXp ⟨none⟩ 0 10 "example"
      (openPage ⟨none⟩ none (some ⟨300, 1, "Beginner", some 0, none, none⟩))).xp.total
      = 300 ∧
    (awardXp ⟨none⟩ 0 10 "example"
      (openPage ⟨none⟩ none (some ⟨300, 1, "Beginner", some 0, none, none⟩))).xp.badge
      = "Beginner" ∧
    ¬ ((awardXp ⟨none⟩ 0 10 "example"
        (openPage ⟨none⟩ none (some ⟨300, 1, "Beginner", some 0, none, none⟩))).xp.badge
        = "Beginner" ↔
      (awardXp ⟨none⟩ 0 10 "example"
        (openPage ⟨none⟩ none
          (some ⟨300, 1, "Beginner", some 0, none, none⟩))).xp.total < 240) := by
  decide

/-- C30, amended: badge as a function of total.  On a page with the XP card, after every
`awardXp` call with a non-zero amount the badge is Beginner exactly when the total is below
240, Explorer exactly when it is at least 240 and below 480, Legend exactly when it is at
least 480, also for an amount that is not an integer; and level and badge are non-decreasing
in the total. -/
theorem awardXp_badge_by_total (page : Page) (now amount : Int) (reason : String)
    (σ : State) (hcard : page.xpCard.isSome = true) (hamount : amount ≠ 0) :
    ((awardXp page now amount reason σ).xp.badge = "Beginner" ↔
      (awardXp page now amount reason σ).xp.total < 240) ∧
    ((awardXp page now amount reason σ).xp.badge = "Explorer" ↔
      240 ≤ (awardXp page now amount reason σ).xp.total ∧
        (awardXp page now amount reason σ).xp.total < 480) ∧
    ((awardXp page now amount reason σ).xp.badge = "Legend" ↔
      480 ≤ (awardXp page now amount reason σ).xp.total) ∧
    (∀ q : ℚ, q ≠ 0 →
      ((awardXpRational page now q reason σ).xp.badge = "Beginner" ↔
        (awardXpRational page now q reason σ).xp.total < 240) ∧
      ((awardXpRational page now q reason σ).xp.badge = "Explorer" ↔
        240 ≤ (awardXpRational page now q reason σ).xp.total ∧
          (awardXpRational page now q reason σ).xp.total < 480) ∧
      ((awardXpRational page now q reason σ).xp.badge = "Legend" ↔
        480 ≤ (awardXpRational page now q reason σ).xp.total)) ∧
    (∀ t1 t2 : Int, t1 ≤ t2 → computeLevel t1 ≤ computeLevel t2) ∧
    (∀ t1 t2 : Int, t1 ≤ t2 →
      badgeRank (computeBadge (computeLevel t1))
        ≤ badgeRank (computeBadge (computeLevel t2))) := by
  have hstate : 0 ≤ (awardXp page now amount reason σ).xp.total ∧
      (awardXp page now amount reason σ).xp.badge
        = computeBadge ((awardXp page now amount reason σ).xp.total / 120 + 1) := by
    rw [awardXp_xp page now amount reason σ hcard hamount]
    refine ⟨le_max_left 0 _, ?_⟩
    simp only []
    rw [computeLevel_of_nonneg _ (le_max_left 0 _)]
  obtain ⟨h0, hb⟩ := hstate
  have hbands := computeBadge_of_total _ h0
  rw [← hb] at hbands
  refine ⟨hbands.1, hbands.2.1, hbands.2.2, ?_, computeLevel_mono, ?_⟩
  · intro q hq
    obtain ⟨hq0, hql, hqb⟩ := awardXpRational_level_badge page now q reason σ hcard hq
    have hqbands := computeBadge_of_total _ hq0
    rw [← computeLevel_of_nonneg _ hq0, ← hql, ← hqb] at hqbands
    exact hqbands
  · intro t1 t2 h
    have hl := computeLevel_mono t1 t2 h
    rw [badgeRank_computeBadge, badgeRank_computeBadge]
    split_ifs <;> omega

/-- Witness for C30, amended: an award of 250 on a first visit with the XP card gives the
badge Explorer, the total lying between 240 and 480. -/
theorem awardXp_badge_by_total_witness :
    ((awardXp ⟨some ⟨none, none⟩⟩ 0 250 "test" (freshState ⟨some ⟨none, none⟩⟩)).xp.badge
        = "Explorer" ↔
      240 ≤ (awardXp ⟨some ⟨none, none⟩⟩ 0 250 "test"
          (freshState ⟨some ⟨none, none⟩⟩)).xp.total ∧
        (awardXp ⟨some ⟨none, none⟩⟩ 0 250 "test"
          (freshState ⟨some ⟨none, none⟩⟩)).xp.total < 480) ∧
    (awardXp ⟨some ⟨none, none⟩⟩ 0 250 "test" (freshState ⟨some ⟨none, none⟩⟩)).xp.badge
      = "Explorer" :=
  ⟨(awardXp_badge_by_total ⟨some ⟨none, none⟩⟩ 0 250 "test"
      (freshState ⟨some ⟨none, none⟩⟩) rfl (by decide)).2.1,
    by decide⟩

end Lesson
